import Mathlib

/-!
# v4l2rtspserver-snx : frame pipeline and encoder-session orchestration

A shallow embedding of

* `src/src/V4L2DeviceSource.cpp`      (frame queue, delivery adapter),
* `src/inc/snx/SnxDeviceInterface.h`  (parameter-set cache and keyframe repair),
* `src/src/snx/SnxCodecController.cpp` (encoder session start / stop ladder),

followed by the theorems that relate the code to its specification.

Conventions.  A C++ byte buffer (pointer + length) is a `List Nat`; `timeval`
fields, file descriptors and `int` members are mathematical integers; the
result of a call into the vendor SDK or the kernel is read from an oracle
indexed by the number of external calls issued so far, and every external call
is appended to a trace.
-/

namespace V4L2DeviceSource

/-! ## Data model of `V4L2DeviceSource` -/

/-- The C `struct timeval`. -/
structure Timeval where
  tv_sec : Int
  tv_usec : Int
deriving DecidableEq

/-- The queued access unit `V4L2DeviceSource::Frame`: `m_buffer` together with
`m_size` is the list of bytes, `m_timestamp` the capture time. -/
structure Frame where
  m_buffer : List Nat
  m_timestamp : Timeval
deriving DecidableEq

/-- The member `Frame::m_size`. -/
def Frame.m_size (f : Frame) : Nat := f.m_buffer.length

/-! ## `queueFrame` -/

/-- The eviction loop of `queueFrame`:
`while (m_captureQueue.size() >= m_queueSize) { delete front(); pop_front(); }`.
The recursion follows the queue, which loses one entry per iteration.  `none`
stands for the iteration the loop would run on an empty queue (`front()` and
`pop_front()` of an empty `std::list`), which C++ leaves undefined. -/
def evictWhileFull (m_queueSize : Nat) : List Frame → Option (List Frame)
  | [] => if 0 ≥ m_queueSize then none else some []
  | f :: rest =>
      if (f :: rest).length ≥ m_queueSize then evictWhileFull m_queueSize rest
      else some (f :: rest)

/-- The queue after `V4L2DeviceSource::queueFrame`: evict while full, then
`push_back` the new frame.  (The event trigger signalled afterwards does not
touch the queue.) -/
def queueFrame (m_queueSize : Nat) (m_captureQueue : List Frame) (frame : Frame) :
    Option (List Frame) :=
  (evictWhileFull m_queueSize m_captureQueue).map (fun q => q ++ [frame])

/-- Successive calls of `queueFrame`, one per frame, with no pop in between. -/
def pushAll (m_queueSize : Nat) : List Frame → List Frame → Option (List Frame)
  | q, [] => some q
  | q, f :: fs => (queueFrame m_queueSize q f).bind (fun q1 => pushAll m_queueSize q1 fs)

/-! ## `deliverFrame` -/

/-- The glibc macro `timersub(a, b, result)`. -/
def timersub (a b : Timeval) : Timeval :=
  let sec := a.tv_sec - b.tv_sec
  let usec := a.tv_usec - b.tv_usec
  if usec < 0 then ⟨sec - 1, usec + 1000000⟩ else ⟨sec, usec⟩

/-- Conversion of a `long` to an `unsigned long` of `bits` bits. -/
def toUnsignedLong (bits : Nat) (x : Int) : Int := x % (2 : Int) ^ bits

/-- The call `memcpy(dest, src, n)` on a destination buffer of at least `n` bytes. -/
def memcpy (dest src : List Nat) (n : Nat) : List Nat := src.take n ++ dest.drop n

/-- The members of `V4L2DeviceSource` (and of its base `FramedSource`) that
`deliverFrame` reads or writes.  `triggerCount` counts the calls of
`triggerEvent(m_eventTriggerId, this)` and `afterGettingCount` those of
`FramedSource::afterGetting(this)`.  (The `m_out` statistics only feed a log
line and are left out.) -/
structure SourceState where
  m_captureQueue : List Frame
  m_firstFrame : Bool
  m_lastPresentationTime : Timeval
  fPresentationTime : Timeval
  fDurationInMicroseconds : Nat
  fFrameSize : Nat
  fNumTruncatedBytes : Nat
  fTo : List Nat
  triggerCount : Nat
  afterGettingCount : Nat
deriving DecidableEq

/-- What one call of `deliverFrame` reads from outside the object:
`isCurrentlyAwaitingData()`, `fMaxSize`, the two `gettimeofday` readings
(`curTime` at the pop, `baseline` the one stored in `fPresentationTime` for the
first frame) and the width of `unsigned long` on the platform. -/
structure DeliverEnv where
  isCurrentlyAwaitingData : Bool
  fMaxSize : Nat
  curTime : Timeval
  baseline : Timeval
  ulongBits : Nat
deriving DecidableEq

/-- The presentation time after the `if (m_firstFrame) ... else ...` block of
`deliverFrame`. -/
def nextPresentationTime (env : DeliverEnv) (s : SourceState) (frame : Frame) : Timeval :=
  if s.m_firstFrame then env.baseline
  else
    let frameInterval := timersub frame.m_timestamp s.m_lastPresentationTime
    let uSeconds := toUnsignedLong env.ulongBits (s.fPresentationTime.tv_usec + frameInterval.tv_usec)
    ⟨s.fPresentationTime.tv_sec + (frameInterval.tv_sec + uSeconds / 1000000),
     uSeconds % 1000000⟩

/-- The block of `deliverFrame` that runs under `m_mutex`: nothing on an empty
queue, else pop the oldest frame, size and copy it, set the presentation time
and re-trigger the event when frames remain. -/
def deliverLocked (env : DeliverEnv) (s0 : SourceState) : SourceState :=
  match s0.m_captureQueue with
  | [] => s0
  | frame :: rest =>
      let truncated := decide (frame.m_size > env.fMaxSize)
      let frameSize := if truncated then env.fMaxSize else frame.m_size
      { s0 with
        m_captureQueue := rest
        fFrameSize := frameSize
        fNumTruncatedBytes :=
          if truncated then frame.m_size - env.fMaxSize else s0.fNumTruncatedBytes
        fPresentationTime := nextPresentationTime env s0 frame
        m_firstFrame := false
        m_lastPresentationTime := frame.m_timestamp
        fTo := memcpy s0.fTo frame.m_buffer frameSize
        triggerCount := if rest.isEmpty then s0.triggerCount else s0.triggerCount + 1 }

/-- The tail of `deliverFrame`: `if (fFrameSize > 0) FramedSource::afterGetting(this);`. -/
def afterGettingIfFrame (s1 : SourceState) : SourceState :=
  if s1.fFrameSize > 0 then { s1 with afterGettingCount := s1.afterGettingCount + 1 } else s1

/-- One call of `V4L2DeviceSource::deliverFrame`. -/
def deliverFrame (env : DeliverEnv) (s : SourceState) : SourceState :=
  if env.isCurrentlyAwaitingData then
    afterGettingIfFrame
      (deliverLocked env { s with fDurationInMicroseconds := 0, fFrameSize := 0 })
  else s

/-- One record per frame actually popped by `deliverFrame`: its capture
timestamp, the wall-clock reading of that call and the presentation time the
call left in `fPresentationTime`. -/
structure Delivery where
  capture : Timeval
  wallClock : Timeval
  presentation : Timeval
deriving DecidableEq

/-- Successive calls of `deliverFrame`, one per environment, and the frames
they delivered, in order. -/
def deliveries : SourceState → List DeliverEnv → List Delivery
  | _, [] => []
  | s, env :: envs =>
      match env.isCurrentlyAwaitingData, s.m_captureQueue with
      | true, frame :: _ =>
          ⟨frame.m_timestamp, env.baseline, (deliverFrame env s).fPresentationTime⟩
            :: deliveries (deliverFrame env s) envs
      | _, _ => deliveries (deliverFrame env s) envs

/-- A `timeval` is normalised when `0 ≤ tv_usec < 1000000`. -/
def Timeval.normalised (t : Timeval) : Prop := 0 ≤ t.tv_usec ∧ t.tv_usec < 1000000

/-- The instant of a `timeval` as a count of microseconds. -/
def Timeval.micros (t : Timeval) : Int := t.tv_sec * 1000000 + t.tv_usec

/-- The state the constructor of `V4L2DeviceSource` leaves, with the given
frames already queued. -/
def SourceState.init (queue : List Frame) : SourceState :=
  { m_captureQueue := queue, m_firstFrame := true, m_lastPresentationTime := ⟨0, 0⟩,
    fPresentationTime := ⟨0, 0⟩, fDurationInMicroseconds := 0, fFrameSize := 0,
    fNumTruncatedBytes := 0, fTo := [], triggerCount := 0, afterGettingCount := 0 }

/-- The relation between two consecutive deliveries: the presentation time
advances by the difference of the capture timestamps. -/
def paced (d e : Delivery) : Prop :=
  e.presentation.micros = d.presentation.micros + (e.capture.micros - d.capture.micros)

/-- Every consecutive pair of `d :: l` is `paced`. -/
def pacedFrom : Delivery → List Delivery → Prop
  | _, [] => True
  | d, e :: rest => paced d e ∧ pacedFrom e rest

/-- Two queued frames whose capture timestamps are 200 ms apart. -/
def exampleQueue : List Frame :=
  [⟨[0, 0, 0, 1, 0x65], ⟨100, 900000⟩⟩, ⟨[0, 0, 0, 1, 0x41], ⟨101, 100000⟩⟩]

/-- Two delivery calls, the second one three seconds of wall-clock time late. -/
def exampleEnvs : List DeliverEnv :=
  [⟨true, 4, ⟨5000, 999999⟩, ⟨5000, 999999⟩, 32⟩, ⟨true, 64, ⟨5003, 7⟩, ⟨5003, 8⟩, 32⟩]

end V4L2DeviceSource

namespace SnxDeviceInterface

/-! ## The Annex-B helpers of `SnxDeviceInterface` -/

/-- Embeds `nalUnitType(b) = b & 0x1F`. -/
def nalUnitType (b : Nat) : Nat := b &&& 0x1F

/-- Embeds `isStartCode3(&buf[p])`: the bytes `00 00 01` at index `p`. -/
def isStartCode3 (buf : List Nat) (p : Nat) : Bool :=
  buf[p]? == some 0x00 && buf[p + 1]? == some 0x00 && buf[p + 2]? == some 0x01

/-- Embeds `isStartCode4(&buf[p])`: the bytes `00 00 00 01` at index `p`. -/
def isStartCode4 (buf : List Nat) (p : Nat) : Bool :=
  buf[p]? == some 0x00 && buf[p + 1]? == some 0x00 && buf[p + 2]? == some 0x00 &&
    buf[p + 3]? == some 0x01

/-- The `for` loop of `findStartCode`, from index `i`.  The first argument
bounds the number of iterations; `findStartCode` passes `buf.size() - off`, which
the loop cannot exceed since `i` grows by one per iteration. -/
def findStartCodeLoop (buf : List Nat) : Nat → Nat → Option Nat
  | 0, _ => none
  | fuel + 1, i =>
      if i + 3 < buf.length then
        if isStartCode4 buf i then some (i + 4)
        else if i + 2 < buf.length && isStartCode3 buf i then some (i + 3)
        else findStartCodeLoop buf fuel (i + 1)
      else none

/-- Embeds `findStartCode(buf, off)`; `none` is `std::string::npos`. -/
def findStartCode (buf : List Nat) (off : Nat) : Option Nat :=
  findStartCodeLoop buf (buf.length - off) off

/-- The members `m_sps` and `m_pps`. -/
structure ParamSets where
  m_sps : List Nat
  m_pps : List Nat
deriving DecidableEq

/-- The end `nalEnd` of the unit that starts at `pos`, from `next =
findStartCode(buf, pos)`: the index where the next start code begins, or the
end of the buffer. -/
def nalEndOf (buf : List Nat) (next : Option Nat) : Nat :=
  match next with
  | none => buf.length
  | some n =>
      if n ≥ 4 && isStartCode4 buf (n - 4) then n - 4
      else if n ≥ 3 && isStartCode3 buf (n - 3) then n - 3
      else n

/-- The `while (pos != npos && pos < buf.size())` loop of
`cacheParameterSetsIfAny`.  The first argument bounds the number of iterations. -/
def cacheLoop (buf : List Nat) : Nat → Option Nat → ParamSets → ParamSets
  | 0, _, c => c
  | _ + 1, none, c => c
  | fuel + 1, some pos, c =>
      if pos < buf.length then
        let next := findStartCode buf pos
        let nalStart := pos
        let nalEnd := nalEndOf buf next
        if nalEnd ≤ nalStart then c
        else
          let type := nalUnitType (buf.getD nalStart 0)
          let unit := (buf.take nalEnd).drop nalStart
          let c1 : ParamSets :=
            if type = 7 then { c with m_sps := unit }
            else if type = 8 then { c with m_pps := unit }
            else c
          cacheLoop buf fuel next c1
      else c

/-- Embeds `cacheParameterSetsIfAny(buf)`: the cache afterwards.  Every iteration
moves `pos` forward, so `buf.size() + 1` iterations are never exceeded. -/
def cacheParameterSetsIfAny (buf : List Nat) (c : ParamSets) : ParamSets :=
  cacheLoop buf (buf.length + 1) (findStartCode buf 0) c

/-- Embeds `startsWithSpsPps(buf)`. -/
def startsWithSpsPps (buf : List Nat) : Bool :=
  match findStartCode buf 0 with
  | none => false
  | some pos =>
      if pos ≥ buf.length then false
      else if nalUnitType (buf.getD pos 0) ≠ 7 then false
      else
        match findStartCode buf pos with
        | none => false
        | some next =>
            if next ≥ buf.length then false
            else nalUnitType (buf.getD next 0) == 8

/-- The start code `sc4` of `read`. -/
def sc4 : List Nat := [0x00, 0x00, 0x00, 0x01]

/-- The vector `fused` built by `read`. -/
def fused (c : ParamSets) (data : List Nat) : List Nat :=
  sc4 ++ c.m_sps ++ sc4 ++ c.m_pps ++ data

/-- What `read` leaves behind: the returned count `n`, the `n` bytes copied
into the caller's buffer, and the parameter-set cache. -/
structure ReadResult where
  n : Nat
  bytes : List Nat
  cache : ParamSets
deriving DecidableEq

/-- Embeds `SnxDeviceInterface::read(buffer, bufferSize)`.  `running` is
`m_controller && m_controller->isRunning()`; `frame` is what
`m_controller->readFrame` produced (`none` when it returned false): the access
unit `data` and the flag `key`. -/
def read (c : ParamSets) (running : Bool) (frame : Option (List Nat × Bool))
    (bufferSize : Nat) : ReadResult :=
  if !running then ⟨0, [], c⟩
  else
    match frame with
    | none => ⟨0, [], c⟩
    | some (data, key) =>
        let c1 := cacheParameterSetsIfAny data c
        let data1 :=
          if key && !startsWithSpsPps data then
            if !c1.m_sps.isEmpty && !c1.m_pps.isEmpty then fused c1 data else data
          else data
        let n := if data1.length > bufferSize then bufferSize else data1.length
        ⟨n, data1.take n, c1⟩

end SnxDeviceInterface

namespace SnxCodecController

/-! ## Data model of `SnxCodecController` (built with `HAVE_SNX_SDK`) -/

/-- Embeds `SnxCodecController::StreamParams`; the members are `unsigned`. -/
structure StreamParams where
  width : Nat
  height : Nat
  fps : Nat
  bitrate : Nat
  gop : Nat
  scale : Nat
deriving DecidableEq

/-- Embeds `SnxCodecController::DeviceConfig` with the members `start` and
`configureSession` use; a device path is the list of its character codes. -/
structure DeviceConfig where
  ispDevice : List Nat
  m2mDevice : List Nat
  capDevice : List Nat
  powerLineFreq : Int
deriving DecidableEq

def V4L2_MEMORY_MMAP : Nat := 1
def V4L2_MEMORY_USERPTR : Nat := 2
def V4L2_PIX_FMT_H264 : Nat := 0x34363248
def V4L2_PIX_FMT_SNX420 : Nat := 0x30323453
def EINVAL : Int := 22
def ENOEXEC : Int := 8
def kDefaultBufferCount : Int := 2

/-- The fields of the vendor context `snx_m2m` that the controller touches. -/
structure Ctx where
  codec_dev : List Nat
  isp_dev : List Nat
  m2m : Nat
  scale : Nat
  cap_mem : Nat
  out_mem : Nat
  isp_mem : Nat
  width : Nat
  height : Nat
  isp_fps : Int
  codec_fps : Int
  bit_rate : Int
  qp : Int
  gop : Int
  m2m_buffers : Int
  codec_fmt : Nat
  out_fmt : Nat
  isp_fmt : Nat
  cap_index : Int
  cap_bytesused : Int
  codec_fd : Int
  isp_fd : Int
  ds_font_num : Int
  flags : Nat
deriving DecidableEq

/-- The context after `std::memset(&ctx, 0, sizeof(ctx))`. -/
def Ctx.zero : Ctx :=
  { codec_dev := [], isp_dev := [], m2m := 0, scale := 0, cap_mem := 0, out_mem := 0,
    isp_mem := 0, width := 0, height := 0, isp_fps := 0, codec_fps := 0, bit_rate := 0,
    qp := 0, gop := 0, m2m_buffers := 0, codec_fmt := 0, out_fmt := 0, isp_fmt := 0,
    cap_index := 0, cap_bytesused := 0, codec_fd := 0, isp_fd := 0, ds_font_num := 0,
    flags := 0 }

/-- The fields of the rate-control block `snx_rc` that the controller sets. -/
structure Rc where
  width : Nat
  height : Nat
  codec_fd : Int
  Targetbitrate : Int
  framerate : Int
  gop : Int
  mdrc_en : Int
  md_cnt_en : Int
  rc_update : Int
deriving DecidableEq

/-- The block after `std::memset(&rc, 0, sizeof(rc))`. -/
def Rc.zero : Rc :=
  { width := 0, height := 0, codec_fd := 0, Targetbitrate := 0, framerate := 0, gop := 0,
    mdrc_en := 0, md_cnt_en := 0, rc_update := 0 }

/-- Embeds `SnxCodecController::Impl::Session`. -/
structure Session where
  ctx : Ctx
  rc : Rc
  isM2M : Bool
  active : Bool
  codecInitialized : Bool
  codecStarted : Bool
  ispInitialized : Bool
  ispStarted : Bool
deriving DecidableEq

/-- The constructor `Session::Session()`: every flag false, `ctx` and `rc` zeroed. -/
def Session.new : Session :=
  { ctx := Ctx.zero, rc := Rc.zero, isM2M := false, active := false,
    codecInitialized := false, codecStarted := false, ispInitialized := false,
    ispStarted := false }

/-- A call that leaves the process: into the vendor SDK or into the kernel. -/
inductive Call where
  | snx_open_device (dev : List Nat)
  | snx_isp_init
  | snx_isp_start
  | snx_isp_stop
  | snx_isp_uninit
  | snx_codec_init
  | snx_codec_start
  | snx_codec_stop
  | snx_codec_uninit
  | snx_codec_rc_init
  | snx_rc_ext_set
  | snx_isp_light_frequency_set (hz : Int)
  | snx_codec_set_gop
  | ioctl_G_FMT (fd : Int)
  | ioctl_S_CTRL (fd : Int)
  | close (fd : Int)
  | snx_codec_read
  | snx_codec_rc_update
  | snx_codec_reset
deriving DecidableEq

/-- What the code cannot decide by itself.  `result k` is the value returned by
the external call issued when `k` calls have been issued before it; `errno k` is
the value of `errno` read when `k` calls have been issued; `codecDevSize` and
`ispDevSize` are `sizeof(ctx.codec_dev)` and `sizeof(ctx.isp_dev)`;
`suggestedQp` is `computeSuggestedQp`; `forceKeyFrameCtl` tells whether
`V4L2_CID_MPEG_VIDEO_FORCE_KEY_FRAME` is defined. -/
structure Env where
  result : Nat → Int
  errno : Nat → Int
  codecDevSize : Nat
  ispDevSize : Nat
  suggestedQp : StreamParams → Int
  forceKeyFrameCtl : Bool

/-- A session together with the trace of the external calls issued so far,
oldest first. -/
structure St where
  session : Session
  trace : List Call
deriving DecidableEq

/-- The value the next external call returns. -/
def St.next (env : Env) (s : St) : Int := env.result s.trace.length

/-- Record an external call. -/
def St.log (s : St) (c : Call) : St := { s with trace := s.trace ++ [c] }

/-- Replace the vendor context of the session. -/
def St.setCtx (s : St) (ctx : Ctx) : St := { s with session := { s.session with ctx := ctx } }

/-! ## `cleanupSessionLocked` -/

/-- The step `if (session.codecStarted) { snx_codec_stop(&session.ctx); session.codecStarted = false; }` -/
def stopCodec (s : St) : St :=
  if s.session.codecStarted then
    { (s.log Call.snx_codec_stop) with session := { s.session with codecStarted := false } }
  else s

/-- The step `if (session.codecInitialized) { snx_codec_uninit(...); session.codecInitialized = false; }` -/
def uninitCodec (s : St) : St :=
  if s.session.codecInitialized then
    { (s.log Call.snx_codec_uninit) with session := { s.session with codecInitialized := false } }
  else s

/-- The step `if (session.ispStarted) { snx_isp_stop(...); session.ispStarted = false; }` -/
def stopIsp (s : St) : St :=
  if s.session.ispStarted then
    { (s.log Call.snx_isp_stop) with session := { s.session with ispStarted := false } }
  else s

/-- The step `if (session.ispInitialized) { snx_isp_uninit(...); session.ispInitialized = false; }` -/
def uninitIsp (s : St) : St :=
  if s.session.ispInitialized then
    { (s.log Call.snx_isp_uninit) with session := { s.session with ispInitialized := false } }
  else s

/-- The step `if (session.ctx.codec_fd >= 0) { close(session.ctx.codec_fd); session.ctx.codec_fd = -1; }` -/
def closeCodecFd (s : St) : St :=
  if s.session.ctx.codec_fd ≥ 0 then
    (s.log (Call.close s.session.ctx.codec_fd)).setCtx { s.session.ctx with codec_fd := -1 }
  else s

/-- The step `if (session.ctx.isp_fd >= 0) { close(session.ctx.isp_fd); session.ctx.isp_fd = -1; }` -/
def closeIspFd (s : St) : St :=
  if s.session.ctx.isp_fd ≥ 0 then
    (s.log (Call.close s.session.ctx.isp_fd)).setCtx { s.session.ctx with isp_fd := -1 }
  else s

/-- The last four assignments of `cleanupSessionLocked`. -/
def resetCapture (s : St) : St :=
  { s with session :=
      { s.session with
        ctx := { s.session.ctx with cap_index := -1, cap_bytesused := 0, flags := 0 }
        active := false } }

/-- Embeds `SnxCodecController::Impl::cleanupSessionLocked` (and `cleanupSession`,
which only forwards to it). -/
def cleanupSessionLocked (s : St) : St :=
  let s1 := uninitCodec (stopCodec s)
  let s2 := if s1.session.isM2M then uninitIsp (stopIsp s1) else s1
  resetCapture (closeIspFd (closeCodecFd s2))

end SnxCodecController

namespace SnxCodecController

/-! ## `configureSession` -/

/-- The outcome of a stretch of `configureSession`: `ok = false` when the
function has returned `false` there, and the state it left. -/
structure Run where
  ok : Bool
  st : St
deriving DecidableEq

/-- Continue with `f` unless the function has already returned `false`. -/
def Run.andThen (r : Run) (f : St → Run) : Run := if r.ok then f r.st else r

/-- The conversion `static_cast<int>(u)` for a 32-bit `unsigned`. -/
def toInt (u : Nat) : Int :=
  if u % 2 ^ 32 < 2 ^ 31 then ((u % 2 ^ 32 : Nat) : Int) else ((u % 2 ^ 32 : Nat) : Int) - 2 ^ 32

/-- Embeds `copyDeviceName(dest, destSize, name)`: the new content of `dest`, or `none`
when the function returns `false` (and leaves `dest` alone). -/
def copyDeviceName (destSize : Nat) (name : List Nat) : Option (List Nat) :=
  if name.isEmpty then none
  else if name.length ≥ destSize then none
  else some name

/-- Lines 145-183: zero the context, reset the flags, copy the device paths. -/
def setDeviceNames (env : Env) (codecDevice ispDevice : List Nat) (isM2M : Bool)
    (s : St) : Run :=
  let session : Session :=
    { s.session with
      ctx := Ctx.zero, isM2M := isM2M, active := false, codecInitialized := false,
      codecStarted := false, ispInitialized := false, ispStarted := false }
  let s0 : St := { s with session := session }
  if codecDevice.isEmpty then ⟨false, s0⟩
  else
    match copyDeviceName env.codecDevSize codecDevice with
    | none => ⟨false, s0⟩
    | some cd =>
        let s1 := s0.setCtx { s0.session.ctx with codec_dev := cd }
        if isM2M then
          if ispDevice.isEmpty then ⟨false, s1⟩
          else
            match copyDeviceName env.ispDevSize ispDevice with
            | none => ⟨false, s1⟩
            | some d => ⟨true, s1.setCtx { s1.session.ctx with isp_dev := d }⟩
        else if !ispDevice.isEmpty then
          match copyDeviceName env.ispDevSize ispDevice with
          | none => ⟨true, s1⟩
          | some d => ⟨true, s1.setCtx { s1.session.ctx with isp_dev := d }⟩
        else ⟨true, s1⟩

/-- Lines 185-256: the parameters written into the context before any device is
opened.  `highCtx` is `highSession.ctx`, read on the CAP path. -/
def fillContext (env : Env) (highCtx : Ctx) (params : StreamParams) (isM2M : Bool)
    (scale : Nat) (ctx : Ctx) : Ctx :=
  let useHigh := decide (highCtx.width > 0) && decide (highCtx.height > 0)
  let width := if isM2M then params.width else if useHigh then highCtx.width else params.width
  let height := if isM2M then params.height else if useHigh then highCtx.height else params.height
  let isp_fps0 : Int :=
    if isM2M then toInt (if params.fps ≠ 0 then params.fps else 30)
    else if highCtx.isp_fps > 0 then highCtx.isp_fps else 30
  let codec_fps0 : Int :=
    if isM2M then toInt (if params.fps ≠ 0 then params.fps else (isp_fps0 % 2 ^ 32).toNat)
    else toInt (if params.fps ≠ 0 then params.fps else 30)
  let isp_fps := if isp_fps0 < 1 then 1 else isp_fps0
  let codec_fps1 := if codec_fps0 < 1 then 1 else codec_fps0
  let codec_fps := if codec_fps1 > isp_fps then isp_fps else codec_fps1
  { ctx with
    m2m := if isM2M then 1 else 0
    scale := scale
    cap_mem := V4L2_MEMORY_MMAP
    out_mem := V4L2_MEMORY_USERPTR
    width := width
    height := height
    isp_fps := isp_fps
    codec_fps := codec_fps
    bit_rate := toInt params.bitrate
    qp := env.suggestedQp params
    gop := toInt params.gop
    m2m_buffers := kDefaultBufferCount
    codec_fmt := V4L2_PIX_FMT_H264
    out_fmt := V4L2_PIX_FMT_SNX420
    isp_mem := if isM2M then V4L2_MEMORY_MMAP else 0
    isp_fmt := if isM2M then V4L2_PIX_FMT_SNX420 else ctx.isp_fmt
    cap_index := -1
    codec_fd := -1
    isp_fd := -1
    ds_font_num := 128
    flags := 0 }

/-- Lines 267-293: on the M2M path open the ISP node and run `snx_isp_init`. -/
def openAndInitIsp (env : Env) (isM2M : Bool) (s : St) : Run :=
  if isM2M then
    let fd := s.next env
    let s1 := (s.log (Call.snx_open_device s.session.ctx.isp_dev)).setCtx
      { s.session.ctx with isp_fd := fd }
    if fd < 0 then ⟨false, s1⟩
    else
      let r := s1.next env
      let s2 := s1.log Call.snx_isp_init
      if r ≠ 0 then
        if s2.session.ctx.m2m_buffers < kDefaultBufferCount then
          let s3 := s2.setCtx { s2.session.ctx with m2m_buffers := kDefaultBufferCount }
          let r2 := s3.next env
          let s4 := s3.log Call.snx_isp_init
          if r2 ≠ 0 then ⟨false, cleanupSessionLocked s4⟩
          else ⟨true, { s4 with session := { s4.session with ispInitialized := true } }⟩
        else ⟨true, { s2 with session := { s2.session with ispInitialized := true } }⟩
      else ⟨true, { s2 with session := { s2.session with ispInitialized := true } }⟩
  else ⟨true, s⟩

/-- Lines 295-323: open the codec node, on the CAP path retrying with the M2M
node. -/
def openCodec (env : Env) (deviceConfig : DeviceConfig) (codecDevice : List Nat)
    (isM2M : Bool) (s : St) : Run :=
  let fd := s.next env
  let s1 := (s.log (Call.snx_open_device s.session.ctx.codec_dev)).setCtx
    { s.session.ctx with codec_fd := fd }
  if fd < 0 then
    if !isM2M && !deviceConfig.m2mDevice.isEmpty && deviceConfig.m2mDevice ≠ codecDevice then
      match copyDeviceName env.codecDevSize deviceConfig.m2mDevice with
      | none => ⟨false, cleanupSessionLocked s1⟩
      | some cd =>
          let s2 := s1.setCtx { s1.session.ctx with codec_dev := cd }
          let fd2 := s2.next env
          let s3 := (s2.log (Call.snx_open_device cd)).setCtx
            { s2.session.ctx with codec_fd := fd2 }
          if fd2 < 0 then ⟨false, cleanupSessionLocked s3⟩ else ⟨true, s3⟩
    else ⟨false, cleanupSessionLocked s1⟩
  else ⟨true, s1⟩

end SnxCodecController

namespace SnxCodecController

/-- Where the fallback ladder of `snx_codec_init` stands: `done` is
`goto codec_init_ok`, `failed` is `return false`, `next` falls through to the
following fallback. -/
inductive Ladder where
  | done (s : St)
  | failed (s : St)
  | next (s : St)
deriving DecidableEq

/-- Try the following fallback when the ladder fell through. -/
def Ladder.orElse (l : Ladder) (f : St → Ladder) : Ladder :=
  match l with
  | Ladder.next s => f s
  | other => other

/-- The expression `(h + 15u) & ~15u` on a 32-bit `unsigned`. -/
def align16 (h : Nat) : Nat := ((h + 15) % 2 ^ 32) &&& 0xFFFFFFF0

/-- Lines 331-362: on the CAP path retry `snx_codec_init` with `out_mem`
flipped, then with the height aligned to 16. -/
def capFallbacks (env : Env) (isM2M : Bool) (s : St) : Ladder :=
  if !isM2M then
    let oldMem := s.session.ctx.out_mem
    let s1 := s.setCtx { s.session.ctx with
      out_mem := if oldMem = V4L2_MEMORY_MMAP then V4L2_MEMORY_USERPTR else V4L2_MEMORY_MMAP }
    let r := s1.next env
    let s2 := s1.log Call.snx_codec_init
    if r = 0 then Ladder.done s2
    else
      let s3 := s2.setCtx { s2.session.ctx with out_mem := oldMem }
      let err := env.errno s3.trace.length
      let h := s3.session.ctx.height
      let h16 := align16 h
      if (err = EINVAL ∨ err = ENOEXEC) ∧ h16 ≠ h then
        let s4 := s3.setCtx { s3.session.ctx with height := h16 }
        let r2 := s4.next env
        let s5 := s4.log Call.snx_codec_init
        if r2 = 0 then Ladder.done s5 else Ladder.next s5
      else Ladder.next s3
  else Ladder.next s

/-- Lines 365-374: on the M2M path retry with `out_mem = USERPTR`. -/
def m2mFallback (env : Env) (isM2M : Bool) (s : St) : Ladder :=
  if isM2M ∧ s.session.ctx.out_mem = V4L2_MEMORY_MMAP then
    let s1 := s.setCtx { s.session.ctx with out_mem := V4L2_MEMORY_USERPTR }
    let r := s1.next env
    let s2 := s1.log Call.snx_codec_init
    if r = 0 then Ladder.done s2 else Ladder.next s2
  else Ladder.next s

/-- Lines 377-405: on the CAP path retry on the M2M codec node. -/
def capNodeFallback (env : Env) (deviceConfig : DeviceConfig) (isM2M : Bool) (s : St) :
    Ladder :=
  if !isM2M ∧ !deviceConfig.m2mDevice.isEmpty ∧
      s.session.ctx.codec_dev ≠ deviceConfig.m2mDevice then
    let s1 := closeCodecFd s
    match copyDeviceName env.codecDevSize deviceConfig.m2mDevice with
    | none => Ladder.failed (cleanupSessionLocked s1)
    | some cd =>
        let s2 := s1.setCtx { s1.session.ctx with codec_dev := cd }
        let fd := s2.next env
        let s3 := (s2.log (Call.snx_open_device cd)).setCtx { s2.session.ctx with codec_fd := fd }
        if fd < 0 then Ladder.failed (cleanupSessionLocked s3)
        else
          let r := s3.next env
          let s4 := s3.log Call.snx_codec_init
          if r = 0 then Ladder.done s4 else Ladder.next s4
  else Ladder.next s

/-- Lines 325-412: `snx_codec_init` and its fallbacks. -/
def initCodec (env : Env) (deviceConfig : DeviceConfig) (isM2M : Bool) (s : St) : Run :=
  let r := s.next env
  let s1 := s.log Call.snx_codec_init
  let ladder :=
    if r ≠ 0 then
      ((capFallbacks env isM2M s1).orElse (m2mFallback env isM2M)).orElse
        (capNodeFallback env deviceConfig isM2M)
    else Ladder.done s1
  match ladder with
  | Ladder.done s2 => ⟨true, { s2 with session := { s2.session with codecInitialized := true } }⟩
  | Ladder.failed s2 => ⟨false, s2⟩
  | Ladder.next s2 => ⟨false, cleanupSessionLocked s2⟩

/-- Lines 414-439: seed the rate controller when a bitrate is configured. -/
def initRateControl (env : Env) (s : St) : St :=
  let ctx := s.session.ctx
  if ctx.codec_fmt = V4L2_PIX_FMT_H264 ∧ ctx.bit_rate > 0 then
    let qp := s.next env
    let s1 := (s.log Call.snx_codec_rc_init).log Call.snx_rc_ext_set
    { s1 with session :=
        { s1.session with
          ctx := { ctx with qp := qp }
          rc := { s.session.rc with
            width := ctx.width / ctx.scale
            height := ctx.height / ctx.scale
            codec_fd := ctx.codec_fd
            Targetbitrate := ctx.bit_rate
            framerate := ctx.codec_fps
            gop := ctx.gop
            mdrc_en := 0
            md_cnt_en := 0
            rc_update := 0 } } }
  else s

/-- Lines 441-467: on the M2M path `snx_isp_start`, then the anti-flicker
setting. -/
def startIsp (env : Env) (deviceConfig : DeviceConfig) (isM2M : Bool) (s : St) : Run :=
  if isM2M then
    let r := s.next env
    let s1 := s.log Call.snx_isp_start
    if r ≠ 0 then ⟨false, cleanupSessionLocked s1⟩
    else
      let s2 : St := { s1 with session := { s1.session with ispStarted := true } }
      if deviceConfig.powerLineFreq > 0 then
        ⟨true, s2.log (Call.snx_isp_light_frequency_set deviceConfig.powerLineFreq)⟩
      else ⟨true, s2⟩
  else ⟨true, s⟩

/-- Lines 469-486: `snx_codec_start`, retried with the default buffer count
when the configured count is smaller. -/
def startCodec (env : Env) (s : St) : Run :=
  let r := s.next env
  let s1 := s.log Call.snx_codec_start
  if r ≠ 0 then
    if s1.session.ctx.m2m_buffers < kDefaultBufferCount then
      let s2 := s1.setCtx { s1.session.ctx with m2m_buffers := kDefaultBufferCount }
      let r2 := s2.next env
      let s3 := s2.log Call.snx_codec_start
      if r2 ≠ 0 then ⟨false, cleanupSessionLocked s3⟩
      else ⟨true, { s3 with session := { s3.session with codecStarted := true } }⟩
    else ⟨true, { s1 with session := { s1.session with codecStarted := true } }⟩
  else ⟨true, { s1 with session := { s1.session with codecStarted := true } }⟩

/-- Lines 488-506: query the bound size on the CAP path, set the GOP, mark the
session active. -/
def activate (isM2M : Bool) (s : St) : St :=
  let s1 := if !isM2M ∧ s.session.ctx.codec_fd ≥ 0 then s.log (Call.ioctl_G_FMT s.session.ctx.codec_fd) else s
  let s2 := if s1.session.ctx.gop > 0 then s1.log Call.snx_codec_set_gop else s1
  { s2 with session := { s2.session with active := true } }

/-- Lines 185-506 of `configureSession`: everything after the device paths
have been copied. -/
def configureDevices (env : Env) (deviceConfig : DeviceConfig) (highCtx : Ctx)
    (params : StreamParams) (codecDevice : List Nat) (isM2M : Bool) (scale : Nat)
    (sA : St) : Run :=
  (openAndInitIsp env isM2M
      (sA.setCtx (fillContext env highCtx params isM2M scale sA.session.ctx))).andThen fun sB =>
  (openCodec env deviceConfig codecDevice isM2M sB).andThen fun sC =>
  (initCodec env deviceConfig isM2M sC).andThen fun sD =>
  (startIsp env deviceConfig isM2M (initRateControl env sD)).andThen fun sE =>
  (startCodec env sE).andThen fun sF =>
  ⟨true, activate isM2M sF⟩

/-- Embeds `SnxCodecController::Impl::configureSession`.  `highCtx` is
`highSession.ctx` and `deviceConfig` the member of `Impl`, as they stand when
the function is entered with `isM2M = false` (neither is read on the M2M path). -/
def configureSession (env : Env) (deviceConfig : DeviceConfig) (highCtx : Ctx)
    (params : StreamParams) (codecDevice ispDevice : List Nat) (isM2M : Bool) (scale : Nat)
    (s : St) : Run :=
  (setDeviceNames env codecDevice ispDevice isM2M s).andThen
    (configureDevices env deviceConfig highCtx params codecDevice isM2M scale)

/-! ## `start`, `stop`, `isRunning` -/

/-- Embeds `SnxCodecController::Impl`. -/
structure Impl where
  running : Bool
  highParams : StreamParams
  lowParams : StreamParams
  deviceConfig : DeviceConfig
  highSession : Session
  lowSession : Session
deriving DecidableEq

/-- The controller and the trace of the external calls it has issued. -/
structure Controller where
  impl : Impl
  trace : List Call
deriving DecidableEq

/-- Embeds `StreamParams::StreamParams()`. -/
def StreamParams.new : StreamParams :=
  { width := 0, height := 0, fps := 0, bitrate := 0, gop := 0, scale := 1 }

/-- The constructor `SnxCodecController::SnxCodecController()`, no external
call issued yet. -/
def Controller.new : Controller :=
  { impl :=
      { running := false, highParams := StreamParams.new, lowParams := StreamParams.new,
        deviceConfig := ⟨[], [], [], 0⟩, highSession := Session.new,
        lowSession := Session.new },
    trace := [] }

/-- Embeds `SnxCodecController::isRunning`. -/
def isRunning (c : Controller) : Bool := c.impl.running

/-- Embeds `SnxCodecController::stop`. -/
def stop (c : Controller) : Controller :=
  let l := cleanupSessionLocked ⟨c.impl.lowSession, c.trace⟩
  let h := cleanupSessionLocked ⟨c.impl.highSession, l.trace⟩
  { impl := { c.impl with running := false, lowSession := l.session, highSession := h.session },
    trace := h.trace }

/-- The trace after `SnxCodecController::requestIDR` on a session (the session
itself is not modified). -/
def requestIDR (env : Env) (session : Session) (trace : List Call) : List Call :=
  if !session.active ∨ session.ctx.codec_fd < 0 then trace
  else
    let viaCtl := env.forceKeyFrameCtl && decide (env.result trace.length = 0)
    let t1 := if env.forceKeyFrameCtl then trace ++ [Call.ioctl_S_CTRL session.ctx.codec_fd] else trace
    if viaCtl then t1
    else if session.ctx.gop > 0 then t1 ++ [Call.snx_codec_set_gop] else t1

/-- The result of `start`: the returned flag and the controller afterwards. -/
structure StartResult where
  ok : Bool
  ctl : Controller
deriving DecidableEq

/-- The scale of the M2M session: 1 in dual-stream mode, else `high.scale` when
that is 2 or 4. -/
def hiScaleOf (high low : StreamParams) : Nat :=
  if decide (low.width ≠ 0) && decide (low.height ≠ 0) && decide (low.fps ≠ 0) then 1
  else if high.scale = 2 ∨ high.scale = 4 then high.scale
  else 1

/-- The scale of the CAP session: `low.scale` when that is 2 or 4, else 2. -/
def lowScaleOf (low : StreamParams) : Nat :=
  if low.scale = 2 ∨ low.scale = 4 then low.scale else 2

/-- The device mapping with the ISP and M2M nodes exchanged. -/
def swappedDevices (devices : DeviceConfig) : DeviceConfig :=
  { devices with m2mDevice := devices.ispDevice, ispDevice := devices.m2mDevice }

/-- The high-stream part of `start`: `configureSession` on the given mapping
and, when that fails, once more on the swapped one. -/
def configureHigh (env : Env) (high : StreamParams) (devices : DeviceConfig) (hiScale : Nat)
    (s : St) : Run :=
  let r1 := configureSession env devices s.session.ctx high devices.m2mDevice
    devices.ispDevice true hiScale s
  if r1.ok then r1
  else
    configureSession env devices r1.st.session.ctx high (swappedDevices devices).m2mDevice
      (swappedDevices devices).ispDevice true hiScale r1.st

/-- The mapping `start` keeps in `deviceConfig`: the swapped one when only the
second attempt of `configureHigh` succeeded. -/
def workingDevices (env : Env) (high : StreamParams) (devices : DeviceConfig) (hiScale : Nat)
    (s : St) : DeviceConfig :=
  if (configureSession env devices s.session.ctx high devices.m2mDevice
      devices.ispDevice true hiScale s).ok then devices
  else swappedDevices devices

/-- The low-stream part of `start`, entered once the high session is
configured, and the two `requestIDR` calls. -/
def startLow (env : Env) (low : StreamParams) (implH : Impl) (trace : List Call) :
    StartResult :=
  if low.width = 0 ∨ low.height = 0 ∨ low.fps = 0 then
    let t1 := requestIDR env implH.highSession trace
    let t2 := requestIDR env implH.lowSession t1
    ⟨true, { impl := { implH with running := true }, trace := t2 }⟩
  else
    let rl := configureSession env implH.deviceConfig implH.highSession.ctx low
      implH.deviceConfig.m2mDevice implH.deviceConfig.ispDevice false (lowScaleOf low)
      ⟨implH.lowSession, trace⟩
    if !rl.ok then
      let h := cleanupSessionLocked ⟨implH.highSession, rl.st.trace⟩
      ⟨false,
        { impl := { implH with lowSession := rl.st.session, highSession := h.session,
                               running := false },
          trace := h.trace }⟩
    else
      let implL : Impl := { implH with lowSession := rl.st.session, running := true }
      let t1 := requestIDR env implL.highSession rl.st.trace
      let t2 := requestIDR env implL.lowSession t1
      ⟨true, { impl := implL, trace := t2 }⟩

/-- Embeds `SnxCodecController::start`. -/
def start (env : Env) (high low : StreamParams) (devices : DeviceConfig) (c0 : Controller) :
    StartResult :=
  let c := stop c0
  let impl : Impl := { c.impl with highParams := high, lowParams := low, deviceConfig := devices }
  let s0 : St := ⟨impl.highSession, c.trace⟩
  let r2 := configureHigh env high devices (hiScaleOf high low) s0
  if !r2.ok then
    ⟨false, { impl := { impl with highSession := r2.st.session }, trace := r2.st.trace }⟩
  else
    startLow env low
      { impl with
        highSession := r2.st.session
        deviceConfig := workingDevices env high devices (hiScaleOf high low) s0 }
      r2.st.trace

end SnxCodecController

namespace SnxCodecController

/-- The state `cleanupSessionLocked` leaves: nothing started or initialised
(the ISP flags are only examined on an M2M session), no descriptor held,
capture state reset, session inactive. -/
def TornDown (s : St) : Prop :=
  s.session.codecStarted = false ∧ s.session.codecInitialized = false ∧
    (s.session.isM2M = true → s.session.ispStarted = false ∧ s.session.ispInitialized = false) ∧
    s.session.ctx.codec_fd < 0 ∧ s.session.ctx.isp_fd < 0 ∧
    s.session.ctx.cap_index = -1 ∧ s.session.ctx.cap_bytesused = 0 ∧
    s.session.ctx.flags = 0 ∧ s.session.active = false

/-! ## Predicates on sessions and stage outcomes -/

/-- No lifecycle flag of the session is set. -/
def Session.flagsClear (x : Session) : Prop :=
  x.active = false ∧ x.codecStarted = false ∧ x.codecInitialized = false ∧
    x.ispStarted = false ∧ x.ispInitialized = false

/-- Neither descriptor field of the session holds a handle. -/
def Session.noHandle (x : Session) : Prop := x.ctx.codec_fd < 0 ∧ x.ctx.isp_fd < 0

/-- The session is of the given kind and, when it is a CAP session, its ISP
flags are clear. -/
def Session.kind (isM2M : Bool) (x : Session) : Prop :=
  x.isM2M = isM2M ∧ (isM2M = false → x.ispStarted = false ∧ x.ispInitialized = false)

/-- The path is one `copyDeviceName` accepts for a buffer of `size` bytes. -/
def accepted (size : Nat) (name : List Nat) : Prop := name ≠ [] ∧ name.length < size

/-- The outcome of a stage that either goes on with a session of the same
kind or has left it torn down. -/
def Run.sound (m : Bool) (r : Run) : Prop :=
  (r.ok = true → r.st.session.kind m) ∧
    (r.ok = false → r.st.session.flagsClear ∧ r.st.session.noHandle)

/-- Soundness of a ladder position, as for `Run.sound`. -/
def Ladder.sound (m : Bool) : Ladder → Prop
  | Ladder.done t => t.session.kind m
  | Ladder.next t => t.session.kind m
  | Ladder.failed t => t.session.flagsClear ∧ t.session.noHandle

/-! ## Scenarios -/

/-- The device path `/dev/video0`. -/
def devVideo0 : List Nat := [47, 100, 101, 118, 47, 118, 105, 100, 101, 111, 48]

/-- The device path `/dev/video1`. -/
def devVideo1 : List Nat := [47, 100, 101, 118, 47, 118, 105, 100, 101, 111, 49]

/-- The default device mapping of `main`: ISP on `/dev/video0`, codec on
`/dev/video1`. -/
def defaultDevices : DeviceConfig := ⟨devVideo0, devVideo1, [], 0⟩

/-- A device mapping whose M2M path is the empty string. -/
def emptyM2mDevices : DeviceConfig := ⟨devVideo0, [], [], 0⟩

/-- The default high stream of `main`: 1920x1080 at 10 fps, 1 Mbit/s, GOP 20. -/
def defaultHigh : StreamParams := ⟨1920, 1080, 10, 1048576, 20, 1⟩

/-- An environment in which the external call number `failing` (counted from 0)
returns -1 and every other one succeeds: `snx_open_device` returns the
descriptor 5 in slots 4 and 6, everything else returns 0. -/
def envFailingAt (failing : Nat) : Env :=
  { result := fun k => if k = failing then -1 else if k = 4 ∨ k = 6 then 5 else 0
    errno := fun _ => 0
    codecDevSize := 32
    ispDevSize := 32
    suggestedQp := fun _ => 30
    forceKeyFrameCtl := false }

end SnxCodecController

namespace Main

/-! ## The SNX option validation of `main` (`src/main.cpp`, lines 487-574) -/

/-- The members of the local `snxOptions` of `main` that the validation reads or
writes.  The `unsigned` members of `hi` and `lo` hold values below `2 ^ 32`. -/
structure SnxOptions where
  enabled : Bool
  hi : SnxCodecController.StreamParams
  lo : SnxCodecController.StreamParams
  single : Bool
deriving DecidableEq

/-- How the validation block ends: `rejected` is `return 1`, `accepted` carries
the options as the block leaves them, `divisionByZero` stands for reaching an
unsigned division whose divisor is 0. -/
inductive Validation where
  | rejected
  | accepted (o : SnxOptions)
  | divisionByZero
deriving DecidableEq

/-- The lambda `align16` of `main`: `(v + 15u) & ~15u` on a 32-bit `unsigned`. -/
def align16 (v : Nat) : Nat := ((v + 15) % 2 ^ 32) &&& 0xFFFFFFF0

/-- The lambda `align16b` of `main`, the same expression as `align16`. -/
def align16b (v : Nat) : Nat := ((v + 15) % 2 ^ 32) &&& 0xFFFFFFF0

/-- Lines 499-535: the low stream is cleared in single-stream mode, else its
size is derived from the high size and `lo.scale`, aligned to 16, and its frame
rate is defaulted and checked against the high one. -/
def lowGeometry (o : SnxOptions) : Validation :=
  if o.single then
    Validation.accepted { o with lo := { o.lo with width := 0, height := 0, fps := 0, scale := 0 } }
  else if o.lo.scale = 0 then Validation.divisionByZero
  else
    let w := o.hi.width / o.lo.scale
    let h := o.hi.height / o.lo.scale
    if w = 0 ∨ h = 0 then Validation.rejected
    else
      let alignedW := align16 w
      let alignedH := align16 h
      let w1 := if alignedW ≠ w ∨ alignedH ≠ h then alignedW else w
      let h1 := if alignedW ≠ w ∨ alignedH ≠ h then alignedH else h
      let fps1 := if o.lo.fps = 0 then o.hi.fps else o.lo.fps
      if fps1 > o.hi.fps then Validation.rejected
      else Validation.accepted { o with lo := { o.lo with width := w1, height := h1, fps := fps1 } }

/-- Lines 536-545: the GOP auto-fill. -/
def gopAutoFill (o : SnxOptions) : SnxOptions :=
  let hi := if o.hi.gop = 0 ∧ o.hi.fps > 0 then { o.hi with gop := (o.hi.fps * 2) % 2 ^ 32 } else o.hi
  let lo := if o.lo.gop = 0 ∧ o.lo.fps > 0 then { o.lo with gop := o.lo.fps } else o.lo
  { o with hi := hi, lo := lo }

/-- Lines 546-563: `hi.scale` follows `lo.scale` when that is 2 or 4. -/
def coupleScale (o : SnxOptions) : SnxOptions :=
  if !o.single then
    if o.lo.scale = 2 ∨ o.lo.scale = 4 then { o with hi := { o.hi with scale := o.lo.scale } }
    else { o with hi := { o.hi with scale := 1 } }
  else { o with hi := { o.hi with scale := 1 } }

/-- Lines 564-573: the low size recomputed from the high size and `hi.scale`. -/
def recomputeLow (o : SnxOptions) : SnxOptions :=
  if !o.single ∧ o.hi.scale ≠ 0 then
    { o with lo := { o.lo with
        width := align16b (o.hi.width / o.hi.scale)
        height := align16b (o.hi.height / o.hi.scale) } }
  else o

/-- The block `if (snxOptions.enabled) { ... }` of `main`, up to the audio
settings. -/
def validateSnx (o : SnxOptions) : Validation :=
  if !o.enabled then Validation.accepted o
  else if o.hi.width = 0 ∨ o.hi.height = 0 ∨ o.hi.fps = 0 then Validation.rejected
  else if !o.single ∧ o.lo.scale ≠ 1 ∧ o.lo.scale ≠ 2 ∧ o.lo.scale ≠ 4 then Validation.rejected
  else
    match lowGeometry o with
    | Validation.accepted o1 => Validation.accepted (recomputeLow (coupleScale (gopAutoFill o1)))
    | other => other

/-- The low-stream size after validation, when the options are accepted. -/
def lowSize : Validation → Option (Nat × Nat)
  | Validation.accepted o => some (o.lo.width, o.lo.height)
  | _ => none

/-- The options `main` starts from (lines 167-183), with the given high size,
high frame rate and low scale. -/
def optionsWith (width height fps scale : Nat) : SnxOptions :=
  { enabled := true
    hi := ⟨width, height, fps, 1024 * 1024, 20, 1⟩
    lo := ⟨0, 0, 5, 512 * 1024, 5, scale⟩
    single := false }

end Main

namespace SnxCodecController

/-! ## `estimateFrameBudget`, `getMaxFrameSize` -/

/-- The enumeration `SnxCodecController::StreamKind`. -/
inductive StreamKind where
  | High
  | Low
deriving DecidableEq

/-- The constant `kDefaultFrameSizeBytes = 512 * 1024`. -/
def kDefaultFrameSizeBytes : Nat := 512 * 1024

/-- The conversion `static_cast<size_t>(x)` for a `size_t` of `bits` bits. -/
def toSizeT (bits : Nat) (x : Nat) : Nat := x % 2 ^ bits

/-- Embeds `estimateFrameBudget(params)` for a `size_t` of `sizeBits` bits; the
quotient `bitrate / 8ULL / std::max(1u, fps)` is taken in 64-bit arithmetic
before the conversion. -/
def estimateFrameBudget (sizeBits : Nat) (params : StreamParams) : Nat :=
  if params.fps = 0 ∨ params.bitrate = 0 then toSizeT sizeBits kDefaultFrameSizeBytes
  else
    let bytesPerFrame := toSizeT sizeBits (params.bitrate / 8 / max 1 params.fps)
    let minBudget := toSizeT sizeBits kDefaultFrameSizeBytes
    max minBudget (toSizeT sizeBits (bytesPerFrame * 2))

/-- Embeds `SnxCodecController::getMaxFrameSize(stream)`. -/
def getMaxFrameSize (sizeBits : Nat) (c : Controller) (stream : StreamKind) : Nat :=
  estimateFrameBudget sizeBits
    (match stream with
     | StreamKind.High => c.impl.highParams
     | StreamKind.Low => c.impl.lowParams)

/-- The parameters `getMaxFrameSize` looks at for a stream. -/
def paramsOf (c : Controller) (stream : StreamKind) : StreamParams :=
  match stream with
  | StreamKind.High => c.impl.highParams
  | StreamKind.Low => c.impl.lowParams

end SnxCodecController

namespace SnxCodecController

/-! ## Start steps and their undo steps -/

/-- The teardown call that undoes a start step of a session with context
`ctx`: `close` of the descriptor for an open, `uninit` for `init`, `stop` for
`start`; `none` for a call that is not one of the six start steps. -/
def undoOf (ctx : Ctx) : Call → Option Call
  | Call.snx_open_device dev =>
      some (Call.close (if dev = ctx.isp_dev then ctx.isp_fd else ctx.codec_fd))
  | Call.snx_isp_init => some Call.snx_isp_uninit
  | Call.snx_isp_start => some Call.snx_isp_stop
  | Call.snx_codec_init => some Call.snx_codec_uninit
  | Call.snx_codec_start => some Call.snx_codec_stop
  | _ => none

/-- The start steps found in a trace, in the order they were performed. -/
def startSteps (ctx : Ctx) (trace : List Call) : List Call :=
  trace.filter (fun c => (undoOf ctx c).isSome)

/-- The undo steps of the start steps of a trace, last step first. -/
def exactReverse (ctx : Ctx) (trace : List Call) : List Call :=
  (trace.filterMap (undoOf ctx)).reverse

/-- An environment in which every external call returns 0 except those listed
in `table` (call number, returned value). -/
def envReturning (table : List (Nat × Int)) : Env :=
  { result := fun k => (table.lookup k).getD 0
    errno := fun _ => 0
    codecDevSize := 32
    ispDevSize := 32
    suggestedQp := fun _ => 30
    forceKeyFrameCtl := false }

/-- A primary session configured from a new `Session` with every call
succeeding: the ISP node opens as descriptor 5, the codec node as descriptor 6. -/
def fullyStarted : Run :=
  configureSession (envReturning [(0, 5), (2, 6)]) defaultDevices Ctx.zero defaultHigh
    devVideo1 devVideo0 true 1 ⟨Session.new, []⟩

/-- The options `--snx-hi 1920x1080@10 --snx-lo-scale 1` as the validation of
`main` leaves them. -/
def validatedScaleOne : Main.SnxOptions :=
  { enabled := true
    hi := ⟨1920, 1080, 10, 1024 * 1024, 20, 1⟩
    lo := ⟨1920, 1088, 5, 512 * 1024, 5, 1⟩
    single := false }

/-- An environment for a dual-stream `start` on a new controller in which every
call succeeds: the three device opens (calls 4, 6 and 13) return the
descriptors 5, 6 and 7. -/
def envDualOk : Env := envReturning [(4, 5), (6, 6), (13, 7)]

end SnxCodecController

namespace SnxCodecController

/-- A stage outcome that, when `configureSession` goes on, has the scale `k` in
the vendor context. -/
def Run.hasScale (k : Nat) (r : Run) : Prop := r.ok = true → r.st.session.ctx.scale = k

/-- A ladder position that, unless it has failed, has the scale `k` in the
vendor context. -/
def Ladder.hasScale (k : Nat) : Ladder → Prop
  | Ladder.done t => t.session.ctx.scale = k
  | Ladder.next t => t.session.ctx.scale = k
  | Ladder.failed _ => True

/-- The value `v` rounded up to the next multiple of 16. -/
def roundUp16 (v : Nat) : Nat := (v + 15) / 16 * 16

end SnxCodecController

namespace V4L2DeviceSource

/-! ## The capture worker: `getNextFrame` and `thread` -/

/-- The errno value `EAGAIN`. -/
def EAGAIN : Int := 11

/-- What one iteration of the loop of `thread` reads from outside the worker:
the three loads of the atomic `m_stop` that the iteration can reach (in the loop
condition, at the head of `getNextFrame`, in the error branch), the descriptor
`m_device->getFd()` (−1 when there is no device), the value returned by
`select`, the value `m_device->read` leaves in `frameSize` together with the
bytes it wrote into `buffer`, the `gettimeofday` reading taken after the read,
and `errno` as the loop reads it after `getNextFrame`. -/
structure IterEnv where
  stopAtLoop : Bool
  fd : Int
  selectRet : Int
  stopAtRead : Bool
  frameSize : Int
  buffer : List Nat
  ref : Timeval
  errno : Int
  stopAfterRead : Bool
deriving DecidableEq

/-- The state of the worker: the local `stop`, the capture queue (`none` once
`queueFrame` has popped an empty queue), the number of calls of
`m_device->read`, the number of 10 ms sleeps `select(0, ...)`, the number of
`triggerEvent` calls issued by `queueFrame`, and whether the loop has been left
(`end thread`). -/
structure Worker where
  stop : Int
  m_captureQueue : Option (List Frame)
  reads : Nat
  sleeps : Nat
  triggers : Nat
  ended : Bool
deriving DecidableEq

/-- The worker as `thread` starts: `stop = 0`, the given queue, nothing read yet. -/
def Worker.init (queue : List Frame) : Worker :=
  { stop := 0, m_captureQueue := some queue, reads := 0, sleeps := 0, triggers := 0,
    ended := false }

/-- Embeds `postFrame(buffer, frameSize, ref)` for a source that does not override
`splitFrames`: `processFrame` gets the single pair `(frame, frameSize)` from
`splitFrames` and hands it to `queueFrame`, which then triggers the delivery
event.  (The statistics, the log lines and the copy written to `m_outfd` do not
touch the queue and are left out.) -/
def postFrame (m_queueSize : Nat) (e : IterEnv) (w : Worker) : Worker :=
  { w with
    m_captureQueue := w.m_captureQueue.bind fun q =>
      queueFrame m_queueSize q ⟨e.buffer.take e.frameSize.toNat, e.ref⟩
    triggers := w.triggers + 1 }

/-- Embeds `V4L2DeviceSource::getNextFrame`: the returned `frameSize` and the
worker afterwards. -/
def getNextFrame (m_queueSize : Nat) (e : IterEnv) (w : Worker) : Int × Worker :=
  if e.stopAtRead then (0, w)
  else
    let w1 := { w with reads := w.reads + 1 }
    if e.frameSize < 0 then (e.frameSize, w1)
    else if e.frameSize = 0 then (e.frameSize, w1)
    else (e.frameSize, postFrame m_queueSize e w1)

/-- The body of the `while` loop of `thread`. -/
def threadBody (m_queueSize : Nat) (e : IterEnv) (w : Worker) : Worker :=
  if e.fd ≥ 0 then
    if e.selectRet = 1 then
      let r := getNextFrame m_queueSize e w
      if r.1 ≤ 0 then
        if e.errno = EAGAIN then r.2
        else if !e.stopAfterRead then { r.2 with stop := 1 }
        else r.2
      else r.2
    else w
  else
    let r := getNextFrame m_queueSize e w
    if r.1 ≤ 0 then { r.2 with sleeps := r.2.sleeps + 1 } else r.2

/-- The loop `while (!stop && !m_stop.load()) { ... }` of `thread`, run against
the environments of its successive iterations.  The worker comes back with
`ended = true` when the loop condition failed, and with `ended = false` when
the listed environments ran out while the loop was still going. -/
def threadLoop (m_queueSize : Nat) : List IterEnv → Worker → Worker
  | [], w => w
  | e :: es, w =>
      if w.stop = 0 ∧ e.stopAtLoop = false then threadLoop m_queueSize es (threadBody m_queueSize e w)
      else { w with ended := true }

/-- Embeds `V4L2DeviceSource::thread` on a queue and a list of iteration
environments. -/
def thread (m_queueSize : Nat) (queue : List Frame) (envs : List IterEnv) : Worker :=
  threadLoop m_queueSize envs (Worker.init queue)

/-- An iteration on a pollable descriptor in which `select` reports the
descriptor readable, the read returns zero bytes, no stop is requested and
`errno` holds `err`. -/
def emptyReadOn (fd err : Int) : IterEnv :=
  { stopAtLoop := false, fd := fd, selectRet := 1, stopAtRead := false, frameSize := 0,
    buffer := [], ref := ⟨0, 0⟩, errno := err, stopAfterRead := false }

end V4L2DeviceSource

namespace Main

/-- The capacity handed to `V4L2DeviceSource::createNew` for `-Q n`: the `int`
`queueSize = atoi(optarg)` converted to the `unsigned int` parameter. -/
def queueCapacity (n : Int) : Nat := (n % 2 ^ 32).toNat

end Main

namespace SnxDeviceInterface

/-! ## `findStartCode` with the index arithmetic of `size_t` -/

/-- Embeds `findStartCode(buf, off)` with `i + 3` computed in a `size_t` of
`sizeBits` bits.  While `off + 3` is representable the sum never wraps inside the
loop (the loop ends as soon as `i + 3` reaches `buf.size()`), and the result is
that of `findStartCode`.  For the three offsets where `off + 3` wraps, the
wrapped sum is 0, 1 or 2: when that is below `buf.size()` the body runs
`isStartCode4(&buf[off])` on an index outside the buffer, which is `none` here;
otherwise the loop is not entered and the result is `npos` (`some none`). -/
def findStartCodeAt (sizeBits : Nat) (buf : List Nat) (off : Nat) : Option (Option Nat) :=
  if off + 3 < 2 ^ sizeBits then some (findStartCode buf off)
  else if (off + 3) % 2 ^ sizeBits < buf.length then none
  else some none

/-- A start code, of either size, begins at index `i` of `buf`. -/
def startCodeAt (buf : List Nat) (i : Nat) : Bool := isStartCode4 buf i || isStartCode3 buf i

/-- The index just past the start code that begins at `i`: `i + 4` for
`00 00 00 01`, else `i + 3`. -/
def pastStartCode (buf : List Nat) (i : Nat) : Nat := if isStartCode4 buf i then i + 4 else i + 3

end SnxDeviceInterface

namespace SnxDeviceInterface

/-! ## Access units as sequences of units -/

/-- The scan of `findStartCode` read off the bytes that follow the offset: the
loop looks at four bytes at a time, returns 4 or 3 past the current byte when
they hold a marker, and moves one byte on otherwise; it stops when fewer than
four bytes are left.  The result counts from the first byte of the list. -/
def firstStartCode : List Nat → Option Nat
  | [] => none
  | a :: rest =>
      match rest with
      | b :: c :: d :: _ =>
          if a = 0 ∧ b = 0 ∧ c = 0 ∧ d = 1 then some 4
          else if a = 0 ∧ b = 0 ∧ c = 1 then some 3
          else (firstStartCode rest).map (· + 1)
      | _ => none

/-- No `00 00 01` (hence no `00 00 00 01`) inside `u`. -/
def noStartCode (u : List Nat) : Bool := (List.range u.length).all fun i => !isStartCode3 u i

/-- The cache of an adapter that has read the given access units, oldest first,
since it was constructed (the constructor leaves `m_sps` and `m_pps` empty). -/
def cacheAfter (history : List (List Nat)) : ParamSets :=
  history.foldl (fun c au => cacheParameterSetsIfAny au c) ⟨[], []⟩

/-- Every cached set is empty or begins with a header of its own type. -/
def ParamSets.typed (c : ParamSets) : Prop :=
  (c.m_sps = [] ∨ nalUnitType (c.m_sps.headD 0) = 7) ∧
    (c.m_pps = [] ∨ nalUnitType (c.m_pps.headD 0) = 8)

end SnxDeviceInterface

namespace SnxCodecController

/-! ## `readFrame` -/

/-- The flag `V4L2_BUF_FLAG_KEYFRAME`. -/
def V4L2_BUF_FLAG_KEYFRAME : Nat := 0x00000008

/-- What a successful `snx_codec_read` leaves in the vendor context: the index
of the dequeued capture buffer, `cap_bytesused`, the buffer flags, whether
`cap_buffers` is `NULL`, and the bytes of `cap_buffers[cap_index]` (its `length`
is the length of `raw`). -/
structure Captured where
  cap_index : Int
  cap_bytesused : Int
  flags : Nat
  buffersNull : Bool
  raw : List Nat
deriving DecidableEq

/-- What `readFrame` hands back: the returned flag, the caller's `buffer` and
`isKeyFrame`, and the session with the trace of external calls. -/
structure FrameResult where
  ok : Bool
  buffer : List Nat
  isKeyFrame : Bool
  st : St
deriving DecidableEq

/-- The part of `SnxCodecController::readFrame` that works on the selected
session.  `buffer0` and `key0` are the caller's `buffer` and `isKeyFrame` on
entry, `cap` is what `snx_codec_read` writes into the context when it returns 0
(of the context it touches only the capture fields).  The `presentation`
timestamp copied out of the context is left out. -/
def readSession (env : Env) (cap : Captured) (buffer0 : List Nat) (key0 : Bool) (s : St) :
    FrameResult :=
  if !s.session.active then ⟨false, buffer0, key0, s⟩
  else
    let ret := s.next env
    let s1 := s.log Call.snx_codec_read
    if ret ≠ 0 then ⟨false, buffer0, key0, s1⟩
    else
      let s2 := s1.setCtx { s1.session.ctx with
        cap_index := cap.cap_index, cap_bytesused := cap.cap_bytesused, flags := cap.flags }
      if s2.session.ctx.cap_index < 0 ∨ cap.buffersNull = true then
        ⟨false, buffer0, key0, s2.log Call.snx_codec_reset⟩
      else
        let payload0 := (max 0 s2.session.ctx.cap_bytesused).toNat
        let capacity := cap.raw.length
        let payload := if payload0 > capacity then capacity else payload0
        let buffer := cap.raw.take payload
        let isKeyFrame := decide (s2.session.ctx.flags &&& V4L2_BUF_FLAG_KEYFRAME ≠ 0)
        let s3 :=
          if s2.session.ctx.cap_bytesused > 0 ∧ s2.session.ctx.codec_fmt = V4L2_PIX_FMT_H264 ∧
              s2.session.ctx.bit_rate > 0 then
            let qp := s2.next env
            (s2.log Call.snx_codec_rc_update).setCtx { s2.session.ctx with qp := qp }
          else s2
        ⟨!buffer.isEmpty, buffer, isKeyFrame, s3.log Call.snx_codec_reset⟩

/-- The session `readFrame` selects for a stream. -/
def sessionOf (c : Controller) (stream : StreamKind) : Session :=
  match stream with
  | StreamKind.High => c.impl.highSession
  | StreamKind.Low => c.impl.lowSession

/-- Embeds `SnxCodecController::readFrame`: the returned flag, the caller's
`buffer` and `isKeyFrame`, and the controller afterwards. -/
def readFrame (env : Env) (cap : Captured) (stream : StreamKind) (buffer0 : List Nat)
    (key0 : Bool) (c : Controller) : Bool × List Nat × Bool × Controller :=
  if !isRunning c then (false, buffer0, key0, c)
  else
    let r := readSession env cap buffer0 key0 ⟨sessionOf c stream, c.trace⟩
    (r.ok, r.buffer, r.isKeyFrame,
      { impl :=
          match stream with
          | StreamKind.High => { c.impl with highSession := r.st.session }
          | StreamKind.Low => { c.impl with lowSession := r.st.session },
        trace := r.st.trace })

/-- Successive calls of `readFrame` on one session, one per captured buffer. -/
def readMany (env : Env) : List Captured → St → St
  | [], s => s
  | cap :: caps, s => readMany env caps (readSession env cap [] false s).st

/-- The calls of a trace that reach the rate controller: `snx_codec_rc_init`
(seeding) and `snx_codec_rc_update` (feeding). -/
def rcCalls (trace : List Call) : List Call :=
  trace.filter fun c => decide (c = Call.snx_codec_rc_init ∨ c = Call.snx_codec_rc_update)

/-- What the rate-control guards read in a session, and the rate-controller
calls issued so far. -/
def rateKey (s : St) : Int × Nat × List Call :=
  (s.session.ctx.bit_rate, s.session.ctx.codec_fmt, rcCalls s.trace)

/-- A capture buffer of seven bytes of which five are used, flagged as a
keyframe. -/
def exampleCapture : Captured := ⟨0, 5, 8, false, [0, 0, 0, 1, 0x65, 0x88, 0x80]⟩

end SnxCodecController

namespace SnxCodecController

/-- The state a ladder position carries. -/
def Ladder.state : Ladder → St
  | Ladder.done s => s
  | Ladder.failed s => s
  | Ladder.next s => s

/-- The rate controller as `configureSession` can leave it on a session asked
for the bitrate field `b`, entered with the rate-controller calls `l` behind it:
`b` and H.264 are in the context, and either no further rate-controller call has
been issued, or `b` is positive and the only further call is the seeding
`snx_codec_rc_init`. -/
def Rated (b : Int) (l : List Call) (t : St) : Prop :=
  t.session.ctx.bit_rate = b ∧ t.session.ctx.codec_fmt = V4L2_PIX_FMT_H264 ∧
    (rcCalls t.trace = l ∨ (b > 0 ∧ rcCalls t.trace = l ++ [Call.snx_codec_rc_init]))

/-- The parameters `defaultHigh` with the bitrate 2^31 bits per second. -/
def highAt2G : StreamParams := { defaultHigh with bitrate := 2 ^ 31 }

end SnxCodecController

/-! # Theorems -/

namespace V4L2DeviceSource

/-! ## The bounded queue keeps the most recent frames -/

theorem evictWhileFull_eq_drop (C : Nat) (hC : 1 ≤ C) (q : List Frame) :
    evictWhileFull C q = some (q.drop (q.length + 1 - C)) := by
  induction q with
  | nil =>
      have h0 : ¬ (0 ≥ C) := by omega
      simp [evictWhileFull, h0]
  | cons f rest ih =>
      by_cases h : (f :: rest).length ≥ C
      · have e : (f :: rest).length + 1 - C = (rest.length + 1 - C) + 1 := by
          simp only [List.length_cons] at h ⊢
          omega
        rw [evictWhileFull, if_pos h, ih, e, List.drop_succ_cons]
      · have e : (f :: rest).length + 1 - C = 0 := by
          simp only [List.length_cons] at h ⊢
          omega
        rw [evictWhileFull, if_neg h, e, List.drop_zero]

theorem queueFrame_eq_drop (C : Nat) (hC : 1 ≤ C) (q : List Frame) (f : Frame) :
    queueFrame C q f = some ((q ++ [f]).drop (q.length + 1 - C)) := by
  have hle : q.length + 1 - C ≤ q.length := by omega
  rw [queueFrame, evictWhileFull_eq_drop C hC q, List.drop_append_of_le_length hle]
  rfl

theorem pushAll_eq_drop (C : Nat) (hC : 1 ≤ C) (fs q : List Frame) (hq : q.length ≤ C) :
    pushAll C q fs = some ((q ++ fs).drop ((q ++ fs).length - C)) := by
  induction fs generalizing q with
  | nil =>
      have e : (q ++ []).length - C = 0 := by simp; omega
      rw [pushAll, e, List.drop_zero, List.append_nil]
  | cons f fs ih =>
      have hlen : ((q ++ [f]).drop (q.length + 1 - C)).length ≤ C := by
        simp only [List.length_drop, List.length_append, List.length_singleton]
        omega
      rw [pushAll, queueFrame_eq_drop C hC q f, Option.some_bind, ih _ hlen]
      have hle : q.length + 1 - C ≤ (q ++ [f]).length := by
        simp only [List.length_append, List.length_singleton]
        omega
      rw [← List.drop_append_of_le_length hle, List.drop_drop]
      have e1 : (q ++ [f]) ++ fs = q ++ f :: fs := by simp
      rw [e1]
      congr 2
      simp only [List.length_drop, List.length_append, List.length_cons]
      omega

/-- C1: for a capacity `C ≥ 1`, pushing the frames `fs` one after the other onto
the empty queue always succeeds, the queue holds at most `C` entries after each
push, and after the last push it holds exactly the last `min n C` frames pushed,
in arrival order. -/
theorem queueFrame_bounded_keeps_latest (C : Nat) (hC : 1 ≤ C) (fs : List Frame) :
    (∀ k, k ≤ fs.length →
        ∃ q, pushAll C [] (fs.take k) = some q ∧ q.length ≤ C) ∧
      pushAll C [] fs = some (fs.drop (fs.length - C)) ∧
      (fs.drop (fs.length - C)).length = min fs.length C := by
  refine ⟨?_, ?_, ?_⟩
  · intro k _
    refine ⟨_, pushAll_eq_drop C hC (fs.take k) [] (by simp), ?_⟩
    simp only [List.nil_append, List.length_drop]
    omega
  · simpa using pushAll_eq_drop C hC fs [] (by simp)
  · simp only [List.length_drop]
    omega

/-- Three frames pushed through a queue of capacity two: the last two remain. -/
theorem queueFrame_bounded_keeps_latest_witness :
    1 ≤ 2 ∧ pushAll 2 [] [⟨[1], ⟨0, 0⟩⟩, ⟨[2], ⟨0, 1⟩⟩, ⟨[3], ⟨0, 2⟩⟩]
      = some ([⟨[1], ⟨0, 0⟩⟩, ⟨[2], ⟨0, 1⟩⟩, ⟨[3], ⟨0, 2⟩⟩].drop (3 - 2)) :=
  ⟨by decide, (queueFrame_bounded_keeps_latest 2 (by decide)
    [⟨[1], ⟨0, 0⟩⟩, ⟨[2], ⟨0, 1⟩⟩, ⟨[3], ⟨0, 2⟩⟩]).2.1⟩

end V4L2DeviceSource

namespace V4L2DeviceSource

/-! ## Presentation times follow the capture-time deltas -/

theorem pacedFrom_get (l : List Delivery) (d : Delivery) (h : pacedFrom d l) (i : Nat)
    (hi : i + 1 < (d :: l).length) :
    paced ((d :: l).get ⟨i, by omega⟩) ((d :: l).get ⟨i + 1, hi⟩) := by
  induction l generalizing d i with
  | nil => simp at hi
  | cons e rest ih =>
      cases i with
      | zero => exact h.1
      | succ j =>
          have hj : j + 1 < (e :: rest).length := by
            simp only [List.length_cons] at hi ⊢
            omega
          exact ih e h.2 j hj

theorem toUnsignedLong_small (bits : Nat) (hb : 32 ≤ bits) (x : Int) (h0 : 0 ≤ x)
    (h1 : x < 2000000) : toUnsignedLong bits x = x := by
  have hp : (2 : Int) ^ 32 ≤ (2 : Int) ^ bits :=
    pow_le_pow_right₀ (by norm_num) hb
  have h32 : (2 : Int) ^ 32 = 4294967296 := by norm_num
  exact Int.emod_eq_of_lt h0 (by omega)

theorem timersub_spec (a b : Timeval) (ha : a.normalised) (hb : b.normalised) :
    (timersub a b).normalised ∧ (timersub a b).micros = a.micros - b.micros := by
  obtain ⟨a0, a1⟩ := ha
  obtain ⟨b0, b1⟩ := hb
  unfold timersub
  by_cases h : a.tv_usec - b.tv_usec < 0
  · simp only [h, if_true, Timeval.normalised, Timeval.micros]
    refine ⟨⟨by omega, by omega⟩, by ring⟩
  · simp only [h, if_false, Timeval.normalised, Timeval.micros]
    refine ⟨⟨by omega, by omega⟩, by ring⟩

/-- The `else` branch of the presentation-time update: an exact advance by the
capture-time difference, and a normalised result. -/
theorem nextPresentationTime_later (env : DeliverEnv) (s : SourceState) (frame : Frame)
    (hw : 32 ≤ env.ulongBits) (hfirst : s.m_firstFrame = false)
    (hp : s.fPresentationTime.normalised) (hl : s.m_lastPresentationTime.normalised)
    (ht : frame.m_timestamp.normalised) :
    (nextPresentationTime env s frame).normalised ∧
      (nextPresentationTime env s frame).micros =
        s.fPresentationTime.micros +
          (frame.m_timestamp.micros - s.m_lastPresentationTime.micros) := by
  obtain ⟨hn, hm⟩ := timersub_spec frame.m_timestamp s.m_lastPresentationTime ht hl
  obtain ⟨i0, i1⟩ := hn
  obtain ⟨p0, p1⟩ := hp
  have hu := toUnsignedLong_small env.ulongBits hw
    (s.fPresentationTime.tv_usec +
      (timersub frame.m_timestamp s.m_lastPresentationTime).tv_usec) (by omega) (by omega)
  simp only [nextPresentationTime, hfirst, Bool.false_eq_true, if_false, hu]
  rw [← hm]
  simp only [Timeval.normalised, Timeval.micros]
  refine ⟨⟨by omega, by omega⟩, by omega⟩

end V4L2DeviceSource

namespace V4L2DeviceSource

theorem afterGettingIfFrame_fields (s : SourceState) :
    (afterGettingIfFrame s).m_captureQueue = s.m_captureQueue ∧
      (afterGettingIfFrame s).m_firstFrame = s.m_firstFrame ∧
      (afterGettingIfFrame s).m_lastPresentationTime = s.m_lastPresentationTime ∧
      (afterGettingIfFrame s).fPresentationTime = s.fPresentationTime := by
  unfold afterGettingIfFrame
  split <;> exact ⟨rfl, rfl, rfl, rfl⟩

theorem deliverFrame_pop (env : DeliverEnv) (s : SourceState) (frame : Frame)
    (rest : List Frame) (ha : env.isCurrentlyAwaitingData = true)
    (hq : s.m_captureQueue = frame :: rest) :
    (deliverFrame env s).m_captureQueue = rest ∧
      (deliverFrame env s).m_firstFrame = false ∧
      (deliverFrame env s).m_lastPresentationTime = frame.m_timestamp ∧
      (deliverFrame env s).fPresentationTime = nextPresentationTime env s frame := by
  obtain ⟨a1, a2, a3, a4⟩ := afterGettingIfFrame_fields
    (deliverLocked env { s with fDurationInMicroseconds := 0, fFrameSize := 0 })
  simp only [deliverFrame, ha, if_true]
  rw [a1, a2, a3, a4]
  simp only [deliverLocked, hq, true_and]
  rfl

theorem deliverFrame_idle (env : DeliverEnv) (s : SourceState)
    (h : env.isCurrentlyAwaitingData = false ∨ s.m_captureQueue = []) :
    (deliverFrame env s).m_captureQueue = s.m_captureQueue ∧
      (deliverFrame env s).m_firstFrame = s.m_firstFrame ∧
      (deliverFrame env s).m_lastPresentationTime = s.m_lastPresentationTime ∧
      (deliverFrame env s).fPresentationTime = s.fPresentationTime := by
  by_cases ha : env.isCurrentlyAwaitingData = true
  · have hq : s.m_captureQueue = [] := by
      rcases h with h | h
      · rw [ha] at h; cases h
      · exact h
    obtain ⟨a1, a2, a3, a4⟩ := afterGettingIfFrame_fields
      (deliverLocked env { s with fDurationInMicroseconds := 0, fFrameSize := 0 })
    simp only [deliverFrame, ha, if_true]
    rw [a1, a2, a3, a4]
    simp only [deliverLocked, hq, and_self]
  · simp only [deliverFrame, ha]
    exact ⟨rfl, rfl, rfl, rfl⟩

theorem deliveries_pop (env : DeliverEnv) (envs : List DeliverEnv) (s : SourceState)
    (frame : Frame) (rest : List Frame) (ha : env.isCurrentlyAwaitingData = true)
    (hq : s.m_captureQueue = frame :: rest) :
    deliveries s (env :: envs) =
      ⟨frame.m_timestamp, env.baseline, (deliverFrame env s).fPresentationTime⟩
        :: deliveries (deliverFrame env s) envs := by
  simp only [deliveries, ha, hq]

theorem deliveries_idle (env : DeliverEnv) (envs : List DeliverEnv) (s : SourceState)
    (h : env.isCurrentlyAwaitingData = false ∨ s.m_captureQueue = []) :
    deliveries s (env :: envs) = deliveries (deliverFrame env s) envs := by
  rcases h with h | h
  · simp only [deliveries, h]
  · cases hb : env.isCurrentlyAwaitingData <;> simp only [deliveries, hb, h]

theorem pop_or_idle (env : DeliverEnv) (s : SourceState) :
    (env.isCurrentlyAwaitingData = false ∨ s.m_captureQueue = []) ∨
      (env.isCurrentlyAwaitingData = true ∧
        ∃ frame rest, s.m_captureQueue = frame :: rest) := by
  cases ha : env.isCurrentlyAwaitingData
  · exact Or.inl (Or.inl rfl)
  · cases hq : s.m_captureQueue with
    | nil => exact Or.inl (Or.inr rfl)
    | cons f r => exact Or.inr ⟨rfl, f, r, rfl⟩

theorem deliveries_later (envs : List DeliverEnv) (s : SourceState) (w : Timeval)
    (hfirst : s.m_firstFrame = false) (hp : s.fPresentationTime.normalised)
    (hl : s.m_lastPresentationTime.normalised)
    (hq : ∀ f ∈ s.m_captureQueue, f.m_timestamp.normalised)
    (he : ∀ e ∈ envs, 32 ≤ e.ulongBits) :
    pacedFrom ⟨s.m_lastPresentationTime, w, s.fPresentationTime⟩ (deliveries s envs) := by
  induction envs generalizing s w with
  | nil => simp [deliveries, pacedFrom]
  | cons env envs ih =>
      have he2 : ∀ e ∈ envs, 32 ≤ e.ulongBits := fun e h => he e (List.mem_cons_of_mem _ h)
      rcases pop_or_idle env s with h | ⟨ha, frame, rest, hqe⟩
      · obtain ⟨i1, i2, i3, i4⟩ := deliverFrame_idle env s h
        rw [deliveries_idle env envs s h]
        have := ih (deliverFrame env s) w (by rw [i2, hfirst]) (by rw [i4]; exact hp)
          (by rw [i3]; exact hl) (by rw [i1]; exact hq)
          he2
        rw [i3, i4] at this
        exact this
      · obtain ⟨i1, i2, i3, i4⟩ := deliverFrame_pop env s frame rest ha hqe
        have ht : frame.m_timestamp.normalised := hq frame (by rw [hqe]; simp)
        obtain ⟨n1, n2⟩ := nextPresentationTime_later env s frame
          (he env (List.mem_cons_self _ _)) hfirst hp hl ht
        rw [deliveries_pop env envs s frame rest ha hqe]
        refine ⟨?_, ?_⟩
        · show Timeval.micros _ = Timeval.micros _ + (Timeval.micros _ - Timeval.micros _)
          rw [i4]
          exact n2
        · have := ih (deliverFrame env s) env.baseline i2 (by rw [i4]; exact n1)
            (by rw [i3]; exact ht)
            (by rw [i1]; intro f hf; exact hq f (by rw [hqe]; exact List.mem_cons_of_mem _ hf))
            he2
          rw [i3] at this
          exact this

theorem deliveries_first (envs : List DeliverEnv) (s : SourceState)
    (hfirst : s.m_firstFrame = true)
    (hq : ∀ f ∈ s.m_captureQueue, f.m_timestamp.normalised)
    (he : ∀ e ∈ envs, e.baseline.normalised ∧ 32 ≤ e.ulongBits) :
    deliveries s envs = [] ∨
      ∃ d rest, deliveries s envs = d :: rest ∧ d.presentation = d.wallClock ∧
        pacedFrom d rest := by
  induction envs generalizing s with
  | nil => exact Or.inl rfl
  | cons env envs ih =>
      have he2 : ∀ e ∈ envs, e.baseline.normalised ∧ 32 ≤ e.ulongBits :=
        fun e h => he e (List.mem_cons_of_mem _ h)
      rcases pop_or_idle env s with h | ⟨ha, frame, rest, hqe⟩
      · obtain ⟨i1, i2, _, _⟩ := deliverFrame_idle env s h
        rw [deliveries_idle env envs s h]
        exact ih (deliverFrame env s) (by rw [i2, hfirst]) (by rw [i1]; exact hq) he2
      · obtain ⟨i1, i2, i3, i4⟩ := deliverFrame_pop env s frame rest ha hqe
        have hb : nextPresentationTime env s frame = env.baseline := by
          simp [nextPresentationTime, hfirst]
        rw [deliveries_pop env envs s frame rest ha hqe]
        refine Or.inr ⟨_, _, rfl, ?_, ?_⟩
        · show (deliverFrame env s).fPresentationTime = env.baseline
          rw [i4, hb]
        · have := deliveries_later envs (deliverFrame env s) env.baseline i2
            (by rw [i4, hb]; exact (he env (List.mem_cons_self _ _)).1)
            (by rw [i3]; exact hq frame (by rw [hqe]; simp))
            (by rw [i1]; intro f hf; exact hq f (by rw [hqe]; exact List.mem_cons_of_mem _ hf))
            (fun e h => (he2 e h).2)
          rw [i3] at this
          exact this

theorem deliveries_capture (envs : List DeliverEnv) (s : SourceState) :
    (deliveries s envs).map (fun d => d.capture) =
      (s.m_captureQueue.take (deliveries s envs).length).map (fun f => f.m_timestamp) := by
  induction envs generalizing s with
  | nil => simp [deliveries]
  | cons env envs ih =>
      rcases pop_or_idle env s with h | ⟨ha, frame, rest, hqe⟩
      · obtain ⟨i1, _, _, _⟩ := deliverFrame_idle env s h
        rw [deliveries_idle env envs s h, ih (deliverFrame env s), i1]
      · obtain ⟨i1, _, _, _⟩ := deliverFrame_pop env s frame rest ha hqe
        rw [deliveries_pop env envs s frame rest ha hqe, hqe]
        simp only [List.map_cons, List.length_cons, List.take_succ_cons]
        rw [ih (deliverFrame env s), i1]

/-- C2: starting from a source that has not delivered yet, run any number of
`deliverFrame` calls over a queue of frames with normalised capture timestamps.
The frames are delivered in queue order; the presentation time of the first
delivered frame is the wall-clock reading of that call, and each later
presentation time is the previous one plus the difference of the two capture
timestamps, as exact microsecond counts, whatever the wall-clock readings are. -/
theorem deliverFrame_presentation_follows_capture (s : SourceState)
    (envs : List DeliverEnv) (hfirst : s.m_firstFrame = true)
    (hq : ∀ f ∈ s.m_captureQueue, f.m_timestamp.normalised)
    (he : ∀ e ∈ envs, e.baseline.normalised ∧ 32 ≤ e.ulongBits) :
    (deliveries s envs).map (fun d => d.capture) =
        (s.m_captureQueue.take (deliveries s envs).length).map (fun f => f.m_timestamp) ∧
      (∀ d, (deliveries s envs).head? = some d → d.presentation = d.wallClock) ∧
      (∀ i (hi : i + 1 < (deliveries s envs).length),
        ((deliveries s envs).get ⟨i + 1, hi⟩).presentation.micros =
          ((deliveries s envs).get ⟨i, by omega⟩).presentation.micros +
            (((deliveries s envs).get ⟨i + 1, hi⟩).capture.micros -
              ((deliveries s envs).get ⟨i, by omega⟩).capture.micros)) := by
  refine ⟨deliveries_capture envs s, ?_, ?_⟩
  · intro d hd
    rcases deliveries_first envs s hfirst hq he with h | ⟨d0, rest, h, h1, _⟩
    · rw [h] at hd; cases hd
    · rw [h] at hd
      cases hd
      exact h1
  · rcases deliveries_first envs s hfirst hq he with h | ⟨d0, rest, h, _, h2⟩
    · intro i hi
      rw [h] at hi
      cases hi
    · rw [h]
      intro i hi
      exact pacedFrom_get rest d0 h2 i hi

end V4L2DeviceSource

namespace V4L2DeviceSource

/-- Two frames captured 200 ms apart and delivered three seconds apart. -/
theorem deliverFrame_presentation_follows_capture_witness :
    (SourceState.init exampleQueue).m_firstFrame = true ∧
      (∀ f ∈ (SourceState.init exampleQueue).m_captureQueue, f.m_timestamp.normalised) ∧
      (∀ e ∈ exampleEnvs, e.baseline.normalised ∧ 32 ≤ e.ulongBits) ∧
      (∀ d, (deliveries (SourceState.init exampleQueue) exampleEnvs).head? = some d →
        d.presentation = d.wallClock) :=
  have h1 : ∀ f ∈ (SourceState.init exampleQueue).m_captureQueue, f.m_timestamp.normalised := by
    simp [SourceState.init, exampleQueue, Timeval.normalised]
  have h2 : ∀ e ∈ exampleEnvs, e.baseline.normalised ∧ 32 ≤ e.ulongBits := by
    simp [exampleEnvs, Timeval.normalised]
  ⟨rfl, h1, h2,
    (deliverFrame_presentation_follows_capture (SourceState.init exampleQueue) exampleEnvs
      rfl h1 h2).2.1⟩

end V4L2DeviceSource

namespace SnxDeviceInterface

/-! ## Keyframe repair in `read` -/

theorem read_frame (c : ParamSets) (data : List Nat) (key : Bool) (bufferSize : Nat)
    (data1 : List Nat)
    (h : (if key && !startsWithSpsPps data then
            if !(cacheParameterSetsIfAny data c).m_sps.isEmpty &&
                !(cacheParameterSetsIfAny data c).m_pps.isEmpty
            then fused (cacheParameterSetsIfAny data c) data else data
          else data) = data1) :
    read c true (some (data, key)) bufferSize =
      ⟨min data1.length bufferSize, data1.take bufferSize, cacheParameterSetsIfAny data c⟩ := by
  simp only [read, Bool.not_true, Bool.false_eq_true, if_false, h]
  by_cases hl : data1.length > bufferSize
  · simp only [hl, if_true, Nat.min_eq_right (Nat.le_of_lt hl)]
  · have hle : data1.length ≤ bufferSize := Nat.le_of_not_gt hl
    simp only [hl, if_false, Nat.min_eq_left hle, List.take_of_length_le hle,
      List.take_of_length_le (Nat.le_refl _)]

/-- C3: a keyframe access unit that `startsWithSpsPps` rejects, read while the
cache (as `read` finds it after parsing this access unit) holds an SPS and a PPS,
reaches the caller as `00 00 00 01`, the cached SPS, `00 00 00 01`, the cached
PPS and the original access unit, in this order, cut at `bufferSize`. -/
theorem read_prepends_cached_sets (c : ParamSets) (data : List Nat) (bufferSize : Nat)
    (hstart : startsWithSpsPps data = false)
    (hsps : (cacheParameterSetsIfAny data c).m_sps ≠ [])
    (hpps : (cacheParameterSetsIfAny data c).m_pps ≠ []) :
    (read c true (some (data, true)) bufferSize).bytes =
        ([0x00, 0x00, 0x00, 0x01] ++ (cacheParameterSetsIfAny data c).m_sps ++
          [0x00, 0x00, 0x00, 0x01] ++ (cacheParameterSetsIfAny data c).m_pps ++
          data).take bufferSize ∧
      (read c true (some (data, true)) bufferSize).n =
        min (4 + (cacheParameterSetsIfAny data c).m_sps.length + 4 +
          (cacheParameterSetsIfAny data c).m_pps.length + data.length) bufferSize := by
  have e1 : (cacheParameterSetsIfAny data c).m_sps.isEmpty = false := by
    cases h : (cacheParameterSetsIfAny data c).m_sps with
    | nil => exact absurd h hsps
    | cons _ _ => rfl
  have e2 : (cacheParameterSetsIfAny data c).m_pps.isEmpty = false := by
    cases h : (cacheParameterSetsIfAny data c).m_pps with
    | nil => exact absurd h hpps
    | cons _ _ => rfl
  rw [read_frame c data true bufferSize (fused (cacheParameterSetsIfAny data c) data)
    (by simp [hstart, e1, e2])]
  refine ⟨by simp [fused, sc4], ?_⟩
  show min (fused (cacheParameterSetsIfAny data c) data).length bufferSize = _
  congr 1
  simp only [fused, sc4, List.length_append, List.length_cons, List.length_nil]

theorem startsWithSpsPps_of_units (data : List Nat) (p q : Nat)
    (hp : findStartCode data 0 = some p) (hpl : p < data.length)
    (ht1 : nalUnitType (data.getD p 0) = 7)
    (hq : findStartCode data p = some q) (hql : q < data.length)
    (ht2 : nalUnitType (data.getD q 0) = 8) :
    startsWithSpsPps data = true := by
  have h1 : ¬ (p ≥ data.length) := by omega
  have h2 : ¬ (q ≥ data.length) := by omega
  simp only [startsWithSpsPps, hp, hq, h1, h2, ht1, ht2, if_false, ne_eq, not_true_eq_false,
    beq_self_eq_true]

/-- C4: a keyframe access unit whose first start-code-delimited unit has type 7
and whose second has type 8 reaches the caller byte-identical when it fits the
caller's buffer, whatever the cache holds. -/
theorem read_keeps_sps_pps_keyframe (c : ParamSets) (data : List Nat)
    (bufferSize p q : Nat)
    (hp : findStartCode data 0 = some p) (hpl : p < data.length)
    (ht1 : nalUnitType (data.getD p 0) = 7)
    (hq : findStartCode data p = some q) (hql : q < data.length)
    (ht2 : nalUnitType (data.getD q 0) = 8)
    (hfit : data.length ≤ bufferSize) :
    (read c true (some (data, true)) bufferSize).bytes = data ∧
      (read c true (some (data, true)) bufferSize).n = data.length := by
  have hs := startsWithSpsPps_of_units data p q hp hpl ht1 hq hql ht2
  rw [read_frame c data true bufferSize data (by simp [hs])]
  exact ⟨List.take_of_length_le hfit, Nat.min_eq_left hfit⟩

/-- An access unit made of an SPS, a PPS and an IDR slice, read while the cache
holds other parameter sets. -/
theorem read_keeps_sps_pps_keyframe_witness :
    findStartCode [0, 0, 0, 1, 0x67, 0xAA, 0, 0, 0, 1, 0x68, 0xBB, 0, 0, 1, 0x65, 9] 0 = some 4 ∧
      (read ⟨[0x67, 1], [0x68, 2]⟩ true
        (some ([0, 0, 0, 1, 0x67, 0xAA, 0, 0, 0, 1, 0x68, 0xBB, 0, 0, 1, 0x65, 9], true)) 64).bytes
        = [0, 0, 0, 1, 0x67, 0xAA, 0, 0, 0, 1, 0x68, 0xBB, 0, 0, 1, 0x65, 9] :=
  ⟨by decide,
    (read_keeps_sps_pps_keyframe ⟨[0x67, 1], [0x68, 2]⟩
      [0, 0, 0, 1, 0x67, 0xAA, 0, 0, 0, 1, 0x68, 0xBB, 0, 0, 1, 0x65, 9] 64 4 10
      (by decide) (by decide) (by decide) (by decide) (by decide) (by decide) (by decide)).1⟩

/-- An IDR slice without parameter sets, read while both are cached. -/
theorem read_prepends_cached_sets_witness :
    startsWithSpsPps [0, 0, 0, 1, 0x65, 9, 8] = false ∧
      (read ⟨[0x67, 1], [0x68, 2]⟩ true (some ([0, 0, 0, 1, 0x65, 9, 8], true)) 64).bytes =
        [0, 0, 0, 1, 0x67, 1, 0, 0, 0, 1, 0x68, 2, 0, 0, 0, 1, 0x65, 9, 8] :=
  ⟨by decide,
    (read_prepends_cached_sets ⟨[0x67, 1], [0x68, 2]⟩ [0, 0, 0, 1, 0x65, 9, 8] 64
      (by decide) (by decide) (by decide)).1⟩

/-- With no start code in the access unit the parsing loop never runs. -/
theorem cacheParameterSetsIfAny_no_start_code (c : ParamSets) (data : List Nat)
    (h : findStartCode data 0 = none) : cacheParameterSetsIfAny data c = c := by
  simp [cacheParameterSetsIfAny, h, cacheLoop]

theorem startsWithSpsPps_no_start_code (data : List Nat)
    (h : findStartCode data 0 = none) : startsWithSpsPps data = false := by
  simp [startsWithSpsPps, h]

/-- C6, as the code has it: an access unit in which no start code is recognised
leaves the cache unchanged and reaches the caller unmodified (cut at
`bufferSize`) when it is not flagged as a keyframe or when the cache lacks an
SPS or a PPS; flagged as a keyframe with both cached, it gets them prepended. -/
theorem read_without_start_code (c : ParamSets) (data : List Nat) (key : Bool)
    (bufferSize : Nat) (h : findStartCode data 0 = none) :
    (read c true (some (data, key)) bufferSize).cache = c ∧
      (read c true (some (data, key)) bufferSize).bytes =
        if key = true ∧ c.m_sps ≠ [] ∧ c.m_pps ≠ [] then
          ([0x00, 0x00, 0x00, 0x01] ++ c.m_sps ++ [0x00, 0x00, 0x00, 0x01] ++ c.m_pps ++
            data).take bufferSize
        else data.take bufferSize := by
  have hc := cacheParameterSetsIfAny_no_start_code c data h
  have hs := startsWithSpsPps_no_start_code data h
  rw [read_frame c data key bufferSize _ rfl, hc, hs]
  refine ⟨rfl, ?_⟩
  cases key <;> cases hsps : c.m_sps <;> cases hpps : c.m_pps <;> simp [fused, sc4, hsps, hpps]

/-- C6 fails as stated: the access unit `01 02 03` holds no start code, yet as a
keyframe read with a cached SPS and PPS it reaches the caller with both
prepended. -/
theorem read_without_start_code_modified :
    findStartCode [1, 2, 3] 0 = none ∧
      (read ⟨[0x67, 0x42], [0x68, 0xCE]⟩ true (some ([1, 2, 3], true)) 64).bytes =
        [0, 0, 0, 1, 0x67, 0x42, 0, 0, 0, 1, 0x68, 0xCE, 1, 2, 3] ∧
      (read ⟨[0x67, 0x42], [0x68, 0xCE]⟩ true (some ([1, 2, 3], true)) 64).bytes ≠ [1, 2, 3] := by
  decide

/-- A non-keyframe without start code passes through. -/
theorem read_without_start_code_witness :
    findStartCode [1, 2, 3] 0 = none ∧
      (read ⟨[0x67, 0x42], [0x68, 0xCE]⟩ true (some ([1, 2, 3], false)) 64).bytes = [1, 2, 3] :=
  ⟨by decide,
    (read_without_start_code ⟨[0x67, 0x42], [0x68, 0xCE]⟩ [1, 2, 3] false 64 (by decide)).2⟩

end SnxDeviceInterface

namespace SnxDeviceInterface

/-! ## Bounds on `findStartCode` and adequacy of the iteration bounds -/

theorem findStartCodeLoop_bounds (buf : List Nat) (fuel i n : Nat)
    (h : findStartCodeLoop buf fuel i = some n) : i + 3 ≤ n ∧ n ≤ buf.length := by
  induction fuel generalizing i with
  | zero => simp [findStartCodeLoop] at h
  | succ fuel ih =>
      unfold findStartCodeLoop at h
      split at h
      · split at h
        · cases h
          omega
        · split at h
          · cases h
            omega
          · have := ih (i + 1) h
            omega
      · cases h

theorem findStartCode_bounds (buf : List Nat) (off n : Nat)
    (h : findStartCode buf off = some n) : off + 3 ≤ n ∧ n ≤ buf.length :=
  findStartCodeLoop_bounds buf _ off n h

/-- The loop of `findStartCode` never stops for lack of iterations: any bound of
at least `buf.size() - i` gives the same result. -/
theorem findStartCodeLoop_fuel (buf : List Nat) (fuel1 fuel2 i : Nat)
    (h1 : buf.length ≤ i + fuel1) (h2 : buf.length ≤ i + fuel2) :
    findStartCodeLoop buf fuel1 i = findStartCodeLoop buf fuel2 i := by
  induction fuel1 generalizing i fuel2 with
  | zero =>
      have hn : ¬ (i + 3 < buf.length) := by omega
      cases fuel2 with
      | zero => rfl
      | succ f2 => simp [findStartCodeLoop, hn]
  | succ f1 ih =>
      cases fuel2 with
      | zero =>
          have hn : ¬ (i + 3 < buf.length) := by omega
          simp [findStartCodeLoop, hn]
      | succ f2 =>
          unfold findStartCodeLoop
          rw [ih f2 (i + 1) (by omega) (by omega)]

/-- The loop of `cacheParameterSetsIfAny` never stops for lack of iterations. -/
theorem cacheLoop_fuel (buf : List Nat) (fuel1 fuel2 pos : Nat) (c : ParamSets)
    (h1 : buf.length < pos + fuel1) (h2 : buf.length < pos + fuel2) :
    cacheLoop buf fuel1 (some pos) c = cacheLoop buf fuel2 (some pos) c := by
  induction fuel1 generalizing pos fuel2 c with
  | zero =>
      have hn : ¬ (pos < buf.length) := by omega
      cases fuel2 with
      | zero => rfl
      | succ f2 => simp [cacheLoop, hn]
  | succ f1 ih =>
      cases fuel2 with
      | zero =>
          have hn : ¬ (pos < buf.length) := by omega
          simp [cacheLoop, hn]
      | succ f2 =>
          unfold cacheLoop
          cases hnext : findStartCode buf pos with
          | none =>
              have e : ∀ (f : Nat) (d : ParamSets), cacheLoop buf f none d = d := by
                intro f d
                cases f <;> rfl
              simp only [e]
          | some n =>
              have hb := findStartCode_bounds buf pos n hnext
              simp only [ih f2 n _ (by omega) (by omega)]

end SnxDeviceInterface

namespace SnxDeviceInterface

/-! ## A keyframe that starts with an SPS but has no PPS second -/

theorem unit_ne_nil (buf : List Nat) (p e : Nat) (hp : p < buf.length) (he : p < e) :
    (buf.take e).drop p ≠ [] := by
  intro h
  have hl : ((buf.take e).drop p).length = 0 := by rw [h]; rfl
  simp only [List.length_drop, List.length_take] at hl
  omega

theorem cacheLoop_pps_nonempty (buf : List Nat) (fuel : Nat) (pos : Option Nat)
    (c : ParamSets) (h : c.m_pps ≠ []) : (cacheLoop buf fuel pos c).m_pps ≠ [] := by
  induction fuel generalizing pos c with
  | zero => exact h
  | succ fuel ih =>
      cases pos with
      | none => exact h
      | some p =>
          unfold cacheLoop
          split
          · rename_i hp
            dsimp only
            split
            · exact h
            · rename_i he
              apply ih
              split
              · exact h
              · split
                · exact unit_ne_nil buf p _ hp (by omega)
                · exact h
          · exact h

end SnxDeviceInterface

namespace SnxCodecController

/-! ## Teardown -/

theorem stopCodec_session (s : St) :
    (stopCodec s).session = { s.session with codecStarted := false } := by
  unfold stopCodec
  split
  · rfl
  · rename_i h
    obtain ⟨⟨ctx, rc, m, a, ci, cs, ii, is1⟩, tr⟩ := s
    cases cs
    · rfl
    · exact absurd rfl h

theorem uninitCodec_session (s : St) :
    (uninitCodec s).session = { s.session with codecInitialized := false } := by
  unfold uninitCodec
  split
  · rfl
  · rename_i h
    obtain ⟨⟨ctx, rc, m, a, ci, cs, ii, is1⟩, tr⟩ := s
    cases ci
    · rfl
    · exact absurd rfl h

theorem stopIsp_session (s : St) :
    (stopIsp s).session = { s.session with ispStarted := false } := by
  unfold stopIsp
  split
  · rfl
  · rename_i h
    obtain ⟨⟨ctx, rc, m, a, ci, cs, ii, is1⟩, tr⟩ := s
    cases is1
    · rfl
    · exact absurd rfl h

theorem uninitIsp_session (s : St) :
    (uninitIsp s).session = { s.session with ispInitialized := false } := by
  unfold uninitIsp
  split
  · rfl
  · rename_i h
    obtain ⟨⟨ctx, rc, m, a, ci, cs, ii, is1⟩, tr⟩ := s
    cases ii
    · rfl
    · exact absurd rfl h

theorem closeCodecFd_session (s : St) :
    (closeCodecFd s).session =
      { s.session with ctx := { s.session.ctx with
          codec_fd := if s.session.ctx.codec_fd ≥ 0 then -1 else s.session.ctx.codec_fd } } := by
  unfold closeCodecFd
  split
  · rfl
  · rfl

theorem closeIspFd_session (s : St) :
    (closeIspFd s).session =
      { s.session with ctx := { s.session.ctx with
          isp_fd := if s.session.ctx.isp_fd ≥ 0 then -1 else s.session.ctx.isp_fd } } := by
  unfold closeIspFd
  split
  · rfl
  · rfl

/-- The session `cleanupSessionLocked` leaves, field by field. -/
theorem cleanupSessionLocked_session (s : St) :
    (cleanupSessionLocked s).session =
      { s.session with
        ctx := { s.session.ctx with
          codec_fd := if s.session.ctx.codec_fd ≥ 0 then -1 else s.session.ctx.codec_fd
          isp_fd := if s.session.ctx.isp_fd ≥ 0 then -1 else s.session.ctx.isp_fd
          cap_index := -1
          cap_bytesused := 0
          flags := 0 }
        active := false
        codecInitialized := false
        codecStarted := false
        ispInitialized := if s.session.isM2M then false else s.session.ispInitialized
        ispStarted := if s.session.isM2M then false else s.session.ispStarted } := by
  unfold cleanupSessionLocked
  cases hm : s.session.isM2M <;>
    simp [resetCapture, closeIspFd_session, closeCodecFd_session, uninitIsp_session,
      stopIsp_session, uninitCodec_session, stopCodec_session, hm]

theorem cleanupSessionLocked_tornDown (s : St) : TornDown (cleanupSessionLocked s) := by
  unfold TornDown
  rw [cleanupSessionLocked_session]
  refine ⟨rfl, rfl, ?_, ?_, ?_, rfl, rfl, rfl, rfl⟩
  · intro h
    simp only at h
    simp only [h, if_true, and_self]
  · show (if s.session.ctx.codec_fd ≥ 0 then -1 else s.session.ctx.codec_fd) < 0
    split <;> omega
  · show (if s.session.ctx.isp_fd ≥ 0 then -1 else s.session.ctx.isp_fd) < 0
    split <;> omega

theorem cleanupSessionLocked_fixed (s : St) (h : TornDown s) : cleanupSessionLocked s = s := by
  obtain ⟨⟨ctx, rc, isM2M, active, ci, cs, ii, is1⟩, tr⟩ := s
  obtain ⟨h1, h2, h3, h4, h5, h6, h7, h8, h9⟩ := h
  dsimp only at h1 h2 h3 h4 h5 h6 h7 h8 h9
  subst h1 h2 h9
  have n4 : ¬ (ctx.codec_fd ≥ 0) := by omega
  have n5 : ¬ (ctx.isp_fd ≥ 0) := by omega
  obtain ⟨a1, a2, a3, a4, a5, a6, a7, a8, a9, a10, a11, a12, a13, a14, a15, a16, a17, a18,
    cap_index, cap_bytesused, codec_fd, isp_fd, a23, flags⟩ := ctx
  dsimp only at h6 h7 h8 n4 n5
  subst h6 h7 h8
  cases isM2M
  · simp [cleanupSessionLocked, stopCodec, uninitCodec, closeCodecFd, closeIspFd, resetCapture,
      n4, n5]
  · obtain ⟨e1, e2⟩ := h3 rfl
    subst e1 e2
    simp [cleanupSessionLocked, stopCodec, uninitCodec, stopIsp, uninitIsp, closeCodecFd,
      closeIspFd, resetCapture, n4, n5]

/-- C10: `cleanupSessionLocked` is idempotent.  For every session state and
trace, running it a second time right after the first changes nothing: the
trace is the same (no vendor call, no `close`) and so is the session. -/
theorem cleanupSessionLocked_idempotent (s : St) :
    (cleanupSessionLocked (cleanupSessionLocked s)).trace = (cleanupSessionLocked s).trace ∧
      (cleanupSessionLocked (cleanupSessionLocked s)).session =
        (cleanupSessionLocked s).session := by
  rw [cleanupSessionLocked_fixed _ (cleanupSessionLocked_tornDown s)]
  exact ⟨rfl, rfl⟩

end SnxCodecController

namespace SnxCodecController

/-! ## What a failed `configureSession` leaves -/

theorem kind_log (m : Bool) (s : St) (c : Call) (h : s.session.kind m) :
    (s.log c).session.kind m := h

theorem kind_setCtx (m : Bool) (s : St) (c : Ctx) (h : s.session.kind m) :
    (s.setCtx c).session.kind m := h

theorem cleanup_clear (m : Bool) (s : St) (h : s.session.kind m) :
    (cleanupSessionLocked s).session.flagsClear ∧ (cleanupSessionLocked s).session.noHandle := by
  rw [cleanupSessionLocked_session]
  obtain ⟨h1, h2⟩ := h
  refine ⟨⟨rfl, rfl, rfl, ?_, ?_⟩, ?_, ?_⟩
  · show (if s.session.isM2M then false else s.session.ispStarted) = false
    cases m
    · rw [h1, (h2 rfl).1]; rfl
    · rw [h1]; rfl
  · show (if s.session.isM2M then false else s.session.ispInitialized) = false
    cases m
    · rw [h1, (h2 rfl).2]; rfl
    · rw [h1]; rfl
  · show (if s.session.ctx.codec_fd ≥ 0 then -1 else s.session.ctx.codec_fd) < 0
    split <;> omega
  · show (if s.session.ctx.isp_fd ≥ 0 then -1 else s.session.ctx.isp_fd) < 0
    split <;> omega

theorem sound_ok (m : Bool) (s : St) (h : s.session.kind m) : Run.sound m ⟨true, s⟩ :=
  ⟨fun _ => h, fun h0 => by cases h0⟩

theorem sound_cleanup (m : Bool) (s : St) (h : s.session.kind m) :
    Run.sound m ⟨false, cleanupSessionLocked s⟩ :=
  ⟨fun h0 => (by cases h0), fun _ => cleanup_clear m s h⟩

theorem openCodec_sound (env : Env) (dc : DeviceConfig) (cd : List Nat) (m : Bool) (s : St)
    (h : s.session.kind m) : (openCodec env dc cd m s).sound m := by
  unfold openCodec
  dsimp only
  split
  · split
    · split
      · exact sound_cleanup m _ h
      · split
        · exact sound_cleanup m _ h
        · exact sound_ok m _ h
    · exact sound_cleanup m _ h
  · exact sound_ok m _ h

theorem startCodec_sound (env : Env) (m : Bool) (s : St) (h : s.session.kind m) :
    (startCodec env s).sound m := by
  unfold startCodec
  dsimp only
  split
  · split
    · split
      · exact sound_cleanup m _ h
      · exact sound_ok m _ h
    · exact sound_ok m _ h
  · exact sound_ok m _ h

theorem startIsp_sound (env : Env) (dc : DeviceConfig) (m : Bool) (s : St)
    (h : s.session.kind m) : (startIsp env dc m s).sound m := by
  unfold startIsp
  dsimp only
  split
  · rename_i hm
    have hk : ∀ t : St, t.session.kind m →
        ({ t with session := { t.session with ispStarted := true } } : St).session.kind m := by
      intro t ht
      refine ⟨ht.1, fun h0 => ?_⟩
      rw [hm] at h0
      cases h0
    split
    · exact sound_cleanup m _ h
    · split
      · exact sound_ok m _ (hk _ h)
      · exact sound_ok m _ (hk _ h)
  · exact sound_ok m _ h

theorem initRateControl_kind (env : Env) (m : Bool) (s : St) (h : s.session.kind m) :
    (initRateControl env s).session.kind m := by
  unfold initRateControl
  dsimp only
  split
  · exact h
  · exact h

theorem orElse_sound (m : Bool) (l : Ladder) (f : St → Ladder) (hl : l.sound m)
    (hf : ∀ t, t.session.kind m → (f t).sound m) : (l.orElse f).sound m := by
  cases l with
  | done t => exact hl
  | failed t => exact hl
  | next t => exact hf t hl

theorem capFallbacks_sound (env : Env) (m : Bool) (s : St) (h : s.session.kind m) :
    (capFallbacks env m s).sound m := by
  unfold capFallbacks
  dsimp only
  split_ifs <;> exact h

theorem m2mFallback_sound (env : Env) (m : Bool) (s : St) (h : s.session.kind m) :
    (m2mFallback env m s).sound m := by
  unfold m2mFallback
  dsimp only
  split
  · split
    · exact h
    · exact h
  · exact h

theorem closeCodecFd_kind (m : Bool) (s : St) (h : s.session.kind m) :
    (closeCodecFd s).session.kind m := by
  rw [closeCodecFd_session]
  exact h

theorem capNodeFallback_sound (env : Env) (dc : DeviceConfig) (m : Bool) (s : St)
    (h : s.session.kind m) : (capNodeFallback env dc m s).sound m := by
  have hc := closeCodecFd_kind m s h
  unfold capNodeFallback
  dsimp only
  split
  · split
    · exact cleanup_clear m _ hc
    · split
      · exact cleanup_clear m _ hc
      · split
        · exact hc
        · exact hc
  · exact h

theorem initCodec_sound (env : Env) (dc : DeviceConfig) (m : Bool) (s : St)
    (h : s.session.kind m) : (initCodec env dc m s).sound m := by
  have hl : (if s.next env ≠ 0 then
        ((capFallbacks env m (s.log Call.snx_codec_init)).orElse (m2mFallback env m)).orElse
          (capNodeFallback env dc m)
      else Ladder.done (s.log Call.snx_codec_init)).sound m := by
    split
    · exact orElse_sound m _ _
        (orElse_sound m _ _ (capFallbacks_sound env m _ h) (m2mFallback_sound env m))
        (capNodeFallback_sound env dc m)
    · exact h
  unfold initCodec
  dsimp only
  split
  · rename_i t heq
    rw [heq] at hl
    exact sound_ok m _ hl
  · rename_i t heq
    rw [heq] at hl
    exact ⟨fun h0 => (by cases h0), fun _ => hl⟩
  · rename_i t heq
    rw [heq] at hl
    exact sound_cleanup m _ hl

theorem openAndInitIsp_sound (env : Env) (m : Bool) (s : St) (h : s.session.kind m)
    (hf : s.session.flagsClear) (hfd : s.session.ctx.codec_fd < 0) :
    (openAndInitIsp env m s).sound m := by
  unfold openAndInitIsp
  dsimp only
  split
  · rename_i hm
    have hk : ∀ t : St, t.session.kind m →
        ({ t with session := { t.session with ispInitialized := true } } : St).session.kind m := by
      intro t ht
      refine ⟨ht.1, fun h0 => ?_⟩
      rw [hm] at h0
      cases h0
    split
    · rename_i hneg
      exact ⟨fun h0 => (by cases h0), fun _ => ⟨hf, hfd, hneg⟩⟩
    · split
      · split
        · split
          · exact sound_cleanup m _ h
          · exact sound_ok m _ (hk _ h)
        · exact sound_ok m _ (hk _ h)
      · exact sound_ok m _ (hk _ h)
  · exact sound_ok m _ h

theorem andThen_sound (m : Bool) (r : Run) (f : St → Run) (hr : r.sound m)
    (hf : ∀ t, t.session.kind m → (f t).sound m) : (r.andThen f).sound m := by
  unfold Run.andThen
  split
  · rename_i hok
    exact hf _ (hr.1 hok)
  · exact hr

/-- What `setDeviceNames` leaves: the flags are clear in any case; on success
the session has the requested kind and the context is the zeroed one up to the
device paths. -/
theorem setDeviceNames_spec (env : Env) (cd id : List Nat) (m : Bool) (s : St) :
    (setDeviceNames env cd id m s).st.session.flagsClear ∧
      (setDeviceNames env cd id m s).st.session.kind m ∧
      (accepted env.codecDevSize cd → (m = true → accepted env.ispDevSize id) →
        (setDeviceNames env cd id m s).ok = true) := by
  have nonEmpty : ∀ (size : Nat) (name : List Nat), accepted size name →
      copyDeviceName size name = some name := by
    intro size name ha
    obtain ⟨a1, a2⟩ := ha
    have a3 : name.isEmpty = false := by
      cases name with
      | nil => exact absurd rfl a1
      | cons _ _ => rfl
    have a4 : ¬ (name.length ≥ size) := by omega
    simp [copyDeviceName, a3, a4]
  have notEmpty : ∀ (size : Nat) (name : List Nat), accepted size name → name.isEmpty = false := by
    intro size name ha
    cases name with
    | nil => exact absurd rfl ha.1
    | cons _ _ => rfl
  refine ⟨?_, ?_, ?_⟩
  · unfold setDeviceNames
    dsimp only
    repeat' split
    all_goals exact ⟨rfl, rfl, rfl, rfl, rfl⟩
  · unfold setDeviceNames
    dsimp only
    repeat' split
    all_goals exact ⟨rfl, fun _ => ⟨rfl, rfl⟩⟩
  · intro ha hb
    unfold setDeviceNames
    dsimp only
    rw [nonEmpty _ _ ha]
    simp only [notEmpty _ _ ha, Bool.false_eq_true, if_false]
    cases m
    · simp only [Bool.false_eq_true, if_false]
      repeat' split
      all_goals rfl
    · have hb1 := hb rfl
      simp only [if_true, notEmpty _ _ hb1, Bool.false_eq_true, if_false, nonEmpty _ _ hb1]

theorem activate_kind (m : Bool) (s : St) (h : s.session.kind m) :
    (activate m s).session.kind m := by
  unfold activate
  dsimp only
  split_ifs <;> exact h

theorem configureDevices_sound (env : Env) (dc : DeviceConfig) (hctx : Ctx)
    (params : StreamParams) (cd : List Nat) (m : Bool) (scale : Nat) (sA : St)
    (hk : sA.session.kind m) (hf : sA.session.flagsClear) :
    (configureDevices env dc hctx params cd m scale sA).sound m := by
  unfold configureDevices
  refine andThen_sound m _ _ (openAndInitIsp_sound env m _ hk hf (by show ((-1 : Int) < 0); decide)) ?_
  intro sB hB
  refine andThen_sound m _ _ (openCodec_sound env dc cd m sB hB) ?_
  intro sC hC
  refine andThen_sound m _ _ (initCodec_sound env dc m sC hC) ?_
  intro sD hD
  refine andThen_sound m _ _ (startIsp_sound env dc m _ (initRateControl_kind env m sD hD)) ?_
  intro sE hE
  refine andThen_sound m _ _ (startCodec_sound env m sE hE) ?_
  intro sF hF
  exact sound_ok m _ (activate_kind m sF hF)

/-- A `configureSession` that returns true leaves a session of the requested
kind; one that returns false leaves every flag clear and, when the device paths
were accepted, no descriptor. -/
theorem configureSession_spec (env : Env) (dc : DeviceConfig) (hctx : Ctx)
    (params : StreamParams) (cd id : List Nat) (m : Bool) (scale : Nat) (s : St) :
    ((configureSession env dc hctx params cd id m scale s).ok = true →
        (configureSession env dc hctx params cd id m scale s).st.session.kind m) ∧
      ((configureSession env dc hctx params cd id m scale s).ok = false →
        (configureSession env dc hctx params cd id m scale s).st.session.flagsClear ∧
        (accepted env.codecDevSize cd → (m = true → accepted env.ispDevSize id) →
          (configureSession env dc hctx params cd id m scale s).st.session.noHandle)) := by
  obtain ⟨hf, hk, hacc⟩ := setDeviceNames_spec env cd id m s
  unfold configureSession Run.andThen
  cases hok : (setDeviceNames env cd id m s).ok
  · simp only [Bool.false_eq_true, if_false]
    refine ⟨fun h => ?_, fun _ => ⟨hf, fun ha hb => ?_⟩⟩
    · rw [hok] at h
      cases h
    · rw [hacc ha hb] at hok
      cases hok
  · simp only [if_true]
    have hs := configureDevices_sound env dc hctx params cd m scale _ hk hf
    exact ⟨hs.1, fun h => ⟨(hs.2 h).1, fun _ _ => (hs.2 h).2⟩⟩

theorem stop_low_clear (c0 : Controller)
    (hlow : c0.impl.lowSession.isM2M = false →
      c0.impl.lowSession.ispStarted = false ∧ c0.impl.lowSession.ispInitialized = false) :
    (stop c0).impl.lowSession.flagsClear ∧ (stop c0).impl.lowSession.noHandle ∧
      (stop c0).impl.running = false := by
  have hk : c0.impl.lowSession.kind c0.impl.lowSession.isM2M := ⟨rfl, hlow⟩
  have h := cleanup_clear _ ⟨c0.impl.lowSession, c0.trace⟩ hk
  exact ⟨h.1, h.2, rfl⟩

theorem configureHigh_spec (env : Env) (high : StreamParams) (devices : DeviceConfig)
    (hiScale : Nat) (s : St)
    (hm2m : accepted env.ispDevSize devices.m2mDevice)
    (hisp : accepted env.codecDevSize devices.ispDevice) :
    ((configureHigh env high devices hiScale s).ok = true →
        (configureHigh env high devices hiScale s).st.session.kind true) ∧
      ((configureHigh env high devices hiScale s).ok = false →
        (configureHigh env high devices hiScale s).st.session.flagsClear ∧
        (configureHigh env high devices hiScale s).st.session.noHandle) := by
  unfold configureHigh
  dsimp only
  split
  · rename_i h1
    exact ⟨fun _ => (configureSession_spec env devices _ high _ _ true hiScale s).1 h1,
      fun h0 => (by rw [h1] at h0; cases h0)⟩
  · have hs := configureSession_spec env devices
      (configureSession env devices s.session.ctx high devices.m2mDevice devices.ispDevice
        true hiScale s).st.session.ctx high (swappedDevices devices).m2mDevice
      (swappedDevices devices).ispDevice true hiScale
      (configureSession env devices s.session.ctx high devices.m2mDevice devices.ispDevice
        true hiScale s).st
    exact ⟨hs.1, fun h0 => ⟨(hs.2 h0).1, (hs.2 h0).2 hisp (fun _ => hm2m)⟩⟩

theorem startLow_spec (env : Env) (low : StreamParams) (implH : Impl) (trace : List Call)
    (hk : implH.highSession.kind true)
    (hacc : accepted env.codecDevSize implH.deviceConfig.m2mDevice)
    (hfail : (startLow env low implH trace).ok = false) :
    (startLow env low implH trace).ctl.impl.running = false ∧
      (startLow env low implH trace).ctl.impl.highSession.flagsClear ∧
      (startLow env low implH trace).ctl.impl.lowSession.flagsClear ∧
      (startLow env low implH trace).ctl.impl.highSession.noHandle ∧
      (startLow env low implH trace).ctl.impl.lowSession.noHandle := by
  revert hfail
  unfold startLow
  dsimp only
  split
  · intro h
    cases h
  · split
    · rename_i hrl
      intro _
      simp only [Bool.not_eq_true', Bool.not_eq_true] at hrl
      have hs := (configureSession_spec env implH.deviceConfig implH.highSession.ctx low
        implH.deviceConfig.m2mDevice implH.deviceConfig.ispDevice false (lowScaleOf low)
        ⟨implH.lowSession, trace⟩).2 hrl
      have hc := fun tr => cleanup_clear true ⟨implH.highSession, tr⟩ hk
      exact ⟨rfl, (hc _).1, hs.1, (hc _).2, hs.2 hacc (fun h => by cases h)⟩
    · intro h
      cases h

/-- With device paths that `copyDeviceName` accepts, a `start` that returns
false leaves the controller not running, every lifecycle flag of both sessions
clear and all four descriptor fields negative, whatever the device-open and
vendor calls returned.  (The hypothesis on the low session holds for a new
controller and is kept by `start` and `stop`.) -/
theorem start_failure_tears_down (env : Env) (high low : StreamParams)
    (devices : DeviceConfig) (c0 : Controller)
    (hlow : c0.impl.lowSession.isM2M = false →
      c0.impl.lowSession.ispStarted = false ∧ c0.impl.lowSession.ispInitialized = false)
    (hm2m : accepted env.codecDevSize devices.m2mDevice ∧
      accepted env.ispDevSize devices.m2mDevice)
    (hisp : accepted env.codecDevSize devices.ispDevice ∧
      accepted env.ispDevSize devices.ispDevice)
    (hfail : (start env high low devices c0).ok = false) :
    isRunning (start env high low devices c0).ctl = false ∧
      (start env high low devices c0).ctl.impl.highSession.flagsClear ∧
      (start env high low devices c0).ctl.impl.lowSession.flagsClear ∧
      (start env high low devices c0).ctl.impl.highSession.noHandle ∧
      (start env high low devices c0).ctl.impl.lowSession.noHandle := by
  obtain ⟨l1, l2, l3⟩ := stop_low_clear c0 hlow
  have hh := configureHigh_spec env high devices (hiScaleOf high low)
    ⟨(stop c0).impl.highSession, (stop c0).trace⟩ hm2m.2 hisp.1
  revert hfail
  unfold start isRunning
  dsimp only
  split
  · rename_i hr2
    intro _
    simp only [Bool.not_eq_true', Bool.not_eq_true] at hr2
    exact ⟨l3, (hh.2 hr2).1, l1, (hh.2 hr2).2, l2⟩
  · rename_i hr2
    simp only [Bool.not_eq_true', Bool.not_eq_false] at hr2
    intro hfail
    refine startLow_spec env low _ _ (hh.1 hr2) ?_ hfail
    show accepted env.codecDevSize
      (workingDevices env high devices (hiScaleOf high low)
        ⟨(stop c0).impl.highSession, (stop c0).trace⟩).m2mDevice
    unfold workingDevices
    split
    · exact hm2m.1
    · exact hisp.1

end SnxCodecController

namespace SnxCodecController

/-! ## Start failures and teardown on concrete runs -/

/-- C9 at the freshly constructed controller: `stop()` issues no vendor call,
but it calls `close(0)` four times, on the zeroed `codec_fd` and `isp_fd` of the
low and of the high session. -/
theorem stop_fresh_closes_fd_zero :
    (stop Controller.new).trace = [Call.close 0, Call.close 0, Call.close 0, Call.close 0] ∧
      Controller.new.impl.highSession.ctx.codec_fd = 0 ∧
      Controller.new.impl.highSession.ctx.isp_fd = 0 ∧
      (stop Controller.new).impl.highSession.ctx.codec_fd = -1 ∧
      (stop Controller.new).impl.lowSession.ctx.isp_fd = -1 := by
  decide

/-- C8 at a failing `snx_codec_start`: on a fresh controller, in single-stream
mode, with every other call succeeding, `snx_codec_start` (external call 11) is
issued once and returns -1; `start` nevertheless returns true with the high
session marked started and active, and nothing was torn down. -/
theorem start_succeeds_after_failed_codec_start :
    (start (envFailingAt 11) defaultHigh StreamParams.new defaultDevices Controller.new).ok
        = true ∧
      (start (envFailingAt 11) defaultHigh StreamParams.new defaultDevices
        Controller.new).ctl.trace =
        [Call.close 0, Call.close 0, Call.close 0, Call.close 0,
          Call.snx_open_device devVideo0, Call.snx_isp_init,
          Call.snx_open_device devVideo1, Call.snx_codec_init,
          Call.snx_codec_rc_init, Call.snx_rc_ext_set, Call.snx_isp_start,
          Call.snx_codec_start, Call.snx_codec_set_gop, Call.snx_codec_set_gop] ∧
      (envFailingAt 11).result 11 = -1 ∧
      (start (envFailingAt 11) defaultHigh StreamParams.new defaultDevices
        Controller.new).ctl.impl.highSession.active = true ∧
      (start (envFailingAt 11) defaultHigh StreamParams.new defaultDevices
        Controller.new).ctl.impl.highSession.codecStarted = true ∧
      isRunning (start (envFailingAt 11) defaultHigh StreamParams.new defaultDevices
        Controller.new).ctl = true := by
  decide

/-- The same with a failing `snx_isp_init` (external call 5): the failure is
logged and the session goes on to be marked initialised, started and active. -/
theorem start_succeeds_after_failed_isp_init :
    (start (envFailingAt 5) defaultHigh StreamParams.new defaultDevices Controller.new).ok
        = true ∧
      (start (envFailingAt 5) defaultHigh StreamParams.new defaultDevices
        Controller.new).ctl.trace.get? 5 = some Call.snx_isp_init ∧
      (envFailingAt 5).result 5 = -1 ∧
      (start (envFailingAt 5) defaultHigh StreamParams.new defaultDevices
        Controller.new).ctl.impl.highSession.ispInitialized = true ∧
      (start (envFailingAt 5) defaultHigh StreamParams.new defaultDevices
        Controller.new).ctl.impl.highSession.active = true := by
  decide

/-- C7 at an empty M2M device path: `start` returns false on both device
mappings before anything is opened, and leaves `codec_fd` and `isp_fd` of the
high session at 0, the value of the `memset`; the next `stop()` closes
descriptor 0 for each of them. -/
theorem start_failure_leaves_fd_zero :
    (start (envFailingAt 99) defaultHigh StreamParams.new emptyM2mDevices Controller.new).ok
        = false ∧
      (start (envFailingAt 99) defaultHigh StreamParams.new emptyM2mDevices
        Controller.new).ctl.impl.highSession.ctx.codec_fd = 0 ∧
      (start (envFailingAt 99) defaultHigh StreamParams.new emptyM2mDevices
        Controller.new).ctl.impl.highSession.ctx.isp_fd = 0 ∧
      (start (envFailingAt 99) defaultHigh StreamParams.new emptyM2mDevices
        Controller.new).ctl.trace = [Call.close 0, Call.close 0, Call.close 0, Call.close 0] ∧
      (stop (start (envFailingAt 99) defaultHigh StreamParams.new emptyM2mDevices
        Controller.new).ctl).trace =
        [Call.close 0, Call.close 0, Call.close 0, Call.close 0, Call.close 0, Call.close 0] := by
  decide

end SnxCodecController

namespace Main

/-! ## Low-stream geometry and GOP defaults of `main` -/

theorem land_mask16 (x : Nat) (hx : x < 2 ^ 32) : x &&& 0xFFFFFFF0 = x / 16 * 16 := by
  have e1 : (0xFFFFFFF0 : Nat) = 2 ^ 4 * (2 ^ 28 - 1) := by norm_num
  have e2 : x / 16 * 16 = 2 ^ 4 * (x >>> 4) := by
    rw [Nat.shiftRight_eq_div_pow]
    norm_num
    ring
  apply Nat.eq_of_testBit_eq
  intro i
  rw [Nat.testBit_and, e1, e2, Nat.testBit_mul_pow_two, Nat.testBit_mul_pow_two,
    Nat.testBit_two_pow_sub_one, Nat.testBit_shiftRight]
  by_cases h4 : i ≥ 4
  · have e3 : 4 + (i - 4) = i := by omega
    rw [e3]
    by_cases h32 : i < 32
    · have : i - 4 < 28 := by omega
      simp [h4, this]
    · have hlt : x < 2 ^ i :=
        lt_of_lt_of_le hx (Nat.pow_le_pow_right (by norm_num) (by omega))
      simp [Nat.testBit_lt_two_pow hlt]
  · simp [h4]

/-- Without wrap-around `align16b` rounds up to the next multiple of 16. -/
theorem align16b_eq (v : Nat) (hv : v + 15 < 2 ^ 32) : align16b v = (v + 15) / 16 * 16 := by
  unfold align16b
  rw [Nat.mod_eq_of_lt hv, land_mask16 _ hv]

theorem gopAutoFill_fields (o : SnxOptions) :
    (gopAutoFill o).single = o.single ∧ (gopAutoFill o).hi.width = o.hi.width ∧
      (gopAutoFill o).hi.height = o.hi.height ∧ (gopAutoFill o).hi.fps = o.hi.fps ∧
      (gopAutoFill o).lo.fps = o.lo.fps ∧ (gopAutoFill o).lo.scale = o.lo.scale := by
  unfold gopAutoFill
  dsimp only
  split_ifs <;> exact ⟨rfl, rfl, rfl, rfl, rfl, rfl⟩

theorem coupleScale_fields (o : SnxOptions) (hd : o.single = false)
    (hs : o.lo.scale = 1 ∨ o.lo.scale = 2 ∨ o.lo.scale = 4) :
    (coupleScale o).hi.scale = o.lo.scale ∧
      (coupleScale o).single = o.single ∧ (coupleScale o).hi.width = o.hi.width ∧
      (coupleScale o).hi.height = o.hi.height ∧ (coupleScale o).hi.fps = o.hi.fps ∧
      (coupleScale o).lo.fps = o.lo.fps ∧ (coupleScale o).lo.scale = o.lo.scale := by
  unfold coupleScale
  simp only [hd, Bool.not_false, if_true]
  split
  · exact ⟨rfl, rfl, rfl, rfl, rfl, rfl, rfl⟩
  · rename_i h
    have h1 : o.lo.scale = 1 := by omega
    exact ⟨h1.symm, rfl, rfl, rfl, rfl, rfl, rfl⟩

theorem recomputeLow_fields (o : SnxOptions) (hd : o.single = false) (hs : o.hi.scale ≠ 0) :
    (recomputeLow o).lo.width = align16b (o.hi.width / o.hi.scale) ∧
      (recomputeLow o).lo.height = align16b (o.hi.height / o.hi.scale) ∧
      (recomputeLow o).single = o.single ∧ (recomputeLow o).hi.width = o.hi.width ∧
      (recomputeLow o).hi.height = o.hi.height ∧ (recomputeLow o).hi.fps = o.hi.fps ∧
      (recomputeLow o).lo.fps = o.lo.fps ∧ (recomputeLow o).lo.scale = o.lo.scale := by
  unfold recomputeLow
  have hc : (!o.single) = true ∧ o.hi.scale ≠ 0 := ⟨by rw [hd]; rfl, hs⟩
  rw [if_pos hc]
  exact ⟨rfl, rfl, rfl, rfl, rfl, rfl, rfl, rfl⟩

/-- The three steps that follow `lowGeometry`, in dual-stream mode. -/
theorem finish_fields (o : SnxOptions) (hd : o.single = false)
    (hs : o.lo.scale = 1 ∨ o.lo.scale = 2 ∨ o.lo.scale = 4) :
    (recomputeLow (coupleScale (gopAutoFill o))).lo.width =
        align16b (o.hi.width / o.lo.scale) ∧
      (recomputeLow (coupleScale (gopAutoFill o))).lo.height =
        align16b (o.hi.height / o.lo.scale) ∧
      (recomputeLow (coupleScale (gopAutoFill o))).single = false ∧
      (recomputeLow (coupleScale (gopAutoFill o))).hi.width = o.hi.width ∧
      (recomputeLow (coupleScale (gopAutoFill o))).hi.height = o.hi.height ∧
      (recomputeLow (coupleScale (gopAutoFill o))).hi.fps = o.hi.fps ∧
      (recomputeLow (coupleScale (gopAutoFill o))).lo.fps = o.lo.fps ∧
      (recomputeLow (coupleScale (gopAutoFill o))).lo.scale = o.lo.scale := by
  obtain ⟨g1, g2, g3, g4, g5, g6⟩ := gopAutoFill_fields o
  obtain ⟨c0, c1, c2, c3, c4, c5, c6⟩ :=
    coupleScale_fields (gopAutoFill o) (by rw [g1, hd]) (by rw [g6]; exact hs)
  obtain ⟨r1, r2, r3, r4, r5, r6, r7, r8⟩ :=
    recomputeLow_fields (coupleScale (gopAutoFill o)) (by rw [c1, g1, hd])
      (by rw [c0, g6]; omega)
  rw [r1, r2, r3, r4, r5, r6, r7, r8, c0, c1, c2, c3, c4, c5, c6, g1, g2, g3, g4, g5, g6]
  exact ⟨rfl, rfl, hd, rfl, rfl, rfl, rfl, rfl⟩

/-- What `lowGeometry` leaves in dual-stream mode when it accepts. -/
theorem lowGeometry_dual (o o2 : SnxOptions) (hd : o.single = false)
    (hs0 : o.lo.scale ≠ 0) (hg : lowGeometry o = Validation.accepted o2) :
    o2.single = false ∧ o2.hi = o.hi ∧ o2.lo.scale = o.lo.scale ∧
      o2.lo.fps = (if o.lo.fps = 0 then o.hi.fps else o.lo.fps) ∧
      o.hi.width / o.lo.scale ≠ 0 ∧ o.hi.height / o.lo.scale ≠ 0 ∧
      o2.lo.fps ≤ o.hi.fps := by
  unfold lowGeometry at hg
  simp only [hd, Bool.false_eq_true, if_false, hs0] at hg
  by_cases hq : o.hi.width / o.lo.scale = 0 ∨ o.hi.height / o.lo.scale = 0
  · simp only [hq, if_true] at hg
    cases hg
  · simp only [hq, if_false] at hg
    by_cases hfps : (if o.lo.fps = 0 then o.hi.fps else o.lo.fps) > o.hi.fps
    · simp only [hfps, if_true] at hg
      cases hg
    · simp only [hfps, if_false, Validation.accepted.injEq] at hg
      subst hg
      exact ⟨rfl, rfl, rfl, rfl, fun h => hq (Or.inl h), fun h => hq (Or.inr h),
        Nat.le_of_not_gt hfps⟩

/-- What the validation leaves in dual-stream mode when it accepts: the low
size is `align16b` of the high size divided by `lo.scale`, the high size and
`lo.scale` are unchanged, the quotients are not zero and the low frame rate is
between 1 and the high one. -/
theorem validateSnx_dual (o o1 : SnxOptions) (he : o.enabled = true)
    (hd : o.single = false) (hs : o.lo.scale = 1 ∨ o.lo.scale = 2 ∨ o.lo.scale = 4)
    (hv : validateSnx o = Validation.accepted o1) :
    o1.lo.width = align16b (o.hi.width / o.lo.scale) ∧
      o1.lo.height = align16b (o.hi.height / o.lo.scale) ∧
      o1.hi.width = o.hi.width ∧ o1.hi.height = o.hi.height ∧ o1.hi.fps = o.hi.fps ∧
      o1.lo.scale = o.lo.scale ∧ o1.single = false ∧
      o.hi.width / o.lo.scale ≠ 0 ∧ o.hi.height / o.lo.scale ≠ 0 ∧
      o1.lo.fps ≠ 0 ∧ o1.lo.fps ≤ o1.hi.fps := by
  have hs0 : o.lo.scale ≠ 0 := by omega
  have hscale : ¬ (o.lo.scale ≠ 1 ∧ o.lo.scale ≠ 2 ∧ o.lo.scale ≠ 4) := by omega
  unfold validateSnx at hv
  simp only [he, hd, Bool.not_true, Bool.not_false, Bool.false_eq_true, if_false, true_and,
    hscale] at hv
  by_cases hnz : o.hi.width = 0 ∨ o.hi.height = 0 ∨ o.hi.fps = 0
  · simp only [hnz, if_true] at hv
    cases hv
  · simp only [hnz, if_false] at hv
    cases hg : lowGeometry o with
    | rejected => rw [hg] at hv; cases hv
    | divisionByZero => rw [hg] at hv; cases hv
    | accepted o2 =>
        rw [hg] at hv
        simp only [Validation.accepted.injEq] at hv
        subst hv
        obtain ⟨l1, l2, l3, l4, l5, l6, l7⟩ := lowGeometry_dual o o2 hd hs0 hg
        obtain ⟨f1, f2, f3, f4, f5, f6, f7, f8⟩ := finish_fields o2 l1 (by rw [l3]; exact hs)
        rw [f1, f2, f3, f4, f5, f6, f7, f8, l2, l3]
        refine ⟨rfl, rfl, rfl, rfl, rfl, rfl, rfl, l5, l6, ?_, l7⟩
        rw [l4]
        split <;> omega

end Main

namespace Main

theorem lowGeometry_accepts (o : SnxOptions) (hd : o.single = false) (hs0 : o.lo.scale ≠ 0)
    (hq : ¬ (o.hi.width / o.lo.scale = 0 ∨ o.hi.height / o.lo.scale = 0))
    (hfps : ¬ ((if o.lo.fps = 0 then o.hi.fps else o.lo.fps) > o.hi.fps)) :
    ∃ o2, lowGeometry o = Validation.accepted o2 := by
  unfold lowGeometry
  simp only [hd, Bool.false_eq_true, if_false, hs0, hq, hfps]
  exact ⟨_, rfl⟩

/-- In dual-stream mode the validation accepts when the high size and frame
rate are not zero, the scale is 1, 2 or 4, the scaled size is not zero and the
low frame rate does not exceed the high one. -/
theorem validateSnx_accepts (o : SnxOptions) (he : o.enabled = true) (hd : o.single = false)
    (hs : o.lo.scale = 1 ∨ o.lo.scale = 2 ∨ o.lo.scale = 4)
    (hnz : o.hi.width ≠ 0 ∧ o.hi.height ≠ 0 ∧ o.hi.fps ≠ 0)
    (hq : o.hi.width / o.lo.scale ≠ 0 ∧ o.hi.height / o.lo.scale ≠ 0)
    (hfps : o.lo.fps ≤ o.hi.fps) :
    ∃ o1, validateSnx o = Validation.accepted o1 := by
  have hs0 : o.lo.scale ≠ 0 := by omega
  have hscale : ¬ (o.lo.scale ≠ 1 ∧ o.lo.scale ≠ 2 ∧ o.lo.scale ≠ 4) := by omega
  have hnz2 : ¬ (o.hi.width = 0 ∨ o.hi.height = 0 ∨ o.hi.fps = 0) := by omega
  have hf : ¬ ((if o.lo.fps = 0 then o.hi.fps else o.lo.fps) > o.hi.fps) := by
    split <;> omega
  obtain ⟨o2, h2⟩ := lowGeometry_accepts o hd hs0 (by omega) hf
  unfold validateSnx
  simp only [he, hd, Bool.not_true, Bool.not_false, Bool.false_eq_true, if_false, true_and,
    hscale, hnz2, h2]
  exact ⟨_, rfl⟩

/-- C12, as the code has it: in dual-stream mode, for a high stream of
1920x1080 and low scale 2 (any non-zero high frame rate, any low frame rate
not above it), the validation accepts and derives the low size 960x544: 1080 / 2
= 540 is not a multiple of 16 and is aligned up to 544. -/
theorem lowSize_1920x1080_scale2 (o : SnxOptions) (he : o.enabled = true)
    (hd : o.single = false) (hw : o.hi.width = 1920) (hh : o.hi.height = 1080)
    (hs : o.lo.scale = 2) (hf : o.hi.fps ≠ 0) (hlf : o.lo.fps ≤ o.hi.fps) :
    lowSize (validateSnx o) = some (960, 544) := by
  obtain ⟨o1, h1⟩ := validateSnx_accepts o he hd (Or.inr (Or.inl hs))
    ⟨by omega, by omega, hf⟩ (by rw [hw, hh, hs]; decide) hlf
  obtain ⟨v1, v2, _⟩ := validateSnx_dual o o1 he hd (Or.inr (Or.inl hs)) h1
  rw [h1]
  show some (o1.lo.width, o1.lo.height) = some (960, 544)
  rw [v1, v2, hw, hh, hs]
  decide

/-- The default options of `main` with `--snx-hi 1920x1080@10`. -/
theorem lowSize_1920x1080_scale2_witness :
    (optionsWith 1920 1080 10 2).hi.width = 1920 ∧
      lowSize (validateSnx (optionsWith 1920 1080 10 2)) = some (960, 544) :=
  ⟨rfl, lowSize_1920x1080_scale2 (optionsWith 1920 1080 10 2) rfl rfl rfl rfl rfl
    (by decide) (by decide)⟩

/-- C12 fails as stated: for 1920x1080 and scale 2 the derived low size is
960x544, not 960x540. -/
theorem lowSize_1920x1080_scale2_not_540 :
    lowSize (validateSnx (optionsWith 1920 1080 10 2)) = some (960, 544) ∧
      lowSize (validateSnx (optionsWith 1920 1080 10 2)) ≠ some (960, 540) := by
  decide

/-- C13, as the code has it: in dual-stream mode, for 32-bit high width and
height and a low scale of 1, 2 or 4 that pass validation, the derived low width
(height) is the high width (height) divided by the scale and rounded up to a
multiple of 16, provided that with scale 1 the high width and height are at most
`2 ^ 32 - 16` (beyond that `v + 15` wraps around). -/
theorem lowSize_rounded_up (o o1 : SnxOptions) (he : o.enabled = true)
    (hd : o.single = false) (hs : o.lo.scale = 1 ∨ o.lo.scale = 2 ∨ o.lo.scale = 4)
    (hw : o.hi.width < 2 ^ 32) (hh : o.hi.height < 2 ^ 32)
    (h1 : o.lo.scale = 1 → o.hi.width ≤ 2 ^ 32 - 16 ∧ o.hi.height ≤ 2 ^ 32 - 16)
    (hv : validateSnx o = Validation.accepted o1) :
    (o1.lo.width % 16 = 0 ∧ o1.hi.width / o1.lo.scale ≤ o1.lo.width ∧
        o1.lo.width < o1.hi.width / o1.lo.scale + 16) ∧
      (o1.lo.height % 16 = 0 ∧ o1.hi.height / o1.lo.scale ≤ o1.lo.height ∧
        o1.lo.height < o1.hi.height / o1.lo.scale + 16) := by
  obtain ⟨v1, v2, v3, v4, _, v6, _⟩ := validateSnx_dual o o1 he hd hs hv
  have bw : o.hi.width / o.lo.scale + 15 < 2 ^ 32 := by
    rcases hs with h | h | h
    · have := (h1 h).1
      rw [h, Nat.div_one]
      omega
    · rw [h]; omega
    · rw [h]; omega
  have bh : o.hi.height / o.lo.scale + 15 < 2 ^ 32 := by
    rcases hs with h | h | h
    · have := (h1 h).2
      rw [h, Nat.div_one]
      omega
    · rw [h]; omega
    · rw [h]; omega
  rw [v1, v2, v3, v4, v6, align16b_eq _ bw, align16b_eq _ bh]
  refine ⟨⟨by omega, by omega, by omega⟩, by omega, by omega, by omega⟩

/-- The sizes 1280x720 with scale 2: the low size is 640x368. -/
theorem lowSize_rounded_up_witness :
    validateSnx (optionsWith 1280 720 10 2) =
        Validation.accepted
          { enabled := true, hi := ⟨1280, 720, 10, 1024 * 1024, 20, 2⟩,
            lo := ⟨640, 368, 5, 512 * 1024, 5, 2⟩, single := false } ∧
      ((640 % 16 = 0 ∧ 1280 / 2 ≤ 640 ∧ 640 < 1280 / 2 + 16) ∧
        (368 % 16 = 0 ∧ 720 / 2 ≤ 368 ∧ 368 < 720 / 2 + 16)) :=
  ⟨by decide,
    lowSize_rounded_up (optionsWith 1280 720 10 2)
      { enabled := true, hi := ⟨1280, 720, 10, 1024 * 1024, 20, 2⟩,
        lo := ⟨640, 368, 5, 512 * 1024, 5, 2⟩, single := false }
      rfl rfl (by decide) (by decide) (by decide) (by decide) (by decide)⟩

/-- C13 fails as stated: the 32-bit high width 4294967295 with scale 1 passes
validation, and the derived low width is 0 (`4294967295 + 15` wraps to 14),
which is below the quotient 4294967295. -/
theorem lowSize_wraps_to_zero :
    lowSize (validateSnx (optionsWith 4294967295 1080 10 1)) = some (0, 1088) ∧
      (4294967295 : Nat) < 2 ^ 32 ∧ ¬ (4294967295 / 1 ≤ 0) := by
  decide

end Main

namespace Main

theorem lowGeometry_no_division (o : SnxOptions) (h : o.single = true ∨ o.lo.scale ≠ 0) :
    lowGeometry o ≠ Validation.divisionByZero := by
  unfold lowGeometry
  cases hsingle : o.single
  · have hs0 : o.lo.scale ≠ 0 := by
      rcases h with h | h
      · rw [hsingle] at h
        cases h
      · exact h
    simp only [Bool.false_eq_true, if_false, hs0]
    split_ifs <;> (intro hc; cases hc)
  · simp only [if_true]
    intro hc
    cases hc

theorem validateSnx_no_division (o : SnxOptions) :
    validateSnx o ≠ Validation.divisionByZero := by
  unfold validateSnx
  split
  · intro hc
    cases hc
  · split
    · intro hc
      cases hc
    · split
      · intro hc
        cases hc
      · rename_i hscale
        have hg : lowGeometry o ≠ Validation.divisionByZero := by
          apply lowGeometry_no_division
          cases hsingle : o.single
          · right
            intro h0
            apply hscale
            rw [hsingle, h0]
            decide
          · left
            rfl
        split
        · intro hc
          cases hc
        · rename_i other hne
          exact hg

/-- C15: in dual-stream mode a low scale outside {1, 2, 4} (3, 0, ...) makes
the validation return 1; no options reach a division by a zero scale. -/
theorem validateSnx_rejects_scale (o : SnxOptions) (he : o.enabled = true)
    (hd : o.single = false) (h1 : o.lo.scale ≠ 1) (h2 : o.lo.scale ≠ 2)
    (h4 : o.lo.scale ≠ 4) :
    validateSnx o = Validation.rejected ∧
      ∀ o2 : SnxOptions, validateSnx o2 ≠ Validation.divisionByZero := by
  refine ⟨?_, validateSnx_no_division⟩
  unfold validateSnx
  simp only [he, hd, Bool.not_true, Bool.not_false, Bool.false_eq_true, if_false, true_and]
  split
  · rfl
  · have hscale : o.lo.scale ≠ 1 ∧ o.lo.scale ≠ 2 ∧ o.lo.scale ≠ 4 := ⟨h1, h2, h4⟩
    rw [if_pos hscale]

/-- The scales 3 and 0 with the default 1920x1080 high stream. -/
theorem validateSnx_rejects_scale_witness :
    validateSnx (optionsWith 1920 1080 10 3) = Validation.rejected ∧
      validateSnx (optionsWith 1920 1080 10 0) = Validation.rejected :=
  ⟨(validateSnx_rejects_scale (optionsWith 1920 1080 10 3) rfl rfl (by decide) (by decide)
      (by decide)).1,
    (validateSnx_rejects_scale (optionsWith 1920 1080 10 0) rfl rfl (by decide) (by decide)
      (by decide)).1⟩

/-- C16, as the code has it: the GOP auto-fill leaves a non-zero GOP unchanged;
an unset primary GOP becomes `hi.fps * 2` in 32-bit unsigned arithmetic when
`hi.fps > 0`, which is `2 * hi.fps` for `hi.fps < 2 ^ 31`; an unset derived-stream
GOP becomes `lo.fps` when `lo.fps > 0`. -/
theorem gopAutoFill_spec (o : SnxOptions) (hfps : o.hi.fps < 2 ^ 31) :
    (o.hi.gop = 0 → o.hi.fps > 0 → (gopAutoFill o).hi.gop = 2 * o.hi.fps) ∧
      (o.lo.gop = 0 → o.lo.fps > 0 → (gopAutoFill o).lo.gop = o.lo.fps) ∧
      (o.hi.gop ≠ 0 → (gopAutoFill o).hi.gop = o.hi.gop) ∧
      (o.lo.gop ≠ 0 → (gopAutoFill o).lo.gop = o.lo.gop) := by
  refine ⟨?_, ?_, ?_, ?_⟩
  · intro h0 hpos
    have hc : o.hi.gop = 0 ∧ o.hi.fps > 0 := ⟨h0, hpos⟩
    have hm : o.hi.fps * 2 % 2 ^ 32 = 2 * o.hi.fps := by
      rw [Nat.mod_eq_of_lt (by omega)]
      omega
    simp only [gopAutoFill, hc, and_self, if_true, hm]
  · intro h0 hpos
    have hc : o.lo.gop = 0 ∧ o.lo.fps > 0 := ⟨h0, hpos⟩
    simp only [gopAutoFill, hc, and_self, if_true]
  · intro hne
    have hc : ¬ (o.hi.gop = 0 ∧ o.hi.fps > 0) := fun h => hne h.1
    simp only [gopAutoFill, hc, if_false]
  · intro hne
    have hc : ¬ (o.lo.gop = 0 ∧ o.lo.fps > 0) := fun h => hne h.1
    simp only [gopAutoFill, hc, if_false]

/-- The examples `hi.fps = 10` and `lo.fps = 5` with both GOPs unset. -/
theorem gopAutoFill_spec_witness :
    (gopAutoFill ⟨true, ⟨1920, 1080, 10, 0, 0, 1⟩, ⟨960, 544, 5, 0, 0, 2⟩, false⟩).hi.gop
        = 2 * 10 ∧
      (gopAutoFill ⟨true, ⟨1920, 1080, 10, 0, 0, 1⟩, ⟨960, 544, 5, 0, 0, 2⟩, false⟩).lo.gop
        = 5 :=
  ⟨(gopAutoFill_spec ⟨true, ⟨1920, 1080, 10, 0, 0, 1⟩, ⟨960, 544, 5, 0, 0, 2⟩, false⟩
      (by decide)).1 rfl (by decide),
    (gopAutoFill_spec ⟨true, ⟨1920, 1080, 10, 0, 0, 1⟩, ⟨960, 544, 5, 0, 0, 2⟩, false⟩
      (by decide)).2.1 rfl (by decide)⟩

/-- C16 fails as stated: with `hi.fps = 2 ^ 31` and the primary GOP unset,
`hi.fps * 2` wraps around and the GOP stays 0 instead of becoming `2 * hi.fps`;
the validation accepts these options and leaves the GOP at 0. -/
theorem gopAutoFill_wraps :
    (gopAutoFill ⟨true, ⟨1920, 1080, 2147483648, 0, 0, 1⟩, ⟨960, 544, 5, 0, 5, 2⟩,
        false⟩).hi.gop = 0 ∧
      (0 : Nat) ≠ 2 * 2147483648 ∧
      validateSnx ⟨true, ⟨1920, 1080, 2147483648, 0, 0, 1⟩, ⟨0, 0, 5, 0, 5, 2⟩, false⟩ =
        Validation.accepted
          ⟨true, ⟨1920, 1080, 2147483648, 0, 0, 2⟩, ⟨960, 544, 5, 0, 5, 2⟩, false⟩ := by
  decide

end Main

namespace SnxCodecController

/-! ## Frame budget and frame rates -/

theorem toSizeT_small (bits x : Nat) (hb : 32 ≤ bits) (hx : x < 2 ^ 32) :
    toSizeT bits x = x := by
  have hp : 2 ^ 32 ≤ 2 ^ bits := Nat.pow_le_pow_right (by norm_num) hb
  exact Nat.mod_eq_of_lt (lt_of_lt_of_le hx hp)

/-- C18: for a `size_t` of at least 32 bits and a 32-bit bitrate,
`getMaxFrameSize` returns `max(524288, 2 * (bitrate / 8 / fps))` when `fps` and
`bitrate` are not zero (no conversion or product wraps around), 524288 when one
of them is zero, and never less than 524288. -/
theorem getMaxFrameSize_spec (sizeBits : Nat) (c : Controller) (stream : StreamKind)
    (hb : 32 ≤ sizeBits) (hr : (paramsOf c stream).bitrate < 2 ^ 32) :
    ((paramsOf c stream).fps ≠ 0 → (paramsOf c stream).bitrate ≠ 0 →
        getMaxFrameSize sizeBits c stream =
          max 524288 (2 * ((paramsOf c stream).bitrate / 8 / (paramsOf c stream).fps))) ∧
      (((paramsOf c stream).fps = 0 ∨ (paramsOf c stream).bitrate = 0) →
        getMaxFrameSize sizeBits c stream = 524288) ∧
      524288 ≤ getMaxFrameSize sizeBits c stream := by
  have hk : toSizeT sizeBits kDefaultFrameSizeBytes = 524288 :=
    toSizeT_small sizeBits _ hb (by decide)
  have hget : getMaxFrameSize sizeBits c stream =
      estimateFrameBudget sizeBits (paramsOf c stream) := by
    cases stream <;> rfl
  rw [hget]
  generalize paramsOf c stream = params at hr ⊢
  have hq : params.bitrate / 8 / max 1 params.fps < 2 ^ 29 := by
    have h1 : params.bitrate / 8 / max 1 params.fps ≤ params.bitrate / 8 := Nat.div_le_self _ _
    omega
  have e1 : toSizeT sizeBits (params.bitrate / 8 / max 1 params.fps) =
      params.bitrate / 8 / max 1 params.fps := toSizeT_small sizeBits _ hb (by omega)
  have e2 : toSizeT sizeBits (params.bitrate / 8 / max 1 params.fps * 2) =
      params.bitrate / 8 / max 1 params.fps * 2 := toSizeT_small sizeBits _ hb (by omega)
  refine ⟨?_, ?_, ?_⟩
  · intro hf hbr
    have hc : ¬ (params.fps = 0 ∨ params.bitrate = 0) := by omega
    have hm : max 1 params.fps = params.fps := by omega
    unfold estimateFrameBudget
    simp only [hc, if_false, e1, e2, hk]
    rw [hm, Nat.mul_comm]
  · intro hz
    unfold estimateFrameBudget
    simp only [hz, if_true, hk]
  · unfold estimateFrameBudget
    split
    · rw [hk]
    · simp only [e1, e2, hk]
      exact Nat.le_max_left _ _

/-- A high stream of 80 Mbit/s at 10 fps: the budget is 2 000 000 bytes. -/
theorem getMaxFrameSize_spec_witness :
    getMaxFrameSize 32
        { Controller.new with impl := { Controller.new.impl with
            highParams := ⟨1920, 1080, 10, 80000000, 20, 1⟩ } } StreamKind.High
      = max 524288 (2 * (80000000 / 8 / 10)) :=
  (getMaxFrameSize_spec 32
    { Controller.new with impl := { Controller.new.impl with
        highParams := ⟨1920, 1080, 10, 80000000, 20, 1⟩ } } StreamKind.High
    (by decide) (by decide)).1 (by decide) (by decide)

theorem toInt_small (n : Nat) (h : n < 2 ^ 31) : toInt n = (n : Int) := by
  have h1 : n % 2 ^ 32 = n := Nat.mod_eq_of_lt (by omega)
  unfold toInt
  rw [h1, if_pos h]

end SnxCodecController

namespace SnxCodecController

end SnxCodecController

namespace V4L2DeviceSource

/-! ## Size and truncation of a delivered frame -/

theorem afterGettingIfFrame_output (s : SourceState) :
    (afterGettingIfFrame s).fFrameSize = s.fFrameSize ∧
      (afterGettingIfFrame s).fTo = s.fTo ∧
      (afterGettingIfFrame s).fNumTruncatedBytes = s.fNumTruncatedBytes := by
  unfold afterGettingIfFrame
  split <;> exact ⟨rfl, rfl, rfl⟩

/-- C20: when `deliverFrame` pops a frame of size `s` with maximum output size
`m`, the delivered length is `min s m`, the first `min s m` bytes of the output
buffer are the first `min s m` bytes of the frame, and for `s > m` the truncated
byte count is `s - m`, so that length plus truncated count is `s`. -/
theorem deliverFrame_truncates (env : DeliverEnv) (s : SourceState) (frame : Frame)
    (rest : List Frame) (ha : env.isCurrentlyAwaitingData = true)
    (hq : s.m_captureQueue = frame :: rest) :
    (deliverFrame env s).fFrameSize = min frame.m_size env.fMaxSize ∧
      (deliverFrame env s).fTo.take (min frame.m_size env.fMaxSize) =
        frame.m_buffer.take (min frame.m_size env.fMaxSize) ∧
      (frame.m_size > env.fMaxSize →
        (deliverFrame env s).fNumTruncatedBytes = frame.m_size - env.fMaxSize ∧
        (deliverFrame env s).fFrameSize + (deliverFrame env s).fNumTruncatedBytes =
          frame.m_size) := by
  obtain ⟨a1, a2, a3⟩ := afterGettingIfFrame_output
    (deliverLocked env { s with fDurationInMicroseconds := 0, fFrameSize := 0 })
  have e1 : (deliverFrame env s).fFrameSize =
      if frame.m_size > env.fMaxSize then env.fMaxSize else frame.m_size := by
    simp only [deliverFrame, ha, if_true]
    rw [a1]
    simp only [deliverLocked, hq, decide_eq_true_eq]
  have e2 : (deliverFrame env s).fTo = memcpy s.fTo frame.m_buffer
      (if frame.m_size > env.fMaxSize then env.fMaxSize else frame.m_size) := by
    simp only [deliverFrame, ha, if_true]
    rw [a2]
    simp only [deliverLocked, hq, decide_eq_true_eq]
  have e3 : (deliverFrame env s).fNumTruncatedBytes =
      if frame.m_size > env.fMaxSize then frame.m_size - env.fMaxSize
      else s.fNumTruncatedBytes := by
    simp only [deliverFrame, ha, if_true]
    rw [a3]
    simp only [deliverLocked, hq, decide_eq_true_eq]
  have htake : ∀ n, n ≤ frame.m_buffer.length →
      (memcpy s.fTo frame.m_buffer n).take n = frame.m_buffer.take n := by
    intro n hn
    unfold memcpy
    rw [List.take_append_of_le_length (by rw [List.length_take]; omega)]
    rw [List.take_take, Nat.min_self]
  rw [e1, e2, e3]
  by_cases ht : frame.m_size > env.fMaxSize
  · have hmin : min frame.m_size env.fMaxSize = env.fMaxSize := by omega
    rw [if_pos ht, if_pos ht, hmin]
    refine ⟨rfl, htake _ (by unfold Frame.m_size at ht; omega), fun _ => ⟨rfl, ?_⟩⟩
    omega
  · have hmin : min frame.m_size env.fMaxSize = frame.m_size := by omega
    rw [if_neg ht, if_neg ht, hmin]
    exact ⟨rfl, htake _ (Nat.le_refl _), fun h => absurd h ht⟩

/-- A five-byte frame delivered into a four-byte output buffer. -/
theorem deliverFrame_truncates_witness :
    (deliverFrame ⟨true, 4, ⟨5000, 999999⟩, ⟨5000, 999999⟩, 32⟩
        (SourceState.init exampleQueue)).fFrameSize = min 5 4 ∧
      (deliverFrame ⟨true, 4, ⟨5000, 999999⟩, ⟨5000, 999999⟩, 32⟩
        (SourceState.init exampleQueue)).fNumTruncatedBytes = 5 - 4 :=
  ⟨(deliverFrame_truncates ⟨true, 4, ⟨5000, 999999⟩, ⟨5000, 999999⟩, 32⟩
      (SourceState.init exampleQueue) ⟨[0, 0, 0, 1, 0x65], ⟨100, 900000⟩⟩
      [⟨[0, 0, 0, 1, 0x41], ⟨101, 100000⟩⟩] rfl rfl).1,
    ((deliverFrame_truncates ⟨true, 4, ⟨5000, 999999⟩, ⟨5000, 999999⟩, 32⟩
      (SourceState.init exampleQueue) ⟨[0, 0, 0, 1, 0x65], ⟨100, 900000⟩⟩
      [⟨[0, 0, 0, 1, 0x41], ⟨101, 100000⟩⟩] rfl rfl).2.2 (by decide)).1⟩

end V4L2DeviceSource

namespace SnxCodecController

/-! ## Order of the teardown -/

/-- C11, as the code has it: on a fully started primary session (all four
flags set, both descriptors held) `cleanupSessionLocked` issues
`snx_codec_stop`, `snx_codec_uninit`, `snx_isp_stop`, `snx_isp_uninit`,
`close(codec_fd)`, `close(isp_fd)`, in this order and nothing else. -/
theorem cleanupSessionLocked_order (s : St) (hm : s.session.isM2M = true)
    (h1 : s.session.codecStarted = true) (h2 : s.session.codecInitialized = true)
    (h3 : s.session.ispStarted = true) (h4 : s.session.ispInitialized = true)
    (h5 : 0 ≤ s.session.ctx.codec_fd) (h6 : 0 ≤ s.session.ctx.isp_fd) :
    (cleanupSessionLocked s).trace =
      s.trace ++ [Call.snx_codec_stop, Call.snx_codec_uninit, Call.snx_isp_stop,
        Call.snx_isp_uninit, Call.close s.session.ctx.codec_fd,
        Call.close s.session.ctx.isp_fd] := by
  obtain ⟨⟨ctx, rc, isM2M, active, ci, cs, ii, is1⟩, tr⟩ := s
  dsimp only at hm h1 h2 h3 h4 h5 h6
  subst hm h1 h2 h3 h4
  have g5 : ctx.codec_fd ≥ 0 := h5
  have g6 : ctx.isp_fd ≥ 0 := h6
  simp [cleanupSessionLocked, stopCodec, uninitCodec, stopIsp, uninitIsp, closeCodecFd,
    closeIspFd, resetCapture, St.log, St.setCtx, g5, g6]

/-- The teardown of the session `fullyStarted`. -/
theorem cleanupSessionLocked_order_witness :
    fullyStarted.st.session.isM2M = true ∧
      (cleanupSessionLocked ⟨fullyStarted.st.session, []⟩).trace =
        [] ++ [Call.snx_codec_stop, Call.snx_codec_uninit, Call.snx_isp_stop,
          Call.snx_isp_uninit, Call.close 6, Call.close 5] :=
  ⟨by decide,
    cleanupSessionLocked_order ⟨fullyStarted.st.session, []⟩ (by decide) (by decide)
      (by decide) (by decide) (by decide) (by decide) (by decide)⟩

/-- C11 fails as stated: `configureSession` starts the primary session in the
order open ISP, ISP init, open codec, codec init, ISP start, codec start; the
exact reverse would be codec stop, ISP stop, codec uninit, close codec, ISP
uninit, close ISP, but the teardown uninitialises the codec before it stops the
ISP and closes the codec descriptor after the ISP uninit. -/
theorem teardown_is_not_exact_reverse :
    fullyStarted.ok = true ∧
      startSteps fullyStarted.st.session.ctx fullyStarted.st.trace =
        [Call.snx_open_device devVideo0, Call.snx_isp_init, Call.snx_open_device devVideo1,
          Call.snx_codec_init, Call.snx_isp_start, Call.snx_codec_start] ∧
      exactReverse fullyStarted.st.session.ctx fullyStarted.st.trace =
        [Call.snx_codec_stop, Call.snx_isp_stop, Call.snx_codec_uninit, Call.close 6,
          Call.snx_isp_uninit, Call.close 5] ∧
      (cleanupSessionLocked ⟨fullyStarted.st.session, []⟩).trace =
        [Call.snx_codec_stop, Call.snx_codec_uninit, Call.snx_isp_stop,
          Call.snx_isp_uninit, Call.close 6, Call.close 5] ∧
      (cleanupSessionLocked ⟨fullyStarted.st.session, []⟩).trace ≠
        exactReverse fullyStarted.st.session.ctx fullyStarted.st.trace := by
  decide

end SnxCodecController

namespace SnxCodecController

/-! ## The scale configured on the derived session -/

theorem hasScale_ok (k : Nat) (s : St) (h : s.session.ctx.scale = k) :
    Run.hasScale k ⟨true, s⟩ := fun _ => h

theorem hasScale_fail (k : Nat) (s : St) : Run.hasScale k ⟨false, s⟩ :=
  fun h0 => by cases h0

theorem andThen_hasScale (k : Nat) (r : Run) (f : St → Run) (hr : r.hasScale k)
    (hf : ∀ t, t.session.ctx.scale = k → (f t).hasScale k) : (r.andThen f).hasScale k := by
  unfold Run.andThen
  split
  · rename_i hok
    exact hf _ (hr hok)
  · exact hr

theorem openAndInitIsp_hasScale (env : Env) (m : Bool) (k : Nat) (s : St)
    (h : s.session.ctx.scale = k) : (openAndInitIsp env m s).hasScale k := by
  unfold openAndInitIsp
  dsimp only
  repeat' split
  all_goals first | exact hasScale_ok k _ h | exact hasScale_fail k _

theorem openCodec_hasScale (env : Env) (dc : DeviceConfig) (cd : List Nat) (m : Bool)
    (k : Nat) (s : St) (h : s.session.ctx.scale = k) :
    (openCodec env dc cd m s).hasScale k := by
  unfold openCodec
  dsimp only
  repeat' split
  all_goals first | exact hasScale_ok k _ h | exact hasScale_fail k _

theorem orElse_hasScale (k : Nat) (l : Ladder) (f : St → Ladder) (hl : l.hasScale k)
    (hf : ∀ t, t.session.ctx.scale = k → (f t).hasScale k) : (l.orElse f).hasScale k := by
  cases l with
  | done t => exact hl
  | failed t => exact hl
  | next t => exact hf t hl

theorem capFallbacks_hasScale (env : Env) (m : Bool) (k : Nat) (s : St)
    (h : s.session.ctx.scale = k) : (capFallbacks env m s).hasScale k := by
  unfold capFallbacks
  dsimp only
  split_ifs <;> exact h

theorem m2mFallback_hasScale (env : Env) (m : Bool) (k : Nat) (s : St)
    (h : s.session.ctx.scale = k) : (m2mFallback env m s).hasScale k := by
  unfold m2mFallback
  dsimp only
  split_ifs <;> exact h

theorem capNodeFallback_hasScale (env : Env) (dc : DeviceConfig) (m : Bool) (k : Nat)
    (s : St) (h : s.session.ctx.scale = k) : (capNodeFallback env dc m s).hasScale k := by
  have hc : (closeCodecFd s).session.ctx.scale = k := by
    rw [closeCodecFd_session]
    exact h
  unfold capNodeFallback
  dsimp only
  repeat' split
  all_goals first | exact h | exact hc | exact trivial

theorem initCodec_hasScale (env : Env) (dc : DeviceConfig) (m : Bool) (k : Nat) (s : St)
    (h : s.session.ctx.scale = k) : (initCodec env dc m s).hasScale k := by
  have hl : (if s.next env ≠ 0 then
        ((capFallbacks env m (s.log Call.snx_codec_init)).orElse (m2mFallback env m)).orElse
          (capNodeFallback env dc m)
      else Ladder.done (s.log Call.snx_codec_init)).hasScale k := by
    split
    · exact orElse_hasScale k _ _
        (orElse_hasScale k _ _ (capFallbacks_hasScale env m k _ h) (m2mFallback_hasScale env m k))
        (capNodeFallback_hasScale env dc m k)
    · exact h
  unfold initCodec
  dsimp only
  split
  · rename_i t heq
    rw [heq] at hl
    exact hasScale_ok k _ hl
  · exact hasScale_fail k _
  · exact hasScale_fail k _

theorem initRateControl_scale (env : Env) (k : Nat) (s : St) (h : s.session.ctx.scale = k) :
    (initRateControl env s).session.ctx.scale = k := by
  unfold initRateControl
  dsimp only
  split
  · exact h
  · exact h

theorem startIsp_hasScale (env : Env) (dc : DeviceConfig) (m : Bool) (k : Nat) (s : St)
    (h : s.session.ctx.scale = k) : (startIsp env dc m s).hasScale k := by
  unfold startIsp
  dsimp only
  repeat' split
  all_goals first | exact hasScale_ok k _ h | exact hasScale_fail k _

theorem startCodec_hasScale (env : Env) (k : Nat) (s : St) (h : s.session.ctx.scale = k) :
    (startCodec env s).hasScale k := by
  unfold startCodec
  dsimp only
  repeat' split
  all_goals first | exact hasScale_ok k _ h | exact hasScale_fail k _

theorem activate_scale (m : Bool) (k : Nat) (s : St) (h : s.session.ctx.scale = k) :
    (activate m s).session.ctx.scale = k := by
  unfold activate
  dsimp only
  split_ifs <;> exact h

/-- A `configureSession` that returns true leaves the scale it was given in the
vendor context. -/
theorem configureSession_scale (env : Env) (dc : DeviceConfig) (hctx : Ctx)
    (params : StreamParams) (cd id : List Nat) (m : Bool) (scale : Nat) (s : St)
    (hok : (configureSession env dc hctx params cd id m scale s).ok = true) :
    (configureSession env dc hctx params cd id m scale s).st.session.ctx.scale = scale := by
  have hd : ∀ sA : St, (configureDevices env dc hctx params cd m scale sA).hasScale scale := by
    intro sA
    unfold configureDevices
    refine andThen_hasScale scale _ _ (openAndInitIsp_hasScale env m scale _ rfl) ?_
    intro sB hB
    refine andThen_hasScale scale _ _ (openCodec_hasScale env dc cd m scale sB hB) ?_
    intro sC hC
    refine andThen_hasScale scale _ _ (initCodec_hasScale env dc m scale sC hC) ?_
    intro sD hD
    refine andThen_hasScale scale _ _
      (startIsp_hasScale env dc m scale _ (initRateControl_scale env scale sD hD)) ?_
    intro sE hE
    refine andThen_hasScale scale _ _ (startCodec_hasScale env scale sE hE) ?_
    intro sF hF
    exact hasScale_ok scale _ (activate_scale m scale sF hF)
  revert hok
  unfold configureSession Run.andThen
  split
  · exact hd _
  · rename_i hno
    intro hok
    exact absurd hok hno

theorem startLow_scale (env : Env) (low : StreamParams) (implH : Impl) (trace : List Call)
    (hdual : ¬ (low.width = 0 ∨ low.height = 0 ∨ low.fps = 0))
    (hok : (startLow env low implH trace).ok = true) :
    (startLow env low implH trace).ctl.impl.lowSession.ctx.scale = lowScaleOf low := by
  revert hok
  unfold startLow
  rw [if_neg hdual]
  dsimp only
  split
  · intro h
    cases h
  · rename_i hrl
    simp only [Bool.not_eq_true', Bool.not_eq_false] at hrl
    intro _
    exact configureSession_scale env _ _ low _ _ false (lowScaleOf low) _ hrl

/-- In dual-stream mode a `start` that returns true has configured the derived
session with the scale `lowScaleOf low`. -/
theorem start_low_scale (env : Env) (high low : StreamParams) (devices : DeviceConfig)
    (c0 : Controller) (hdual : ¬ (low.width = 0 ∨ low.height = 0 ∨ low.fps = 0))
    (hok : (start env high low devices c0).ok = true) :
    (start env high low devices c0).ctl.impl.lowSession.ctx.scale = lowScaleOf low := by
  revert hok
  unfold start
  dsimp only
  split
  · intro h
    cases h
  · intro hok
    exact startLow_scale env low _ _ hdual hok

end SnxCodecController

namespace SnxCodecController

/-- C14, as the code has it: for a dual-stream configuration with low scale 2
or 4 that passes the validation of `main`, a `start` that returns true has
configured the derived session with that low scale, and the low width and height
`main` derived are the primary width and height divided by the derived session's
scale, rounded up to the next multiple of 16. -/
theorem low_scale_matches_geometry (env : Env) (o o1 : Main.SnxOptions)
    (devices : DeviceConfig) (c0 : Controller) (he : o.enabled = true)
    (hd : o.single = false) (hs : o.lo.scale = 2 ∨ o.lo.scale = 4)
    (hw : o.hi.width < 2 ^ 32) (hh : o.hi.height < 2 ^ 32)
    (hv : Main.validateSnx o = Main.Validation.accepted o1)
    (hok : (start env o1.hi o1.lo devices c0).ok = true) :
    (start env o1.hi o1.lo devices c0).ctl.impl.lowSession.ctx.scale = o.lo.scale ∧
      o1.lo.width = roundUp16
        (o1.hi.width / (start env o1.hi o1.lo devices c0).ctl.impl.lowSession.ctx.scale) ∧
      o1.lo.height = roundUp16
        (o1.hi.height / (start env o1.hi o1.lo devices c0).ctl.impl.lowSession.ctx.scale) := by
  have hs3 : o.lo.scale = 1 ∨ o.lo.scale = 2 ∨ o.lo.scale = 4 := Or.inr hs
  obtain ⟨v1, v2, v3, v4, _, v6, _, v8, v9, v10, _⟩ := Main.validateSnx_dual o o1 he hd hs3 hv
  have bw : o.hi.width / o.lo.scale + 15 < 2 ^ 32 := by
    rcases hs with h | h <;> rw [h] <;> omega
  have bh : o.hi.height / o.lo.scale + 15 < 2 ^ 32 := by
    rcases hs with h | h <;> rw [h] <;> omega
  have ew := Main.align16b_eq _ bw
  have eh := Main.align16b_eq _ bh
  have hdual : ¬ (o1.lo.width = 0 ∨ o1.lo.height = 0 ∨ o1.lo.fps = 0) := by
    rw [v1, v2, ew, eh]
    generalize o.hi.width / o.lo.scale = qw at v8 ⊢
    generalize o.hi.height / o.lo.scale = qh at v9 ⊢
    omega
  have hscale := start_low_scale env o1.hi o1.lo devices c0 hdual hok
  have hl : lowScaleOf o1.lo = o.lo.scale := by
    unfold lowScaleOf
    rw [v6, if_pos hs]
  rw [hscale, hl]
  refine ⟨rfl, ?_, ?_⟩
  · rw [v1, v3, ew]
    rfl
  · rw [v2, v4, eh]
    rfl

/-- The options `--snx-hi 1280x720@10 --snx-lo-scale 2` started on a new
controller with every call succeeding. -/
theorem low_scale_matches_geometry_witness :
    Main.validateSnx (Main.optionsWith 1280 720 10 2) =
        Main.Validation.accepted
          { enabled := true, hi := ⟨1280, 720, 10, 1024 * 1024, 20, 2⟩,
            lo := ⟨640, 368, 5, 512 * 1024, 5, 2⟩, single := false } ∧
      (start envDualOk ⟨1280, 720, 10, 1024 * 1024, 20, 2⟩ ⟨640, 368, 5, 512 * 1024, 5, 2⟩
        defaultDevices Controller.new).ctl.impl.lowSession.ctx.scale = 2 :=
  ⟨by decide,
    (low_scale_matches_geometry envDualOk (Main.optionsWith 1280 720 10 2)
      { enabled := true, hi := ⟨1280, 720, 10, 1024 * 1024, 20, 2⟩,
        lo := ⟨640, 368, 5, 512 * 1024, 5, 2⟩, single := false }
      defaultDevices Controller.new rfl rfl (by decide) (by decide) (by decide) (by decide)
      (by decide)).1⟩

/-- C14 fails as stated: the low scale 1 passes the validation of `main`, which
derives the low size 1920x1088 from it, but `start` configures the derived
session with scale 2; 1920 is not 1920 / 2 rounded up to a multiple of 16. -/
theorem low_scale_one_becomes_two :
    Main.validateSnx (Main.optionsWith 1920 1080 10 1) =
        Main.Validation.accepted validatedScaleOne ∧
      validatedScaleOne.lo.scale = 1 ∧
      (start envDualOk validatedScaleOne.hi validatedScaleOne.lo defaultDevices
        Controller.new).ok = true ∧
      (start envDualOk validatedScaleOne.hi validatedScaleOne.lo defaultDevices
        Controller.new).ctl.impl.lowSession.ctx.scale = 2 ∧
      validatedScaleOne.lo.width = 1920 ∧
      roundUp16 (validatedScaleOne.hi.width / 2) = 960 := by
  decide

end SnxCodecController

namespace V4L2DeviceSource

/-! ## `deliverFrame` on an empty queue, and the wake-up event -/

theorem afterGettingIfFrame_counts (s : SourceState) :
    (afterGettingIfFrame s).triggerCount = s.triggerCount ∧
      (afterGettingIfFrame s).afterGettingCount =
        (if s.fFrameSize > 0 then s.afterGettingCount + 1 else s.afterGettingCount) := by
  unfold afterGettingIfFrame
  split <;> exact ⟨rfl, rfl⟩

/-- C21 (amended): on an empty queue `deliverFrame` leaves the queue empty, leaves
the presentation time, the first-frame flag, the remembered capture timestamp and
the output buffer as they were, calls neither `afterGetting` nor `triggerEvent`,
and sets the frame size to 0 when the consumer is awaiting data; when the
consumer is not awaiting data the frame size keeps its previous value. -/
theorem deliverFrame_empty_queue (env : DeliverEnv) (s : SourceState)
    (hq : s.m_captureQueue = []) :
    (deliverFrame env s).m_captureQueue = [] ∧
      (deliverFrame env s).fPresentationTime = s.fPresentationTime ∧
      (deliverFrame env s).m_firstFrame = s.m_firstFrame ∧
      (deliverFrame env s).m_lastPresentationTime = s.m_lastPresentationTime ∧
      (deliverFrame env s).fTo = s.fTo ∧
      (deliverFrame env s).afterGettingCount = s.afterGettingCount ∧
      (deliverFrame env s).triggerCount = s.triggerCount ∧
      (deliverFrame env s).fFrameSize =
        (if env.isCurrentlyAwaitingData then 0 else s.fFrameSize) := by
  cases ha : env.isCurrentlyAwaitingData
  · have hd : deliverFrame env s = s := by
      simp only [deliverFrame, ha, Bool.false_eq_true, if_false]
    rw [hd]
    exact ⟨hq, rfl, rfl, rfl, rfl, rfl, rfl, rfl⟩
  · have hl : deliverLocked env { s with fDurationInMicroseconds := 0, fFrameSize := 0 } =
        { s with fDurationInMicroseconds := 0, fFrameSize := 0 } := by
      simp only [deliverLocked, hq]
    have hd : deliverFrame env s = { s with fDurationInMicroseconds := 0, fFrameSize := 0 } := by
      simp only [deliverFrame, ha, if_true, hl, afterGettingIfFrame]
      rfl
    rw [hd]
    exact ⟨hq, rfl, rfl, rfl, rfl, rfl, rfl, rfl⟩

/-- An awaiting consumer and an idle one, each on an empty queue whose state
still holds the size 5 of the previous delivery. -/
theorem deliverFrame_empty_queue_witness :
    (deliverFrame ⟨true, 64, ⟨1, 0⟩, ⟨1, 0⟩, 32⟩
        { SourceState.init [] with fFrameSize := 5 }).fFrameSize = 0 ∧
      (deliverFrame ⟨true, 64, ⟨1, 0⟩, ⟨1, 0⟩, 32⟩
        { SourceState.init [] with fFrameSize := 5 }).afterGettingCount = 0 :=
  ⟨(deliverFrame_empty_queue ⟨true, 64, ⟨1, 0⟩, ⟨1, 0⟩, 32⟩
      { SourceState.init [] with fFrameSize := 5 } rfl).2.2.2.2.2.2.2,
    (deliverFrame_empty_queue ⟨true, 64, ⟨1, 0⟩, ⟨1, 0⟩, 32⟩
      { SourceState.init [] with fFrameSize := 5 } rfl).2.2.2.2.2.1⟩

/-- C21 (as stated) fails when the consumer is not awaiting data: the call
returns at once and the frame size 5 left by the previous delivery stays. -/
theorem deliverFrame_empty_queue_keeps_size :
    ({ SourceState.init [] with fFrameSize := 5 } : SourceState).m_captureQueue = [] ∧
      (deliverFrame ⟨false, 64, ⟨1, 0⟩, ⟨1, 0⟩, 32⟩
        { SourceState.init [] with fFrameSize := 5 }).fFrameSize = 5 ∧
      (deliverFrame ⟨false, 64, ⟨1, 0⟩, ⟨1, 0⟩, 32⟩
        { SourceState.init [] with fFrameSize := 5 }).fFrameSize ≠ 0 := by
  decide

/-- C22: a call of `deliverFrame` that delivers (consumer awaiting, queue not
empty) removes the oldest entry, keeps the others in order, and calls
`triggerEvent` once when an entry remains and not at all when none remains. -/
theorem deliverFrame_pops_and_resignals (env : DeliverEnv) (s : SourceState)
    (frame : Frame) (rest : List Frame) (ha : env.isCurrentlyAwaitingData = true)
    (hq : s.m_captureQueue = frame :: rest) :
    (deliverFrame env s).m_captureQueue = rest ∧
      (rest ≠ [] → (deliverFrame env s).triggerCount = s.triggerCount + 1) ∧
      (rest = [] → (deliverFrame env s).triggerCount = s.triggerCount) ∧
      ((deliverFrame env s).triggerCount = s.triggerCount + 1 ↔
        (deliverFrame env s).m_captureQueue ≠ []) := by
  obtain ⟨b1, _⟩ := afterGettingIfFrame_counts
    (deliverLocked env { s with fDurationInMicroseconds := 0, fFrameSize := 0 })
  have e1 := (deliverFrame_pop env s frame rest ha hq).1
  have e2 : (deliverFrame env s).triggerCount =
      if rest.isEmpty then s.triggerCount else s.triggerCount + 1 := by
    simp only [deliverFrame, ha, if_true]
    rw [b1]
    simp only [deliverLocked, hq]
  rw [e1, e2]
  cases rest with
  | nil => simp
  | cons f r => simp

/-- Two queued frames: the first delivery re-signals, the second does not. -/
theorem deliverFrame_pops_and_resignals_witness :
    (deliverFrame ⟨true, 64, ⟨1, 0⟩, ⟨1, 0⟩, 32⟩ (SourceState.init exampleQueue)).triggerCount
        = 0 + 1 ∧
      (deliverFrame ⟨true, 64, ⟨2, 0⟩, ⟨2, 0⟩, 32⟩
        (deliverFrame ⟨true, 64, ⟨1, 0⟩, ⟨1, 0⟩, 32⟩
          (SourceState.init exampleQueue))).triggerCount = 0 + 1 :=
  ⟨(deliverFrame_pops_and_resignals ⟨true, 64, ⟨1, 0⟩, ⟨1, 0⟩, 32⟩
      (SourceState.init exampleQueue) ⟨[0, 0, 0, 1, 0x65], ⟨100, 900000⟩⟩
      [⟨[0, 0, 0, 1, 0x41], ⟨101, 100000⟩⟩] rfl rfl).2.1 (by decide),
    (deliverFrame_pops_and_resignals ⟨true, 64, ⟨2, 0⟩, ⟨2, 0⟩, 32⟩
      (deliverFrame ⟨true, 64, ⟨1, 0⟩, ⟨1, 0⟩, 32⟩ (SourceState.init exampleQueue))
      ⟨[0, 0, 0, 1, 0x41], ⟨101, 100000⟩⟩ [] rfl (by decide)).2.2.1 rfl⟩

end V4L2DeviceSource

namespace V4L2DeviceSource

/-! ## The capture worker on an empty read and on a stop request -/

theorem getNextFrame_empty_read (q : Nat) (e : IterEnv) (w : Worker)
    (hs : e.stopAtRead = false) (hz : e.frameSize = 0) :
    getNextFrame q e w = (0, { w with reads := w.reads + 1 }) := by
  simp only [getNextFrame, hs, hz, Bool.false_eq_true, if_false, lt_self_iff_false, if_true]

theorem getNextFrame_stopped (q : Nat) (e : IterEnv) (w : Worker)
    (hs : e.stopAtRead = true) : getNextFrame q e w = (0, w) := by
  simp only [getNextFrame, hs, if_true]

/-- Without a pollable descriptor an empty read is followed by the 10 ms sleep
and nothing else: the local `stop` stays, nothing is queued. -/
theorem threadBody_empty_read_no_fd (q : Nat) (e : IterEnv) (w : Worker) (hfd : e.fd < 0)
    (hs : e.stopAtRead = false) (hz : e.frameSize = 0) :
    threadBody q e w = { w with reads := w.reads + 1, sleeps := w.sleeps + 1 } := by
  have hn : ¬ e.fd ≥ 0 := by omega
  simp only [threadBody, hn, if_false, getNextFrame_empty_read q e w hs hz, le_refl, if_true]

/-- On a pollable descriptor an empty read with `errno == EAGAIN` changes nothing
but the read count. -/
theorem threadBody_empty_read_eagain (q : Nat) (e : IterEnv) (w : Worker) (hfd : e.fd ≥ 0)
    (hsel : e.selectRet = 1) (hs : e.stopAtRead = false) (hz : e.frameSize = 0)
    (herr : e.errno = EAGAIN) :
    threadBody q e w = { w with reads := w.reads + 1 } := by
  simp only [threadBody, hfd, hsel, if_true, getNextFrame_empty_read q e w hs hz, le_refl, herr]

/-- On a pollable descriptor an empty read with any other `errno`, no stop being
requested, sets the local `stop`. -/
theorem threadBody_empty_read_other (q : Nat) (e : IterEnv) (w : Worker) (hfd : e.fd ≥ 0)
    (hsel : e.selectRet = 1) (hs : e.stopAtRead = false) (hz : e.frameSize = 0)
    (herr : e.errno ≠ EAGAIN) (ha : e.stopAfterRead = false) :
    threadBody q e w = { w with reads := w.reads + 1, stop := 1 } := by
  simp only [threadBody, hfd, hsel, if_true, getNextFrame_empty_read q e w hs hz, le_refl, herr,
    if_false, ha, Bool.not_false]

/-- The loop is left at the next condition check once the local `stop` is set,
whatever the later environments hold. -/
theorem threadLoop_stop_set (q : Nat) (e : IterEnv) (es : List IterEnv) (w : Worker)
    (h : w.stop ≠ 0) : threadLoop q (e :: es) w = { w with ended := true } := by
  simp only [threadLoop, h, false_and, if_false]

/-- C23 (divergence): a descriptor-backed device whose read returns zero bytes
while `errno` is 0 and no stop is requested: the worker sets its local `stop`,
leaves the loop at the next check and never reads again, although a second
readable iteration is offered. -/
theorem thread_ends_on_empty_read :
    (thread 5 [] [emptyReadOn 3 0, emptyReadOn 3 0]).ended = true ∧
      (thread 5 [] [emptyReadOn 3 0, emptyReadOn 3 0]).stop = 1 ∧
      (thread 5 [] [emptyReadOn 3 0, emptyReadOn 3 0]).reads = 1 ∧
      (thread 5 [] [emptyReadOn 3 EAGAIN, emptyReadOn 3 EAGAIN]).ended = false ∧
      (thread 5 [] [emptyReadOn 3 EAGAIN, emptyReadOn 3 EAGAIN]).reads = 2 ∧
      (thread 5 [] [emptyReadOn (-1) 0, emptyReadOn (-1) 0]).ended = false ∧
      (thread 5 [] [emptyReadOn (-1) 0, emptyReadOn (-1) 0]).reads = 2 := by
  decide

/-- C24: with the stop flag set, `getNextFrame` returns 0 and leaves the worker
as it was (no device read, nothing queued); a loop whose condition check sees
the flag ends there; and an iteration that finds the flag set at its read
attempt is followed by the end of the loop at the next check, with no device
read and no queue change, whatever the device would have returned. -/
theorem thread_exits_once_stopped (q : Nat) (w : Worker) (e e2 : IterEnv)
    (es : List IterEnv) (hr : e.stopAtRead = true) (ha : e.stopAfterRead = true)
    (h2 : e2.stopAtLoop = true) :
    getNextFrame q e w = (0, w) ∧
      threadLoop q (e2 :: es) w = { w with ended := true } ∧
      (threadLoop q (e :: e2 :: es) w).ended = true ∧
      (threadLoop q (e :: e2 :: es) w).reads = w.reads ∧
      (threadLoop q (e :: e2 :: es) w).m_captureQueue = w.m_captureQueue := by
  have hg := getNextFrame_stopped q e w hr
  have hend : ∀ v : Worker, threadLoop q (e2 :: es) v = { v with ended := true } := by
    intro v
    simp only [threadLoop, h2, Bool.true_eq_false, and_false, if_false]
  have hb : (threadBody q e w).reads = w.reads ∧
      (threadBody q e w).m_captureQueue = w.m_captureQueue := by
    simp only [threadBody, hg, ha, Bool.not_true, Bool.false_eq_true, if_false, le_refl, if_true]
    split_ifs <;> exact ⟨rfl, rfl⟩
  refine ⟨hg, hend w, ?_, ?_, ?_⟩
  all_goals
    by_cases hc : w.stop = 0 ∧ e.stopAtLoop = false
    · simp only [threadLoop] at hend ⊢
      rw [if_pos hc]
      first
        | (simp only [h2, Bool.true_eq_false, and_false, if_false]; done)
        | (simp only [h2, Bool.true_eq_false, and_false, if_false]; exact hb.1)
        | (simp only [h2, Bool.true_eq_false, and_false, if_false]; exact hb.2)
    · simp only [threadLoop]
      rw [if_neg hc]

/-- A worker that finds the flag set at its read attempt on a device that would
return "no data", then at the loop check. -/
theorem thread_exits_once_stopped_witness :
    (threadLoop 5 [{ emptyReadOn (-1) 0 with stopAtRead := true, stopAfterRead := true },
        { emptyReadOn (-1) 0 with stopAtLoop := true }, emptyReadOn (-1) 0]
      (Worker.init [])).ended = true ∧
    (threadLoop 5 [{ emptyReadOn (-1) 0 with stopAtRead := true, stopAfterRead := true },
        { emptyReadOn (-1) 0 with stopAtLoop := true }, emptyReadOn (-1) 0]
      (Worker.init [])).reads = 0 :=
  ⟨(thread_exits_once_stopped 5 (Worker.init [])
      { emptyReadOn (-1) 0 with stopAtRead := true, stopAfterRead := true }
      { emptyReadOn (-1) 0 with stopAtLoop := true } [emptyReadOn (-1) 0] rfl rfl rfl).2.2.1,
    (thread_exits_once_stopped 5 (Worker.init [])
      { emptyReadOn (-1) 0 with stopAtRead := true, stopAfterRead := true }
      { emptyReadOn (-1) 0 with stopAtLoop := true } [emptyReadOn (-1) 0] rfl rfl rfl).2.2.2.1⟩

end V4L2DeviceSource

namespace SnxDeviceInterface

/-! ## `read` on access units that are not keyframes -/

theorem read_bounded (c : ParamSets) (running : Bool) (frame : Option (List Nat × Bool))
    (bufferSize : Nat) :
    (read c running frame bufferSize).n ≤ bufferSize ∧
      (read c running frame bufferSize).bytes.length = (read c running frame bufferSize).n := by
  cases running with
  | false => exact ⟨Nat.zero_le _, rfl⟩
  | true =>
    cases frame with
    | none => exact ⟨Nat.zero_le _, rfl⟩
    | some f =>
      obtain ⟨data, key⟩ := f
      rw [read_frame c data key bufferSize _ rfl]
      refine ⟨Nat.min_le_right _ _, ?_⟩
      simp only [List.length_take]
      exact Nat.min_comm _ _

/-- C29: an access unit that is not flagged as a keyframe reaches the caller as
its first `min(length, bufferSize)` bytes, the returned count being that
minimum, whatever the cache holds; and no call of `read` hands over more than
`bufferSize` bytes. -/
theorem read_non_keyframe (c : ParamSets) (data : List Nat) (bufferSize : Nat) :
    (read c true (some (data, false)) bufferSize).n = min data.length bufferSize ∧
      (read c true (some (data, false)) bufferSize).bytes =
        data.take (min data.length bufferSize) ∧
      ∀ (c2 : ParamSets) (running : Bool) (frame : Option (List Nat × Bool)),
        (read c2 running frame bufferSize).n ≤ bufferSize ∧
        (read c2 running frame bufferSize).bytes.length ≤ bufferSize := by
  have h := read_frame c data false bufferSize data (by simp only [Bool.false_and, Bool.false_eq_true, if_false])
  rw [h]
  refine ⟨rfl, ?_, ?_⟩
  · show data.take bufferSize = data.take (min data.length bufferSize)
    by_cases hl : data.length ≤ bufferSize
    · rw [Nat.min_eq_left hl, List.take_of_length_le hl, List.take_of_length_le (Nat.le_refl _)]
    · rw [Nat.min_eq_right (by omega)]
  · intro c2 running frame
    obtain ⟨h1, h2⟩ := read_bounded c2 running frame bufferSize
    exact ⟨h1, by rw [h2]; exact h1⟩

end SnxDeviceInterface

namespace V4L2DeviceSource

/-! ## `queueFrame` with capacity 0 -/

/-- With capacity 0 the eviction loop pops every entry and then reaches
`front()` and `pop_front()` on the empty queue. -/
theorem evictWhileFull_zero (q : List Frame) : evictWhileFull 0 q = none := by
  induction q with
  | nil => simp only [evictWhileFull, ge_iff_le, le_refl, if_true]
  | cons f rest ih =>
    simp only [evictWhileFull, ge_iff_le, Nat.zero_le, if_true]
    exact ih

/-- C30 (divergence): `-Q 0` reaches `queueFrame` as capacity 0, and with
capacity 0 the condition `size() >= 0` of the eviction loop never fails: for
every queue content the loop empties the queue and then pops the empty queue,
so no frame is appended. -/
theorem queueFrame_zero_capacity (q : List Frame) (frame : Frame) :
    Main.queueCapacity 0 = 0 ∧ queueFrame (Main.queueCapacity 0) q frame = none := by
  have h0 : Main.queueCapacity 0 = 0 := by decide
  rw [h0]
  refine ⟨rfl, ?_⟩
  simp only [queueFrame, evictWhileFull_zero, Option.map_none']

/-- For every capacity of at least 1 the eviction loop ends and exactly one
frame is appended: the queue afterwards is the newest `capacity - 1` entries
followed by the frame. -/
theorem queueFrame_positive_capacity (C : Nat) (hC : 1 ≤ C) (q : List Frame) (frame : Frame) :
    ∃ kept, queueFrame C q frame = some (kept ++ [frame]) ∧ kept.length ≤ C - 1 ∧
      kept = q.drop (q.length - (C - 1)) := by
  refine ⟨q.drop (q.length - (C - 1)), ?_, ?_, rfl⟩
  · have hk : q.length + 1 - C = q.length - (C - 1) := by omega
    rw [queueFrame_eq_drop C hC q frame, hk,
      List.drop_append_of_le_length (Nat.sub_le _ _)]
  · rw [List.length_drop]
    omega

end V4L2DeviceSource

namespace SnxDeviceInterface

/-! ## What `findStartCode` finds -/

theorem findStartCodeLoop_spec (buf : List Nat) (fuel i : Nat) (hf : buf.length ≤ i + fuel) :
    (∀ n, findStartCodeLoop buf fuel i = some n →
        ∃ k, i ≤ k ∧ k + 3 < buf.length ∧ startCodeAt buf k = true ∧
          (∀ j, i ≤ j → j < k → startCodeAt buf j = false) ∧ n = pastStartCode buf k) ∧
      (findStartCodeLoop buf fuel i = none →
        ∀ j, i ≤ j → j + 3 < buf.length → startCodeAt buf j = false) := by
  induction fuel generalizing i with
  | zero =>
    refine ⟨fun n h => ?_, fun _ j hj hlt => ?_⟩
    · simp only [findStartCodeLoop] at h
      cases h
    · omega
  | succ fuel ih =>
    obtain ⟨ih1, ih2⟩ := ih (i + 1) (by omega)
    by_cases hlt : i + 3 < buf.length
    · by_cases h4 : isStartCode4 buf i = true
      · have he : findStartCodeLoop buf (fuel + 1) i = some (i + 4) := by
          simp only [findStartCodeLoop, hlt, if_true, h4]
        rw [he]
        refine ⟨fun n hn => ⟨i, Nat.le_refl _, hlt, ?_, fun j h1 h2 => by omega, ?_⟩,
          fun h => by cases h⟩
        · simp only [startCodeAt, h4, Bool.true_or]
        · simp only [Option.some.injEq] at hn
          simp only [pastStartCode, h4, if_true]
          exact hn.symm
      · by_cases h3 : isStartCode3 buf i = true
        · have he : findStartCodeLoop buf (fuel + 1) i = some (i + 3) := by
            have h2 : i + 2 < buf.length := by omega
            simp only [findStartCodeLoop, hlt, if_true, h4, h3, h2, decide_True, Bool.and_self,
              Bool.false_eq_true, if_false]
          rw [he]
          refine ⟨fun n hn => ⟨i, Nat.le_refl _, hlt, ?_, fun j h1 h2 => by omega, ?_⟩,
            fun h => by cases h⟩
          · simp only [startCodeAt, h3, Bool.or_true]
          · simp only [Option.some.injEq] at hn
            simp only [pastStartCode, h4, Bool.false_eq_true, if_false]
            exact hn.symm
        · have he : findStartCodeLoop buf (fuel + 1) i = findStartCodeLoop buf fuel (i + 1) := by
            simp only [findStartCodeLoop, hlt, if_true, h4, h3, Bool.and_false,
              Bool.false_eq_true, if_false]
          have hi : startCodeAt buf i = false := by
            simp only [Bool.not_eq_true] at h4 h3
            simp only [startCodeAt, h4, h3, Bool.or_self]
          rw [he]
          refine ⟨fun n hn => ?_, fun hn j h1 h2 => ?_⟩
          · obtain ⟨k, k1, k2, k3, k4, k5⟩ := ih1 n hn
            refine ⟨k, by omega, k2, k3, fun j h1 h2 => ?_, k5⟩
            by_cases hji : j = i
            · rw [hji]; exact hi
            · exact k4 j (by omega) h2
          · by_cases hji : j = i
            · rw [hji]; exact hi
            · exact ih2 hn j (by omega) h2
    · have he : findStartCodeLoop buf (fuel + 1) i = none := by
        simp only [findStartCodeLoop, hlt, if_false]
      rw [he]
      refine ⟨fun n hn => ?_, fun _ j h1 h2 => ?_⟩
      · cases hn
      · omega

theorem findStartCode_spec (buf : List Nat) (off : Nat) :
    (∀ n, findStartCode buf off = some n →
        ∃ k, off ≤ k ∧ k + 3 < buf.length ∧ startCodeAt buf k = true ∧
          (∀ j, off ≤ j → j < k → startCodeAt buf j = false) ∧ n = pastStartCode buf k) ∧
      (findStartCode buf off = none →
        ∀ j, off ≤ j → j + 3 < buf.length → startCodeAt buf j = false) :=
  findStartCodeLoop_spec buf (buf.length - off) off (by omega)

end SnxDeviceInterface

namespace SnxDeviceInterface

/-- What `findStartCode(buf, off)` finds, for an offset whose `off + 3` is
representable in `size_t`: the index just past the first start code (`00 00 01`
or `00 00 00 01`) that begins at an index `k ≥ off` with `k + 3 < buf.size()`;
that index is at least `off + 3` and at most `buf.size()`; and `npos` exactly
when no start code begins at such an index.  A three-byte start code in the
last three bytes of the buffer lies outside this range. -/
theorem findStartCodeAt_spec (sizeBits : Nat) (buf : List Nat) (off : Nat)
    (ho : off + 3 < 2 ^ sizeBits) :
    (∀ n, findStartCodeAt sizeBits buf off = some (some n) ↔
        ∃ k, off ≤ k ∧ k + 3 < buf.length ∧ startCodeAt buf k = true ∧
          (∀ j, off ≤ j → j < k → startCodeAt buf j = false) ∧ n = pastStartCode buf k) ∧
      (∀ n, findStartCodeAt sizeBits buf off = some (some n) →
        off + 3 ≤ n ∧ n ≤ buf.length) ∧
      (findStartCodeAt sizeBits buf off = some none ↔
        ∀ j, off ≤ j → j + 3 < buf.length → startCodeAt buf j = false) := by
  have he : findStartCodeAt sizeBits buf off = some (findStartCode buf off) := by
    simp only [findStartCodeAt, ho, if_true]
  obtain ⟨s1, s2⟩ := findStartCode_spec buf off
  rw [he]
  refine ⟨fun n => ⟨fun h => s1 n (Option.some.inj h), fun h => ?_⟩,
    fun n h => findStartCode_bounds buf off n (Option.some.inj h),
    ⟨fun h => s2 (Option.some.inj h), fun h => ?_⟩⟩
  · obtain ⟨k, k1, k2, k3, k4, k5⟩ := h
    cases hr : findStartCode buf off with
    | none =>
      have := s2 hr k k1 k2
      rw [k3] at this
      cases this
    | some m =>
      obtain ⟨k', a1, a2, a3, a4, a5⟩ := s1 m hr
      have hkk : k' = k := by
        rcases Nat.lt_trichotomy k' k with hlt | heq | hgt
        · have := k4 k' a1 hlt
          rw [a3] at this
          cases this
        · exact heq
        · have := a4 k k1 hgt
          rw [k3] at this
          cases this
      rw [a5, k5, hkk]
  · cases hr : findStartCode buf off with
    | none => rfl
    | some m =>
      obtain ⟨k', a1, a2, a3, _, _⟩ := s1 m hr
      have := h k' a1 a2
      rw [a3] at this
      cases this

/-- A four-byte marker after one byte of payload: found, the index past it is 5. -/
theorem findStartCodeAt_spec_witness :
    findStartCodeAt 32 [5, 0, 0, 0, 1, 7] 0 = some (some 5) ∧ 0 + 3 ≤ 5 ∧ 5 ≤ 6 :=
  ⟨by decide, (findStartCodeAt_spec 32 [5, 0, 0, 0, 1, 7] 0 (by decide)).2.1 5 (by decide)⟩

/-- C27 (divergence): a three-byte start code in the last three bytes of the
buffer is not found.  `00 00 01` begins at index 1 of `05 00 00 01`, at or after
offset 0, and `findStartCode` returns `npos`, the loop condition
`i + 3 < size` having stopped the loop before index 1; the four-byte start code
that ends the buffer `05 00 00 00 01` is found, the index past it being the
buffer size 5. -/
theorem findStartCodeAt_misses_last_three_bytes :
    findStartCodeAt 32 [5, 0, 0, 1] 0 = some none ∧
      isStartCode3 [5, 0, 0, 1] 1 = true ∧ 0 ≤ 1 ∧ 1 + 3 ≤ [5, 0, 0, 1].length ∧
      findStartCodeAt 32 [5, 0, 0, 0, 1] 0 = some (some 5) ∧
      isStartCode4 [5, 0, 0, 0, 1] 1 = true := by
  decide

end SnxDeviceInterface

namespace SnxDeviceInterface

/-! ## The scan of `findStartCode` on the bytes after the offset -/

theorem firstStartCode_short (l : List Nat) (h : l.length < 4) : firstStartCode l = none := by
  rcases l with _ | ⟨a, _ | ⟨b, _ | ⟨c, _ | ⟨d, t⟩⟩⟩⟩
  · rfl
  · rfl
  · rfl
  · rfl
  · simp only [List.length_cons] at h
    omega

theorem firstStartCode_cons (a b c d : Nat) (t : List Nat) :
    firstStartCode (a :: b :: c :: d :: t) =
      if a = 0 ∧ b = 0 ∧ c = 0 ∧ d = 1 then some 4
      else if a = 0 ∧ b = 0 ∧ c = 1 then some 3
      else (firstStartCode (b :: c :: d :: t)).map (· + 1) := by
  rw [firstStartCode]

theorem findStartCodeLoop_eq_first (buf : List Nat) (fuel i : Nat)
    (hf : buf.length ≤ i + fuel) :
    findStartCodeLoop buf fuel i = (firstStartCode (buf.drop i)).map (· + i) := by
  induction fuel generalizing i with
  | zero =>
    have : buf.drop i = [] := List.drop_eq_nil_of_le (by omega)
    rw [this]
    rfl
  | succ fuel ih =>
    rcases hl : buf.drop i with _ | ⟨a, _ | ⟨b, _ | ⟨c, _ | ⟨d, t⟩⟩⟩⟩
    all_goals
      have hlen := congrArg List.length hl
      simp only [List.length_drop, List.length_cons, List.length_nil] at hlen
    case cons.cons.cons.cons =>
      have hlt : i + 3 < buf.length := by omega
      have g : ∀ j, buf[i + j]? = (a :: b :: c :: d :: t)[j]? := by
        intro j
        rw [← hl, List.getElem?_drop]
      have g0 : buf[i]? = some a := g 0
      have g1 : buf[i + 1]? = some b := g 1
      have g2 : buf[i + 2]? = some c := g 2
      have g3 : buf[i + 3]? = some d := by
        rw [g 3]
        simp only [List.getElem?_cons_succ, List.getElem?_cons_zero]
      have hnext : buf.drop (i + 1) = b :: c :: d :: t := by
        rw [← List.drop_drop, hl]
        rfl
      have h2 : i + 2 < buf.length := by omega
      rw [firstStartCode_cons, findStartCodeLoop, if_pos hlt, ih (i + 1) (by omega), hnext]
      simp only [isStartCode4, isStartCode3, g0, g1, g2, g3, h2, decide_True, Bool.true_and,
        Bool.and_eq_true, beq_iff_eq, Option.some.injEq]
      by_cases h4 : a = 0 ∧ b = 0 ∧ c = 0 ∧ d = 1
      · obtain ⟨r1, r2, r3, r4⟩ := h4
        subst r1 r2 r3 r4
        simp only [and_self, if_true, Option.map_some']
        congr 1
        omega
      · by_cases h3 : a = 0 ∧ b = 0 ∧ c = 1
        · obtain ⟨r1, r2, r3⟩ := h3
          subst r1 r2 r3
          simp only [and_self, if_true, Option.map_some', one_ne_zero, false_and, and_false,
            if_false]
          congr 1
          omega
        · have h4' : ¬ (((a = 0 ∧ b = 0) ∧ c = 0) ∧ d = 1) := by
            intro h
            exact h4 ⟨h.1.1.1, h.1.1.2, h.1.2, h.2⟩
          have h3' : ¬ ((a = 0 ∧ b = 0) ∧ c = 1) := by
            intro h
            exact h3 ⟨h.1.1, h.1.2, h.2⟩
          simp only [h4, h3, h4', h3', if_false, Option.map_map]
          congr 1
          funext x
          simp only [Function.comp]
          omega
    all_goals
      have hlt : ¬ i + 3 < buf.length := by omega
      rw [findStartCodeLoop, if_neg hlt]
      rfl

theorem findStartCode_eq_first (buf : List Nat) (off : Nat) :
    findStartCode buf off = (firstStartCode (buf.drop off)).map (· + off) :=
  findStartCodeLoop_eq_first buf (buf.length - off) off (by omega)

end SnxDeviceInterface

namespace SnxDeviceInterface

/-! ## Scanning across a unit -/

theorem isStartCode3_cons_succ (a : Nat) (u : List Nat) (i : Nat) :
    isStartCode3 (a :: u) (i + 1) = isStartCode3 u i := by
  simp only [isStartCode3, List.getElem?_cons_succ]

theorem isStartCode3_beyond (u : List Nat) (i : Nat) (h : u.length ≤ i) :
    isStartCode3 u i = false := by
  have : u[i]? = none := List.getElem?_eq_none h
  simp only [isStartCode3, this, Bool.and_eq_false_imp, beq_iff_eq]
  intro h0
  cases h0

theorem noStartCode_spec (u : List Nat) (h : noStartCode u = true) (i : Nat) :
    isStartCode3 u i = false := by
  by_cases hi : i < u.length
  · simp only [noStartCode, List.all_eq_true, List.mem_range, Bool.not_eq_true'] at h
    exact h i hi
  · exact isStartCode3_beyond u i (by omega)

theorem noStartCode_tail (a : Nat) (u : List Nat)
    (h : ∀ i, isStartCode3 (a :: u) i = false) : ∀ i, isStartCode3 u i = false := by
  intro i
  rw [← isStartCode3_cons_succ a u i]
  exact h (i + 1)

theorem isStartCode3_head_iff (a b c : Nat) (t : List Nat) :
    isStartCode3 (a :: b :: c :: t) 0 = true ↔ (a = 0 ∧ b = 0 ∧ c = 1) := by
  simp only [isStartCode3, List.getElem?_cons_zero, List.getElem?_cons_succ, Nat.zero_add,
    Bool.and_eq_true, beq_iff_eq, Option.some.injEq, and_assoc]

theorem no_head3 (a b c : Nat) (t : List Nat)
    (h : ∀ i, isStartCode3 (a :: b :: c :: t) i = false) : ¬ (a = 0 ∧ b = 0 ∧ c = 1) := by
  intro hh
  have := h 0
  rw [(isStartCode3_head_iff a b c t).2 hh] at this
  cases this

theorem no_head4 (a b c d : Nat) (t : List Nat)
    (h : ∀ i, isStartCode3 (a :: b :: c :: d :: t) i = false) :
    ¬ (a = 0 ∧ b = 0 ∧ c = 0 ∧ d = 1) := by
  intro hh
  exact no_head3 b c d t (noStartCode_tail a _ h) hh.2

theorem firstStartCode_step (a b c d : Nat) (t : List Nat)
    (n4 : ¬ (a = 0 ∧ b = 0 ∧ c = 0 ∧ d = 1)) (n3 : ¬ (a = 0 ∧ b = 0 ∧ c = 1)) :
    firstStartCode (a :: b :: c :: d :: t) = (firstStartCode (b :: c :: d :: t)).map (· + 1) := by
  rw [firstStartCode_cons, if_neg n4, if_neg n3]

/-- Behind a unit without a marker inside, the scan finds the four-byte marker
that follows the unit and returns the index just past it. -/
theorem firstStartCode_through4 (u rest : List Nat) (h : ∀ i, isStartCode3 u i = false) :
    firstStartCode (u ++ 0 :: 0 :: 0 :: 1 :: rest) = some (u.length + 4) := by
  induction u with
  | nil =>
    simp only [List.nil_append, firstStartCode_cons, and_self, if_true, List.length_nil,
      Nat.zero_add]
  | cons a u ih =>
    have ih' := ih (noStartCode_tail a _ h)
    rcases u with _ | ⟨b, _ | ⟨c, _ | ⟨d, t⟩⟩⟩
    · simp only [List.nil_append, List.cons_append] at ih' ⊢
      rw [firstStartCode_step a 0 0 0 _ (fun hh => by omega) (fun hh => by omega), ih']
      rfl
    · simp only [List.nil_append, List.cons_append] at ih' ⊢
      rw [firstStartCode_step a b 0 0 _ (fun hh => by omega) (fun hh => by omega), ih']
      rfl
    · simp only [List.nil_append, List.cons_append] at ih' ⊢
      rw [firstStartCode_step a b c 0 _ (fun hh => by omega) (no_head3 a b c _ h), ih']
      rfl
    · simp only [List.nil_append, List.cons_append] at ih' ⊢
      rw [firstStartCode_step a b c d _ (no_head4 a b c d t h) (no_head3 a b c _ h), ih']
      rfl

end SnxDeviceInterface

namespace SnxDeviceInterface

/-! ## The repaired access unit -/

theorem getD_eq_head_drop (buf : List Nat) (n : Nat) : buf.getD n 0 = (buf.drop n).headD 0 := by
  rw [List.getD_eq_getElem?_getD]
  cases h : buf.drop n with
  | nil =>
    have : buf.length ≤ n := List.drop_eq_nil_iff.mp h
    rw [List.getElem?_eq_none this]
    rfl
  | cons a t =>
    have : buf[n]? = (buf.drop n)[0]? := by rw [List.getElem?_drop, Nat.add_zero]
    rw [this, h]
    simp only [List.getElem?_cons_zero, Option.getD_some, List.headD_cons]

/-- The vector `fused` begins with SPS then PPS when the cached sets carry
headers of their own types and the cached SPS holds no marker. -/
theorem startsWithSpsPps_fused (c : ParamSets) (data : List Nat)
    (hs : c.m_sps ≠ []) (h7 : nalUnitType (c.m_sps.headD 0) = 7)
    (hp : c.m_pps ≠ []) (h8 : nalUnitType (c.m_pps.headD 0) = 8)
    (hno : ∀ i, isStartCode3 c.m_sps i = false) :
    startsWithSpsPps (fused c data) = true := by
  obtain ⟨sps, pps⟩ := c
  simp only at hs h7 hp h8 hno
  obtain ⟨a, t, rfl⟩ := List.exists_cons_of_ne_nil hs
  obtain ⟨b, t2, rfl⟩ := List.exists_cons_of_ne_nil hp
  have hf : fused ⟨a :: t, b :: t2⟩ data =
      0 :: 0 :: 0 :: 1 :: ((a :: t) ++ 0 :: 0 :: 0 :: 1 :: (b :: t2 ++ data)) := by
    simp only [fused, sc4, List.cons_append, List.nil_append, List.append_assoc]
  have hlen : (fused ⟨a :: t, b :: t2⟩ data).length = (a :: t).length + 8 + (t2 ++ data).length + 1 := by
    rw [hf]
    simp only [List.length_cons, List.length_append]
    omega
  have d4 : (fused ⟨a :: t, b :: t2⟩ data).drop 4 =
      (a :: t) ++ 0 :: 0 :: 0 :: 1 :: (b :: t2 ++ data) := by
    rw [hf]
    rfl
  have d8 : (fused ⟨a :: t, b :: t2⟩ data).drop ((a :: t).length + 4 + 4) = b :: t2 ++ data := by
    rw [hf]
    show List.drop ((a :: t).length + 4) ((a :: t) ++ 0 :: 0 :: 0 :: 1 :: (b :: t2 ++ data)) = _
    rw [List.drop_append]
    rfl
  have f0 : findStartCode (fused ⟨a :: t, b :: t2⟩ data) 0 = some 4 := by
    rw [findStartCode_eq_first, List.drop_zero, hf, firstStartCode_cons]
    simp only [and_self, if_true, Option.map_some', Nat.add_zero]
  have f4 : findStartCode (fused ⟨a :: t, b :: t2⟩ data) 4 = some ((a :: t).length + 4 + 4) := by
    rw [findStartCode_eq_first, d4, firstStartCode_through4 _ _ hno]
    rfl
  have g4 : (fused ⟨a :: t, b :: t2⟩ data).getD 4 0 = a := by
    rw [getD_eq_head_drop, d4]
    rfl
  have g8 : (fused ⟨a :: t, b :: t2⟩ data).getD ((a :: t).length + 4 + 4) 0 = b := by
    rw [getD_eq_head_drop, d8]
    rfl
  have l4 : ¬ 4 ≥ (fused ⟨a :: t, b :: t2⟩ data).length := by
    rw [hlen]
    simp only [List.length_cons]
    omega
  have l8 : ¬ (a :: t).length + 4 + 4 ≥ (fused ⟨a :: t, b :: t2⟩ data).length := by
    rw [hlen]
    omega
  have h7' : nalUnitType a = 7 := h7
  have h8' : nalUnitType b = 8 := h8
  simp only [startsWithSpsPps, f0, f4, g4, g8, l4, l8, if_false, h7', h8', ne_eq,
    not_true_eq_false, beq_self_eq_true]

end SnxDeviceInterface

namespace SnxDeviceInterface

/-! ## The headers of the cached sets -/

theorem unit_head (buf : List Nat) (p e : Nat) (he : p < e) :
    ((buf.take e).drop p).headD 0 = buf.getD p 0 := by
  rw [getD_eq_head_drop, List.drop_take]
  obtain ⟨k, hk⟩ : ∃ k, e - p = k + 1 := ⟨e - p - 1, by omega⟩
  rw [hk]
  cases buf.drop p with
  | nil => rfl
  | cons a t => rfl

theorem cacheLoop_typed (buf : List Nat) (fuel : Nat) (pos : Option Nat) (c : ParamSets)
    (h : c.typed) : (cacheLoop buf fuel pos c).typed := by
  induction fuel generalizing pos c with
  | zero => exact h
  | succ fuel ih =>
      cases pos with
      | none => exact h
      | some p =>
          unfold cacheLoop
          split
          · rename_i hp
            dsimp only
            split
            · exact h
            · rename_i he
              apply ih
              have hh := unit_head buf p (nalEndOf buf (findStartCode buf p)) (by omega)
              split
              · rename_i h7
                exact ⟨Or.inr (by rw [hh]; exact h7), h.2⟩
              · split
                · rename_i h8
                  exact ⟨h.1, Or.inr (by rw [hh]; exact h8)⟩
                · exact h
          · exact h

theorem cacheParameterSetsIfAny_typed (buf : List Nat) (c : ParamSets) (h : c.typed) :
    (cacheParameterSetsIfAny buf c).typed :=
  cacheLoop_typed buf _ _ c h

theorem cacheAfter_typed (history : List (List Nat)) : (cacheAfter history).typed := by
  have gen : ∀ (l : List (List Nat)) (c : ParamSets), c.typed →
      (l.foldl (fun c au => cacheParameterSetsIfAny au c) c).typed := by
    intro l
    induction l with
    | nil => exact fun c h => h
    | cons au l ih => exact fun c h => ih _ (cacheParameterSetsIfAny_typed au c h)
  exact gen history _ ⟨Or.inl rfl, Or.inl rfl⟩

/-- Where the cached SPS holds no marker `00 00 01`, the repair is a fixed
point: a keyframe access unit read by an adapter with any read history, on
which the repair prepends the cached sets, comes out accepted by
`startsWithSpsPps`, and reading it again as a keyframe, whatever the cache and
the buffer size, hands over the same bytes with nothing prepended. -/
theorem read_repair_fixed_point (history : List (List Nat)) (data : List Nat)
    (bufferSize : Nat)
    (hstart : startsWithSpsPps data = false)
    (hs : (cacheParameterSetsIfAny data (cacheAfter history)).m_sps ≠ [])
    (hp : (cacheParameterSetsIfAny data (cacheAfter history)).m_pps ≠ [])
    (hno : noStartCode (cacheParameterSetsIfAny data (cacheAfter history)).m_sps = true) :
    (read (cacheAfter history) true (some (data, true)) bufferSize).bytes =
        (fused (cacheParameterSetsIfAny data (cacheAfter history)) data).take bufferSize ∧
      startsWithSpsPps (fused (cacheParameterSetsIfAny data (cacheAfter history)) data) = true ∧
      ∀ c2 : ParamSets,
        (read c2 true
          (some (fused (cacheParameterSetsIfAny data (cacheAfter history)) data, true))
          bufferSize).bytes =
        (read (cacheAfter history) true (some (data, true)) bufferSize).bytes := by
  have ht := cacheParameterSetsIfAny_typed data _ (cacheAfter_typed history)
  have h7 := ht.1.resolve_left hs
  have h8 := ht.2.resolve_left hp
  have hf := startsWithSpsPps_fused _ data hs h7 hp h8 (noStartCode_spec _ hno)
  have es : (cacheParameterSetsIfAny data (cacheAfter history)).m_sps.isEmpty = false := by
    cases hc : (cacheParameterSetsIfAny data (cacheAfter history)).m_sps with
    | nil => exact absurd hc hs
    | cons a t => rfl
  have ep : (cacheParameterSetsIfAny data (cacheAfter history)).m_pps.isEmpty = false := by
    cases hc : (cacheParameterSetsIfAny data (cacheAfter history)).m_pps with
    | nil => exact absurd hc hp
    | cons a t => rfl
  have hr1 := read_frame (cacheAfter history) data true bufferSize
    (fused (cacheParameterSetsIfAny data (cacheAfter history)) data)
    (by simp only [hstart, es, ep, Bool.not_false, Bool.and_self, if_true])
  have hr2 : ∀ c2 : ParamSets, read c2 true
      (some (fused (cacheParameterSetsIfAny data (cacheAfter history)) data, true))
      bufferSize = _ := fun c2 =>
    read_frame c2 (fused (cacheParameterSetsIfAny data (cacheAfter history)) data) true
      bufferSize (fused (cacheParameterSetsIfAny data (cacheAfter history)) data)
      (by simp only [hf, Bool.not_true, Bool.and_false, Bool.false_eq_true, if_false])
  refine ⟨by rw [hr1], hf, fun c2 => ?_⟩
  rw [hr1, hr2 c2]

/-- An adapter that has cached an SPS and a PPS from an earlier access unit reads
an IDR slice that comes without them. -/
theorem read_repair_fixed_point_witness :
    startsWithSpsPps
      (fused (cacheParameterSetsIfAny [0, 0, 1, 0x65, 0x88]
        (cacheAfter [[0, 0, 0, 1, 0x67, 0x42, 0, 0, 0, 1, 0x68, 0xCE]]))
        [0, 0, 1, 0x65, 0x88]) = true :=
  (read_repair_fixed_point [[0, 0, 0, 1, 0x67, 0x42, 0, 0, 0, 1, 0x68, 0xCE]]
    [0, 0, 1, 0x65, 0x88] 64 (by decide) (by decide) (by decide) (by decide)).2.1

/-- C28 (divergence): a new adapter reads the keyframe
`00 00 01 68 BB 00 00 01 67 00 00 01`.  The scan caches the PPS `68 BB` and, the
closing marker lying in the last three bytes where `findStartCode` does not
look, the SPS `67 00 00 01` with that marker inside; the repair prepends both,
`startsWithSpsPps` rejects the repaired access unit, and a second repair
prepends the sets once more.  With the four-byte closing marker
`00 00 00 01` in its place the cached SPS is `67` and the repaired access unit
is accepted. -/
theorem read_repair_not_fixed_point :
    (cacheParameterSetsIfAny [0, 0, 1, 0x68, 0xBB, 0, 0, 1, 0x67, 0, 0, 1] (cacheAfter [])) =
        ⟨[0x67, 0, 0, 1], [0x68, 0xBB]⟩ ∧
      (read (cacheAfter []) true
          (some ([0, 0, 1, 0x68, 0xBB, 0, 0, 1, 0x67, 0, 0, 1], true)) 64).bytes =
        fused ⟨[0x67, 0, 0, 1], [0x68, 0xBB]⟩ [0, 0, 1, 0x68, 0xBB, 0, 0, 1, 0x67, 0, 0, 1] ∧
      startsWithSpsPps
        (fused ⟨[0x67, 0, 0, 1], [0x68, 0xBB]⟩
          [0, 0, 1, 0x68, 0xBB, 0, 0, 1, 0x67, 0, 0, 1]) = false ∧
      (read ⟨[0x67, 0, 0, 1], [0x68, 0xBB]⟩ true
          (some (fused ⟨[0x67, 0, 0, 1], [0x68, 0xBB]⟩
            [0, 0, 1, 0x68, 0xBB, 0, 0, 1, 0x67, 0, 0, 1], true)) 64).bytes ≠
        (read (cacheAfter []) true
          (some ([0, 0, 1, 0x68, 0xBB, 0, 0, 1, 0x67, 0, 0, 1], true)) 64).bytes ∧
      (cacheParameterSetsIfAny [0, 0, 1, 0x68, 0xBB, 0, 0, 1, 0x67, 0, 0, 0, 1]
        (cacheAfter [])) = ⟨[0x67], [0x68, 0xBB]⟩ ∧
      startsWithSpsPps
        (fused ⟨[0x67], [0x68, 0xBB]⟩
          [0, 0, 1, 0x68, 0xBB, 0, 0, 1, 0x67, 0, 0, 0, 1]) = true := by
  decide

end SnxDeviceInterface

namespace SnxDeviceInterface

/-! ## `cacheParameterSetsIfAny` on an access unit made of well-formed units -/

end SnxDeviceInterface

namespace SnxDeviceInterface

end SnxDeviceInterface

namespace SnxDeviceInterface

/-! ## The cached sets are the last units of their types -/

end SnxDeviceInterface

namespace SnxCodecController

/-! ## The rate-control guards across `configureSession` -/

theorem rcCalls_append_other (t : List Call) (c : Call) (h1 : c ≠ Call.snx_codec_rc_init)
    (h2 : c ≠ Call.snx_codec_rc_update) : rcCalls (t ++ [c]) = rcCalls t := by
  simp only [rcCalls, List.filter_append, List.filter_cons, List.filter_nil, h1, h2, or_self,
    decide_False, Bool.false_eq_true, if_false, List.append_nil]

theorem rateKey_log (s : St) (c : Call) (h1 : c ≠ Call.snx_codec_rc_init)
    (h2 : c ≠ Call.snx_codec_rc_update) : rateKey (s.log c) = rateKey s := by
  simp only [rateKey, St.log, rcCalls_append_other s.trace c h1 h2]

theorem rateKey_stopCodec (s : St) : rateKey (stopCodec s) = rateKey s := by
  unfold stopCodec
  split
  · exact rateKey_log s _ (by decide) (by decide)
  · rfl

theorem rateKey_uninitCodec (s : St) : rateKey (uninitCodec s) = rateKey s := by
  unfold uninitCodec
  split
  · exact rateKey_log s _ (by decide) (by decide)
  · rfl

theorem rateKey_stopIsp (s : St) : rateKey (stopIsp s) = rateKey s := by
  unfold stopIsp
  split
  · exact rateKey_log s _ (by decide) (by decide)
  · rfl

theorem rateKey_uninitIsp (s : St) : rateKey (uninitIsp s) = rateKey s := by
  unfold uninitIsp
  split
  · exact rateKey_log s _ (by decide) (by decide)
  · rfl

theorem rateKey_closeCodecFd (s : St) : rateKey (closeCodecFd s) = rateKey s := by
  unfold closeCodecFd
  split
  · exact rateKey_log s _ (fun h => by cases h) (fun h => by cases h)
  · rfl

theorem rateKey_closeIspFd (s : St) : rateKey (closeIspFd s) = rateKey s := by
  unfold closeIspFd
  split
  · exact rateKey_log s _ (fun h => by cases h) (fun h => by cases h)
  · rfl

theorem rateKey_cleanup (s : St) : rateKey (cleanupSessionLocked s) = rateKey s := by
  unfold cleanupSessionLocked
  dsimp only
  have h1 : rateKey (uninitCodec (stopCodec s)) = rateKey s := by
    rw [rateKey_uninitCodec, rateKey_stopCodec]
  have h3 : ∀ t : St, rateKey (resetCapture (closeIspFd (closeCodecFd t))) = rateKey t := by
    intro t
    have : rateKey (resetCapture (closeIspFd (closeCodecFd t))) =
        rateKey (closeIspFd (closeCodecFd t)) := rfl
    rw [this, rateKey_closeIspFd, rateKey_closeCodecFd]
  rw [h3]
  split
  · rw [rateKey_uninitIsp, rateKey_stopIsp, h1]
  · exact h1

end SnxCodecController

namespace SnxCodecController

theorem rateKey_eq (s t : St) (h1 : t.session.ctx.bit_rate = s.session.ctx.bit_rate)
    (h2 : t.session.ctx.codec_fmt = s.session.ctx.codec_fmt)
    (h3 : rcCalls t.trace = rcCalls s.trace) : rateKey t = rateKey s := by
  simp only [rateKey, h1, h2, h3]

theorem rcCalls_log (s : St) (c : Call) :
    rcCalls (s.log c).trace =
      if c = Call.snx_codec_rc_init ∨ c = Call.snx_codec_rc_update then rcCalls s.trace ++ [c]
      else rcCalls s.trace := by
  simp only [rcCalls, St.log, List.filter_append, List.filter_cons, List.filter_nil,
    decide_eq_true_eq]
  split <;> simp only [List.append_nil]

theorem rateKey_openAndInitIsp (env : Env) (m : Bool) (s : St) :
    rateKey (openAndInitIsp env m s).st = rateKey s := by
  unfold openAndInitIsp
  dsimp only
  repeat' split
  all_goals
    first
      | rfl
      | (rw [rateKey_cleanup]
         refine rateKey_eq _ _ rfl rfl ?_
         simp [rcCalls, St.log, St.setCtx, List.filter_append])
      | (refine rateKey_eq _ _ rfl rfl ?_
         simp [rcCalls, St.log, St.setCtx, List.filter_append])

theorem rateKey_openCodec (env : Env) (dc : DeviceConfig) (cd : List Nat) (m : Bool) (s : St) :
    rateKey (openCodec env dc cd m s).st = rateKey s := by
  unfold openCodec
  dsimp only
  repeat' split
  all_goals
    first
      | rfl
      | (rw [rateKey_cleanup]
         refine rateKey_eq _ _ rfl rfl ?_
         simp [rcCalls, St.log, St.setCtx, List.filter_append])
      | (refine rateKey_eq _ _ rfl rfl ?_
         simp [rcCalls, St.log, St.setCtx, List.filter_append])

theorem rateKey_startIsp (env : Env) (dc : DeviceConfig) (m : Bool) (s : St) :
    rateKey (startIsp env dc m s).st = rateKey s := by
  unfold startIsp
  dsimp only
  repeat' split
  all_goals
    first
      | rfl
      | (rw [rateKey_cleanup]
         refine rateKey_eq _ _ rfl rfl ?_
         simp [rcCalls, St.log, St.setCtx, List.filter_append])
      | (refine rateKey_eq _ _ rfl rfl ?_
         simp [rcCalls, St.log, St.setCtx, List.filter_append])

theorem rateKey_startCodec (env : Env) (s : St) :
    rateKey (startCodec env s).st = rateKey s := by
  unfold startCodec
  dsimp only
  repeat' split
  all_goals
    first
      | rfl
      | (rw [rateKey_cleanup]
         refine rateKey_eq _ _ rfl rfl ?_
         simp [rcCalls, St.log, St.setCtx, List.filter_append])
      | (refine rateKey_eq _ _ rfl rfl ?_
         simp [rcCalls, St.log, St.setCtx, List.filter_append])

theorem rateKey_activate (m : Bool) (s : St) : rateKey (activate m s) = rateKey s := by
  unfold activate
  dsimp only
  repeat' split
  all_goals
    first
      | rfl
      | (refine rateKey_eq _ _ rfl rfl ?_
         simp [rcCalls, St.log, St.setCtx, List.filter_append])

end SnxCodecController

namespace SnxCodecController

theorem rateKey_orElse (l : Ladder) (f : St → Ladder) (k : Int × Nat × List Call)
    (hl : rateKey l.state = k) (hf : ∀ t, rateKey t = k → rateKey (f t).state = k) :
    rateKey (l.orElse f).state = k := by
  cases l with
  | done t => exact hl
  | failed t => exact hl
  | next t => exact hf t hl

theorem rateKey_capFallbacks (env : Env) (m : Bool) (s : St) :
    rateKey (capFallbacks env m s).state = rateKey s := by
  unfold capFallbacks
  dsimp only
  repeat' split
  all_goals
    first
      | rfl
      | (refine rateKey_eq _ _ rfl rfl ?_
         simp [Ladder.state, rcCalls, St.log, St.setCtx, List.filter_append])

theorem rateKey_m2mFallback (env : Env) (m : Bool) (s : St) :
    rateKey (m2mFallback env m s).state = rateKey s := by
  unfold m2mFallback
  dsimp only
  repeat' split
  all_goals
    first
      | rfl
      | (refine rateKey_eq _ _ rfl rfl ?_
         simp [Ladder.state, rcCalls, St.log, St.setCtx, List.filter_append])

theorem rateKey_capNodeFallback (env : Env) (dc : DeviceConfig) (m : Bool) (s : St) :
    rateKey (capNodeFallback env dc m s).state = rateKey s := by
  have hc := rateKey_closeCodecFd s
  unfold capNodeFallback
  dsimp only
  generalize closeCodecFd s = s' at hc ⊢
  repeat' split
  all_goals
    first
      | rfl
      | (rw [← hc]
         show rateKey (cleanupSessionLocked _) = _
         rw [rateKey_cleanup]
         done)
      | (rw [← hc]
         show rateKey (cleanupSessionLocked _) = _
         rw [rateKey_cleanup]
         refine rateKey_eq _ _ rfl rfl ?_
         simp [rcCalls, St.log, St.setCtx, List.filter_append])
      | (rw [← hc]
         refine rateKey_eq _ _ rfl rfl ?_
         simp [Ladder.state, rcCalls, St.log, St.setCtx, List.filter_append])

theorem rateKey_initCodec (env : Env) (dc : DeviceConfig) (m : Bool) (s : St) :
    rateKey (initCodec env dc m s).st = rateKey s := by
  have h1 : rateKey (s.log Call.snx_codec_init) = rateKey s :=
    rateKey_log s _ (by decide) (by decide)
  have hl : rateKey (if s.next env ≠ 0 then
        ((capFallbacks env m (s.log Call.snx_codec_init)).orElse (m2mFallback env m)).orElse
          (capNodeFallback env dc m)
      else Ladder.done (s.log Call.snx_codec_init)).state = rateKey s := by
    split
    · refine rateKey_orElse _ _ _ (rateKey_orElse _ _ _ ?_ ?_) ?_
      · rw [rateKey_capFallbacks, h1]
      · intro t ht
        rw [rateKey_m2mFallback, ht]
      · intro t ht
        rw [rateKey_capNodeFallback, ht]
    · exact h1
  unfold initCodec
  dsimp only
  split
  · rename_i t heq
    rw [heq] at hl
    exact hl
  · rename_i t heq
    rw [heq] at hl
    exact hl
  · rename_i t heq
    rw [heq] at hl
    rw [rateKey_cleanup]
    exact hl

theorem initRateControl_rate (env : Env) (s : St) :
    (initRateControl env s).session.ctx.bit_rate = s.session.ctx.bit_rate ∧
      (initRateControl env s).session.ctx.codec_fmt = s.session.ctx.codec_fmt ∧
      rcCalls (initRateControl env s).trace =
        (if s.session.ctx.codec_fmt = V4L2_PIX_FMT_H264 ∧ s.session.ctx.bit_rate > 0 then
          rcCalls s.trace ++ [Call.snx_codec_rc_init]
        else rcCalls s.trace) := by
  unfold initRateControl
  dsimp only
  split
  · refine ⟨rfl, rfl, ?_⟩
    simp [rcCalls, St.log, List.filter_append]
  · exact ⟨rfl, rfl, rfl⟩

end SnxCodecController

namespace SnxCodecController

theorem rated_of_key (b : Int) (l : List Call) (t : St)
    (h : rateKey t = (b, V4L2_PIX_FMT_H264, l)) : Rated b l t := by
  simp only [rateKey, Prod.mk.injEq] at h
  exact ⟨h.1, h.2.1, Or.inl h.2.2⟩

theorem rated_congr (b : Int) (l : List Call) (s t : St) (h : rateKey t = rateKey s)
    (hs : Rated b l s) : Rated b l t := by
  simp only [rateKey, Prod.mk.injEq] at h
  unfold Rated at hs ⊢
  rw [h.1, h.2.1, h.2.2]
  exact hs

theorem andThen_st (P Q : St → Prop) (r : Run) (f : St → Run) (hP : P r.st)
    (hQ : ∀ t, P t → Q t) (hf : ∀ t, P t → Q (f t).st) : Q (r.andThen f).st := by
  unfold Run.andThen
  split
  · exact hf _ hP
  · exact hQ _ hP

theorem initRateControl_rated (env : Env) (b : Int) (l : List Call) (s : St)
    (h : rateKey s = (b, V4L2_PIX_FMT_H264, l)) : Rated b l (initRateControl env s) := by
  obtain ⟨r1, r2, r3⟩ := initRateControl_rate env s
  simp only [rateKey, Prod.mk.injEq] at h
  obtain ⟨h1, h2, h3⟩ := h
  refine ⟨by rw [r1, h1], by rw [r2, h2], ?_⟩
  rw [r3, h1, h2, h3]
  by_cases hb : b > 0
  · right
    refine ⟨hb, ?_⟩
    rw [if_pos ⟨rfl, hb⟩]
  · left
    rw [if_neg (fun hh => hb hh.2)]

/-- Whatever `configureDevices` returns, the context holds the bitrate it was
asked for and H.264, and the rate controller has been seeded at most once, and
only for a positive bitrate field. -/
theorem configureDevices_rated (env : Env) (dc : DeviceConfig) (hctx : Ctx)
    (params : StreamParams) (cd : List Nat) (m : Bool) (scale : Nat) (sA : St) :
    Rated (toInt params.bitrate) (rcCalls sA.trace)
      (configureDevices env dc hctx params cd m scale sA).st := by
  have k0 : rateKey (sA.setCtx (fillContext env hctx params m scale sA.session.ctx)) =
      (toInt params.bitrate, V4L2_PIX_FMT_H264, rcCalls sA.trace) := rfl
  unfold configureDevices
  refine andThen_st (fun t => rateKey t = (toInt params.bitrate, V4L2_PIX_FMT_H264,
    rcCalls sA.trace)) _ _ _ ?_ (fun t ht => rated_of_key _ _ t ht) ?_
  · show rateKey _ = _
    rw [rateKey_openAndInitIsp, k0]
  intro sB hB
  refine andThen_st (fun t => rateKey t = (toInt params.bitrate, V4L2_PIX_FMT_H264,
    rcCalls sA.trace)) _ _ _ ?_ (fun t ht => rated_of_key _ _ t ht) ?_
  · show rateKey _ = _
    rw [rateKey_openCodec, hB]
  intro sC hC
  refine andThen_st (fun t => rateKey t = (toInt params.bitrate, V4L2_PIX_FMT_H264,
    rcCalls sA.trace)) _ _ _ ?_ (fun t ht => rated_of_key _ _ t ht) ?_
  · show rateKey _ = _
    rw [rateKey_initCodec, hC]
  intro sD hD
  have hR := initRateControl_rated env _ _ sD hD
  refine andThen_st (Rated (toInt params.bitrate) (rcCalls sA.trace)) _ _ _ ?_
    (fun t ht => ht) ?_
  · exact rated_congr _ _ _ _ (rateKey_startIsp env dc m _) hR
  intro sE hE
  refine andThen_st (Rated (toInt params.bitrate) (rcCalls sA.trace)) _ _ _ ?_
    (fun t ht => ht) ?_
  · exact rated_congr _ _ _ _ (rateKey_startCodec env _) hE
  intro sF hF
  exact rated_congr _ _ _ _ (rateKey_activate m _) hF

theorem setDeviceNames_trace (env : Env) (cd id : List Nat) (m : Bool) (s : St) :
    (setDeviceNames env cd id m s).st.trace = s.trace := by
  unfold setDeviceNames
  dsimp only
  repeat' split
  all_goals rfl

/-- A `configureSession` that returns true leaves the requested bitrate field
and H.264 in the context; whatever it returns, it has seeded the rate
controller at most once, and only for a positive bitrate field. -/
theorem configureSession_rated (env : Env) (dc : DeviceConfig) (hctx : Ctx)
    (params : StreamParams) (cd id : List Nat) (m : Bool) (scale : Nat) (s : St) :
    ((configureSession env dc hctx params cd id m scale s).ok = true →
        Rated (toInt params.bitrate) (rcCalls s.trace)
          (configureSession env dc hctx params cd id m scale s).st) ∧
      (rcCalls (configureSession env dc hctx params cd id m scale s).st.trace = rcCalls s.trace ∨
        (toInt params.bitrate > 0 ∧
          rcCalls (configureSession env dc hctx params cd id m scale s).st.trace =
            rcCalls s.trace ++ [Call.snx_codec_rc_init])) := by
  have ht := setDeviceNames_trace env cd id m s
  have hd := configureDevices_rated env dc hctx params cd m scale (setDeviceNames env cd id m s).st
  rw [ht] at hd
  unfold configureSession Run.andThen
  split
  · exact ⟨fun _ => hd, hd.2.2⟩
  · rename_i hno
    refine ⟨fun hok => absurd hok hno, Or.inl ?_⟩
    rw [ht]

end SnxCodecController

namespace SnxCodecController

/-! ## `readFrame` and the rate controller -/

theorem readSession_rate (env : Env) (cap : Captured) (b0 : List Nat) (k0 : Bool) (s : St) :
    (readSession env cap b0 k0 s).st.session.ctx.bit_rate = s.session.ctx.bit_rate ∧
      (readSession env cap b0 k0 s).st.session.ctx.codec_fmt = s.session.ctx.codec_fmt := by
  unfold readSession
  dsimp only
  repeat' split
  all_goals exact ⟨rfl, rfl⟩

theorem readSession_unfed (env : Env) (cap : Captured) (b0 : List Nat) (k0 : Bool) (s : St)
    (hb : ¬ s.session.ctx.bit_rate > 0) :
    rcCalls (readSession env cap b0 k0 s).st.trace = rcCalls s.trace := by
  have hb' : ¬ (s.log Call.snx_codec_read).session.ctx.bit_rate > 0 := hb
  unfold readSession
  dsimp only
  repeat' split
  all_goals
    first
      | rfl
      | (rename_i hg
         exact absurd hg.2.2 hb)
      | simp [rcCalls, St.log, St.setCtx, List.filter_append]

theorem readSession_fed (env : Env) (cap : Captured) (b0 : List Nat) (k0 : Bool) (s : St)
    (hf : s.session.ctx.codec_fmt = V4L2_PIX_FMT_H264) (hb : s.session.ctx.bit_rate > 0)
    (hok : (readSession env cap b0 k0 s).ok = true) :
    (readSession env cap b0 k0 s).st.trace =
      s.trace ++ [Call.snx_codec_read, Call.snx_codec_rc_update, Call.snx_codec_reset] := by
  revert hok
  unfold readSession
  dsimp only
  split
  · intro h; cases h
  split
  · intro h; cases h
  split
  · intro h; cases h
  intro hok
  have hused : cap.cap_bytesused > 0 := by
    by_contra hn
    have h0 : (max 0 cap.cap_bytesused).toNat = 0 := by
      have : max 0 cap.cap_bytesused = 0 := max_eq_left (by omega)
      rw [this]
      rfl
    simp only [St.setCtx, St.log, h0] at hok
    split at hok
    · omega
    · simp only [List.take_zero, List.isEmpty_nil, Bool.not_true, Bool.false_eq_true] at hok
  have hg : (s.log Call.snx_codec_read).session.ctx.codec_fmt = V4L2_PIX_FMT_H264 ∧
      (s.log Call.snx_codec_read).session.ctx.bit_rate > 0 := ⟨hf, hb⟩
  simp only [St.setCtx, St.log, hused, hg.1, hg.2, and_self, if_true, List.append_assoc,
    List.singleton_append]
  simp only [St.log] at hg
  simp only [hg.1, hg.2, and_self, if_true, List.append_assoc, List.singleton_append,
    List.cons_append, List.nil_append]

theorem readMany_rate (env : Env) (caps : List Captured) (s : St) :
    (readMany env caps s).session.ctx.bit_rate = s.session.ctx.bit_rate ∧
      (readMany env caps s).session.ctx.codec_fmt = s.session.ctx.codec_fmt := by
  induction caps generalizing s with
  | nil => exact ⟨rfl, rfl⟩
  | cons cap caps ih =>
    obtain ⟨a1, a2⟩ := ih (readSession env cap [] false s).st
    obtain ⟨b1, b2⟩ := readSession_rate env cap [] false s
    exact ⟨by rw [readMany, a1, b1], by rw [readMany, a2, b2]⟩

theorem readMany_unfed (env : Env) (caps : List Captured) (s : St)
    (hb : ¬ s.session.ctx.bit_rate > 0) : rcCalls (readMany env caps s).trace = rcCalls s.trace := by
  induction caps generalizing s with
  | nil => rfl
  | cons cap caps ih =>
    have h1 := (readSession_rate env cap [] false s).1
    rw [readMany, ih _ (by rw [h1]; exact hb), readSession_unfed env cap [] false s hb]

/-- A `readFrame` on a controller that is not running returns false at once; on
a running controller it is `readSession` on the session of the stream. -/
theorem readFrame_eq (env : Env) (cap : Captured) (stream : StreamKind) (b0 : List Nat)
    (k0 : Bool) (c : Controller) :
    (isRunning c = false → readFrame env cap stream b0 k0 c = (false, b0, k0, c)) ∧
      (isRunning c = true →
        (readFrame env cap stream b0 k0 c).1 =
            (readSession env cap b0 k0 ⟨sessionOf c stream, c.trace⟩).ok ∧
          (readFrame env cap stream b0 k0 c).2.2.2.trace =
            (readSession env cap b0 k0 ⟨sessionOf c stream, c.trace⟩).st.trace ∧
          sessionOf (readFrame env cap stream b0 k0 c).2.2.2 stream =
            (readSession env cap b0 k0 ⟨sessionOf c stream, c.trace⟩).st.session) := by
  constructor
  · intro h
    simp only [readFrame, h, Bool.not_false, if_true]
  · intro h
    simp only [readFrame, h, Bool.not_true, Bool.false_eq_true, if_false, true_and]
    cases stream <;> rfl

end SnxCodecController

namespace SnxCodecController

/-- C26 (amended): on a session that `configureSession` has configured, with a
target bitrate above 0 and below 2^31 every `readFrame` that returns true, after
any number of earlier reads, has issued `snx_codec_read`, then
`snx_codec_rc_update` once, then `snx_codec_reset`, and nothing else; with the
target bitrate 0 neither `configureSession` nor any number of reads issues
`snx_codec_rc_init` or `snx_codec_rc_update`. -/
theorem readFrame_feeds_rate_controller (env : Env) (dc : DeviceConfig) (hctx : Ctx)
    (params : StreamParams) (cd id : List Nat) (m : Bool) (scale : Nat) (s : St)
    (hok : (configureSession env dc hctx params cd id m scale s).ok = true) :
    (0 < params.bitrate → params.bitrate < 2 ^ 31 →
        ∀ (caps : List Captured) (cap : Captured) (b0 : List Nat) (k0 : Bool),
          (readSession env cap b0 k0
            (readMany env caps (configureSession env dc hctx params cd id m scale s).st)).ok
              = true →
          (readSession env cap b0 k0
            (readMany env caps (configureSession env dc hctx params cd id m scale s).st)).st.trace
              = (readMany env caps (configureSession env dc hctx params cd id m scale s).st).trace
                ++ [Call.snx_codec_read, Call.snx_codec_rc_update, Call.snx_codec_reset]) ∧
      (params.bitrate = 0 →
        rcCalls (configureSession env dc hctx params cd id m scale s).st.trace = rcCalls s.trace ∧
        ∀ caps : List Captured,
          rcCalls (readMany env caps
            (configureSession env dc hctx params cd id m scale s).st).trace = rcCalls s.trace) := by
  obtain ⟨h1, h2⟩ := configureSession_rated env dc hctx params cd id m scale s
  obtain ⟨hb, hf, _⟩ := h1 hok
  constructor
  · intro hpos hlt caps cap b0 k0 hread
    obtain ⟨r1, r2⟩ := readMany_rate env caps (configureSession env dc hctx params cd id m scale s).st
    have hpos' : toInt params.bitrate > 0 := by
      rw [toInt_small _ hlt]
      exact_mod_cast hpos
    exact readSession_fed env cap b0 k0 _ (by rw [r2, hf]) (by rw [r1, hb]; exact hpos') hread
  · intro hz
    have hzero : toInt params.bitrate = 0 := by
      rw [hz]
      decide
    have hnot : ¬ toInt params.bitrate > 0 := by
      rw [hzero]
      decide
    have hc : rcCalls (configureSession env dc hctx params cd id m scale s).st.trace =
        rcCalls s.trace := by
      rcases h2 with h | h
      · exact h
      · exact absurd h.1 hnot
    refine ⟨hc, fun caps => ?_⟩
    rw [readMany_unfed env caps _ (by rw [hb]; exact hnot), hc]

/-- The primary session of `fullyStarted` (bitrate 1048576) reads a frame of five
bytes. -/
theorem readFrame_feeds_rate_controller_witness :
    (readSession (envReturning [(0, 5), (2, 6)]) exampleCapture [] false
        (readMany (envReturning [(0, 5), (2, 6)]) [] fullyStarted.st)).st.trace =
      (readMany (envReturning [(0, 5), (2, 6)]) [] fullyStarted.st).trace ++
        [Call.snx_codec_read, Call.snx_codec_rc_update, Call.snx_codec_reset] :=
  (readFrame_feeds_rate_controller (envReturning [(0, 5), (2, 6)]) defaultDevices Ctx.zero
    defaultHigh devVideo1 devVideo0 true 1 ⟨Session.new, []⟩ (by decide)).1
    (by decide) (by decide) [] exampleCapture [] false (by decide)

/-- C26 (as stated) fails for the positive target bitrate 2^31: the conversion
`static_cast<int>(params.bitrate)` makes the bitrate field negative, the session
is configured without seeding the rate controller, and a `readFrame` that
returns true issues `snx_codec_read` and `snx_codec_reset` with no
`snx_codec_rc_update` in between. -/
theorem readFrame_skips_rate_controller :
    0 < highAt2G.bitrate ∧
      (configureSession (envReturning [(0, 5), (2, 6)]) defaultDevices Ctx.zero highAt2G
        devVideo1 devVideo0 true 1 ⟨Session.new, []⟩).ok = true ∧
      (readSession (envReturning [(0, 5), (2, 6)]) exampleCapture [] false
        (configureSession (envReturning [(0, 5), (2, 6)]) defaultDevices Ctx.zero highAt2G
          devVideo1 devVideo0 true 1 ⟨Session.new, []⟩).st).ok = true ∧
      (readSession (envReturning [(0, 5), (2, 6)]) exampleCapture [] false
        (configureSession (envReturning [(0, 5), (2, 6)]) defaultDevices Ctx.zero highAt2G
          devVideo1 devVideo0 true 1 ⟨Session.new, []⟩).st).st.trace =
        (configureSession (envReturning [(0, 5), (2, 6)]) defaultDevices Ctx.zero highAt2G
          devVideo1 devVideo0 true 1 ⟨Session.new, []⟩).st.trace ++
          [Call.snx_codec_read, Call.snx_codec_reset] ∧
      rcCalls (configureSession (envReturning [(0, 5), (2, 6)]) defaultDevices Ctx.zero highAt2G
        devVideo1 devVideo0 true 1 ⟨Session.new, []⟩).st.trace = [] := by
  decide

end SnxCodecController
